import Mathlib

/-!
Verification development for the fixma design-document plugin.

The source is a TypeScript plugin that analyzes and mutates a tree-shaped
scene graph. This file gives a shallow embedding of the parts of the code
under scrutiny and proves or refutes the frozen claims about them:

- layout configuration merging (src/analyze/layoutConfig.ts),
- layout intent analysis (the layout heuristics module),
- the layout fix dispatcher (src/apply/layoutFix.ts),
- the component scanner: fingerprints, content diffs, group ordering
  (src/components/scanner.ts),
- the component converter and the variant combiner
  (src/components/converter.ts, src/components/variantCombiner.ts).

Modelling conventions:
- JavaScript strings are lists of characters (JStr); string operations
  (trim, toUpperCase, indexOf style scans, the regexes actually used) are
  implemented directly over character lists.
- JavaScript numbers are rationals; Math.round is floor(q + 1/2), which is
  the ECMAScript rounding rule (round half towards positive infinity).
- The host (Figma) document is modelled explicitly where functions mutate
  it: an arena of nodes addressed by numeric ids, with the host primitives
  of the spec (section 6) implemented as pure state-passing functions.
- Recursive tree walks that the source performs on host nodes are
  structural recursions over the embedded trees; walks over the arena
  (parent chains, subtree clone and removal) take explicit fuel, and every
  caller passes fuel that is sufficient for well-formed documents.
-/

namespace Fixma

/-- JavaScript strings modelled as lists of characters. -/
abbrev JStr := List Char

/-- Embed a Lean string literal as a JStr. -/
def js (s : String) : JStr := s.data

/-- JavaScript Math.round: floor(q + 1/2), rounds half up. -/
def jsRound (q : ℚ) : Int := (q + 1/2).floor

/-- Decimal digits of a positive number, most significant first; fuel-driven
so that it is structurally recursive and kernel-computable. -/
def natCharsAux : Nat → Nat → List Char
  | 0, _ => []
  | fuel+1, n =>
    if n < 10 then [Nat.digitChar n]
    else natCharsAux fuel (n / 10) ++ [Nat.digitChar (n % 10)]

/-- Decimal rendering of a natural number, as JavaScript renders integral
numbers. -/
def natToChars (n : Nat) : JStr := natCharsAux (n+1) n

/-- Decimal rendering of an integer, as JavaScript renders integral
numbers. -/
def intToChars (i : Int) : JStr :=
  if i < 0 then '-' :: natToChars i.natAbs else natToChars i.toNat

/-- The whitespace class used by string trimming and by the regex class
backslash-s in the embedded regexes. -/
def jsWsB (c : Char) : Bool := c = ' ' || c = '\t' || c = '\n' || c = '\r'

/-- JavaScript String.prototype.trim. -/
def jsTrim (s : JStr) : JStr :=
  ((s.dropWhile jsWsB).reverse.dropWhile jsWsB).reverse

/-- JavaScript String.prototype.toUpperCase, for the ASCII range used here. -/
def jsToUpper (s : JStr) : JStr := s.map Char.toUpper

/-- JavaScript String.prototype.toLowerCase, for the ASCII range used here. -/
def jsToLower (s : JStr) : JStr := s.map Char.toLower

/-- Strict code-unit comparison of JavaScript strings (the default Array
sort comparator for strings, and our model of localeCompare). -/
def jstrLtB : JStr → JStr → Bool
  | [], [] => false
  | [], _ :: _ => true
  | _ :: _, [] => false
  | a :: as, b :: bs =>
    if a < b then true else if b < a then false else jstrLtB as bs

/-- Non-strict code-unit comparison of JavaScript strings. -/
def jstrLeB (a b : JStr) : Bool := !(jstrLtB b a)

/-- Stable sort of strings in ascending code-unit order; JavaScript engines
use a stable sort, and insertion sort is stable. -/
def jsSortStrings (l : List JStr) : List JStr :=
  List.insertionSort (fun a b => jstrLeB a b = true) l

/-- Join strings with a comma separator, as Array.prototype.join with a
comma argument does. -/
def joinComma : List JStr → JStr
  | [] => []
  | [x] => x
  | x :: y :: xs => x ++ ',' :: joinComma (y :: xs)

-- ── Layout configuration (src/analyze/layoutConfig.ts) ──────────────────────

/-- Toggle individual heuristic checks on or off. -/
structure LayoutChecks where
  cornerConstraint : Bool
  edgeConstraint : Bool
  siblingFill : Bool
  wideTall : Bool
  fullBleed : Bool
  centeredNotCenter : Bool
  deriving Repr, DecidableEq

/-- All configurable thresholds and toggles for layout analysis. -/
structure LayoutConfig where
  edgeProximityRatio : ℚ
  fillRatio : ℚ
  fullBleedRatio : ℚ
  centerTolerancePx : ℚ
  onlyDefaults : Bool
  checks : LayoutChecks
  deriving Repr, DecidableEq

/-- The built-in defaults (DEFAULT_LAYOUT_CONFIG in the source). -/
def DEFAULT_LAYOUT_CONFIG : LayoutConfig where
  edgeProximityRatio := 15/100
  fillRatio := 70/100
  fullBleedRatio := 80/100
  centerTolerancePx := 6
  onlyDefaults := false
  checks :=
    { cornerConstraint := true
      edgeConstraint := true
      siblingFill := true
      wideTall := true
      fullBleed := true
      centeredNotCenter := true }

/-- A stored, possibly partial checks object: a JSON object in which any
key may be absent (a missing key is none). -/
structure PartialLayoutChecks where
  cornerConstraint : Option Bool := none
  edgeConstraint : Option Bool := none
  siblingFill : Option Bool := none
  wideTall : Option Bool := none
  fullBleed : Option Bool := none
  centeredNotCenter : Option Bool := none
  deriving Repr, DecidableEq

/-- A stored, possibly partial layout configuration: the persisted value is
JSON, so every key is either absent or carries a value of its declared
type (JSON cannot store the JavaScript undefined). -/
structure PartialLayoutConfig where
  edgeProximityRatio : Option ℚ := none
  fillRatio : Option ℚ := none
  fullBleedRatio : Option ℚ := none
  centerTolerancePx : Option ℚ := none
  onlyDefaults : Option Bool := none
  checks : Option PartialLayoutChecks := none
  deriving Repr, DecidableEq

/-- Object-spread semantics of the source merge: keys present in the stored
object replace the defaults, then the checks key is rebuilt the same way
one level down (mergeWithDefaults in the source). -/
def mergeWithDefaults (stored : PartialLayoutConfig) : LayoutConfig :=
  let d := DEFAULT_LAYOUT_CONFIG
  let sc := stored.checks.getD {}
  { edgeProximityRatio := stored.edgeProximityRatio.getD d.edgeProximityRatio
    fillRatio := stored.fillRatio.getD d.fillRatio
    fullBleedRatio := stored.fullBleedRatio.getD d.fullBleedRatio
    centerTolerancePx := stored.centerTolerancePx.getD d.centerTolerancePx
    onlyDefaults := stored.onlyDefaults.getD d.onlyDefaults
    checks :=
      { cornerConstraint := sc.cornerConstraint.getD d.checks.cornerConstraint
        edgeConstraint := sc.edgeConstraint.getD d.checks.edgeConstraint
        siblingFill := sc.siblingFill.getD d.checks.siblingFill
        wideTall := sc.wideTall.getD d.checks.wideTall
        fullBleed := sc.fullBleed.getD d.checks.fullBleed
        centeredNotCenter := sc.centeredNotCenter.getD d.checks.centeredNotCenter } }

-- ── Layout intent analysis (the layout heuristics module) ───────────────────

/-- The apostrophe character, spliced into a few literal messages. -/
def apos : Char := Char.ofNat 39

/-- The closed constraint anchor tags of the host (ConstraintType). -/
inductive CT where
  | MIN | MAX | CENTER | STRETCH | SCALE
  deriving Repr, DecidableEq

/-- Rendering of a constraint tag, as interpolated into messages. -/
def ctStr : CT → JStr
  | .MIN => js "MIN"
  | .MAX => js "MAX"
  | .CENTER => js "CENTER"
  | .STRETCH => js "STRETCH"
  | .SCALE => js "SCALE"

/-- A constraints property value: one anchor per axis. -/
structure Constraints where
  horizontal : CT
  vertical : CT
  deriving Repr, DecidableEq

/-- The nine layout issue kinds of the source. -/
inductive LayoutIssueKind where
  | corner_constraint_mismatch
  | edge_constraint_mismatch
  | both_edges_not_stretch
  | wide_not_fill
  | tall_not_fill
  | centered_h_not_center
  | centered_v_not_center
  | sibling_fill_candidate
  | full_bleed_not_stretch
  deriving Repr, DecidableEq

/-- The snake-case rendering of an issue kind (used in dedup keys). -/
def kindStr : LayoutIssueKind → JStr
  | .corner_constraint_mismatch => js "corner_constraint_mismatch"
  | .edge_constraint_mismatch => js "edge_constraint_mismatch"
  | .both_edges_not_stretch => js "both_edges_not_stretch"
  | .wide_not_fill => js "wide_not_fill"
  | .tall_not_fill => js "tall_not_fill"
  | .centered_h_not_center => js "centered_h_not_center"
  | .centered_v_not_center => js "centered_v_not_center"
  | .sibling_fill_candidate => js "sibling_fill_candidate"
  | .full_bleed_not_stretch => js "full_bleed_not_stretch"

/-- Issue severity. -/
inductive LayoutIssueSeverity where
  | high | medium
  deriving Repr, DecidableEq

/-- A detected layout issue (LayoutIssue in the source). -/
structure LayoutIssue where
  nodeId : JStr
  nodeName : JStr
  nodeType : JStr
  parentId : JStr
  parentName : JStr
  kind : LayoutIssueKind
  severity : LayoutIssueSeverity
  description : JStr
  suggestion : JStr
  actual : JStr
  expected : JStr
  deriving Repr, DecidableEq

/-- The value snapshot of one scene node that the layout analysis reads: a
field is an Option when the source tests presence of the property with the
in operator or with optional chaining. -/
structure LProps where
  id : JStr
  name : JStr
  type : JStr
  x : ℚ
  y : ℚ
  width : ℚ
  height : ℚ
  constraints : Option Constraints
  layoutMode : Option JStr
  paddingLeft : Option ℚ
  paddingRight : Option ℚ
  paddingTop : Option ℚ
  paddingBottom : Option ℚ
  layoutGrow : Option ℚ
  layoutAlign : Option JStr
  deriving Repr, DecidableEq

/-- A scene subtree as the layout scan walks it. -/
inductive LTree where
  | node (props : LProps) (children : List LTree)

/-- Props of the root of a subtree. -/
def LTree.props : LTree → LProps
  | .node p _ => p

/-- Children of the root of a subtree. -/
def LTree.children : LTree → List LTree
  | .node _ cs => cs

/-- isAutoLayoutChild from the source, with the parent handle passed
explicitly: the parent exists, has a layoutMode property, and that mode is
not NONE. -/
def isAutoLayoutChild (parent : Option LProps) : Bool :=
  match parent with
  | some p =>
    match p.layoutMode with
    | some m => !(m = js "NONE")
    | none => false
  | none => false

/-- parentOf from the source: the parent, if it is a FRAME or COMPONENT. -/
def parentOf (parent : Option LProps) : Option LProps :=
  match parent with
  | some p => if p.type = js "FRAME" || p.type = js "COMPONENT" then some p else none
  | none => none

/-- Effective inner dimensions of a frame, accounting for padding
(innerSize in the source). -/
structure InnerSize where
  w : ℚ
  h : ℚ
  pl : ℚ
  pt : ℚ

/-- innerSize from the source; missing padding properties default to 0. -/
def innerSize (f : LProps) : InnerSize :=
  let pl := f.paddingLeft.getD 0
  let pr := f.paddingRight.getD 0
  let pt := f.paddingTop.getD 0
  let pb := f.paddingBottom.getD 0
  { w := f.width - pl - pr, h := f.height - pt - pb, pl := pl, pt := pt }

/-- hConstraint from the source: the horizontal anchor, MIN when the node
has no constraints property. -/
def hConstraint (node : LProps) : CT :=
  match node.constraints with
  | some c => c.horizontal
  | none => .MIN

/-- vConstraint from the source. -/
def vConstraint (node : LProps) : CT :=
  match node.constraints with
  | some c => c.vertical
  | none => .MIN

/-- layoutGrow from the source, defaulting to 0. -/
def layoutGrowOf (node : LProps) : ℚ := node.layoutGrow.getD 0

/-- layoutAlign from the source, defaulting to INHERIT. -/
def layoutAlignOf (node : LProps) : JStr := node.layoutAlign.getD (js "INHERIT")

/-- hasDefaultValues from the source: constraints and sizing are still at
the host defaults. -/
def hasDefaultValues (node : LProps) (parent : Option LProps) : Bool :=
  if isAutoLayoutChild parent then
    layoutGrowOf node = 0 && layoutAlignOf node = js "INHERIT"
  else
    match node.constraints with
    | some c => c.horizontal = CT.MIN && c.vertical = CT.MIN
    | none => true

/-- HEURISTIC 1 + 2 of the source (detectEdgeConstraintMismatch): edge and
corner proximity versus constraints, for nodes not inside an auto-layout
parent. The parent argument is the FRAME or COMPONENT parent that
checkLayout resolved; it is also the physical parent of the node. -/
def detectEdgeConstraintMismatch (node : LProps) (parent : LProps)
    (cfg : LayoutConfig) : Option LayoutIssue :=
  if !cfg.checks.cornerConstraint && !cfg.checks.edgeConstraint then none
  else if isAutoLayoutChild (some parent) then none
  else if node.constraints.isNone then none
  else
  let isz := innerSize parent
  let pw := isz.w
  let ph := isz.h
  if pw ≤ 0 || ph ≤ 0 then none
  else
  let nx := node.x - isz.pl
  let ny := node.y - isz.pt
  let nw := node.width
  let nh := node.height
  let gapLeft := nx
  let gapRight := pw - (nx + nw)
  let gapTop := ny
  let gapBottom := ph - (ny + nh)
  let prox := cfg.edgeProximityRatio
  let nearLeft := decide (gapLeft ≥ 0) && decide (gapLeft < pw * prox)
  let nearRight := decide (gapRight ≥ 0) && decide (gapRight < pw * prox)
  let nearTop := decide (gapTop ≥ 0) && decide (gapTop < ph * prox)
  let nearBottom := decide (gapBottom ≥ 0) && decide (gapBottom < ph * prox)
  let hc := hConstraint node
  let vc := vConstraint node
  -- Corner cases
  if cfg.checks.cornerConstraint && nearRight && nearBottom &&
      !(hc = .MAX) && !(vc = .MAX) then
    some
      { nodeId := node.id, nodeName := node.name, nodeType := node.type
        parentId := parent.id, parentName := parent.name
        kind := .corner_constraint_mismatch, severity := .high
        description := js "\"" ++ node.name ++
          js "\" sits in the bottom-right corner but is not pinned there"
        suggestion := js "Set horizontal constraint to RIGHT and vertical to BOTTOM"
        actual := js "H: " ++ ctStr hc ++ js ", V: " ++ ctStr vc
        expected := js "H: RIGHT, V: BOTTOM" }
  else if cfg.checks.cornerConstraint && nearRight && nearTop &&
      !(hc = .MAX) && !(vc = .MIN) then
    some
      { nodeId := node.id, nodeName := node.name, nodeType := node.type
        parentId := parent.id, parentName := parent.name
        kind := .corner_constraint_mismatch, severity := .high
        description := js "\"" ++ node.name ++
          js "\" sits in the top-right corner but is not pinned there"
        suggestion := js "Set horizontal constraint to RIGHT and vertical to TOP"
        actual := js "H: " ++ ctStr hc ++ js ", V: " ++ ctStr vc
        expected := js "H: RIGHT, V: TOP" }
  else if cfg.checks.cornerConstraint && nearLeft && nearBottom &&
      !(hc = .MIN) && !(vc = .MAX) then
    some
      { nodeId := node.id, nodeName := node.name, nodeType := node.type
        parentId := parent.id, parentName := parent.name
        kind := .corner_constraint_mismatch, severity := .high
        description := js "\"" ++ node.name ++
          js "\" sits in the bottom-left corner but is not pinned there"
        suggestion := js "Set horizontal constraint to LEFT and vertical to BOTTOM"
        actual := js "H: " ++ ctStr hc ++ js ", V: " ++ ctStr vc
        expected := js "H: LEFT, V: BOTTOM" }
  -- Both-edges cases
  else if cfg.checks.edgeConstraint && nearLeft && nearRight &&
      !(hc = .STRETCH) && !(hc = .SCALE) then
    some
      { nodeId := node.id, nodeName := node.name, nodeType := node.type
        parentId := parent.id, parentName := parent.name
        kind := .both_edges_not_stretch, severity := .high
        description := js "\"" ++ node.name ++ js "\" spans from left (" ++
          intToChars (jsRound gapLeft) ++ js "px) to right (" ++
          intToChars (jsRound gapRight) ++
          (js "px) edge but won" ++ [apos] ++ js "t stretch on resize")
        suggestion := js "Set horizontal constraint to LEFT & RIGHT (STRETCH) so it fills the width on all screen sizes"
        actual := js "H: " ++ ctStr hc
        expected := js "H: STRETCH" }
  else if cfg.checks.edgeConstraint && nearTop && nearBottom &&
      !(vc = .STRETCH) && !(vc = .SCALE) then
    some
      { nodeId := node.id, nodeName := node.name, nodeType := node.type
        parentId := parent.id, parentName := parent.name
        kind := .both_edges_not_stretch, severity := .high
        description := js "\"" ++ node.name ++ js "\" spans from top (" ++
          intToChars (jsRound gapTop) ++ js "px) to bottom (" ++
          intToChars (jsRound gapBottom) ++
          (js "px) edge but won" ++ [apos] ++ js "t stretch on resize")
        suggestion := js "Set vertical constraint to TOP & BOTTOM (STRETCH) so it fills the height on all screen sizes"
        actual := js "V: " ++ ctStr vc
        expected := js "V: STRETCH" }
  -- Single-edge cases
  else if cfg.checks.edgeConstraint && nearRight && !nearLeft &&
      !(hc = .MAX) && !(hc = .STRETCH) then
    some
      { nodeId := node.id, nodeName := node.name, nodeType := node.type
        parentId := parent.id, parentName := parent.name
        kind := .edge_constraint_mismatch, severity := .high
        description := js "\"" ++ node.name ++ js "\" is close to the right edge (" ++
          intToChars (jsRound gapRight) ++ js "px gap) but pinned to the left"
        suggestion := js "Set horizontal constraint to RIGHT so it stays anchored when the screen resizes"
        actual := js "H: " ++ ctStr hc
        expected := js "H: RIGHT" }
  else if cfg.checks.edgeConstraint && nearBottom && !nearTop &&
      !(vc = .MAX) && !(vc = .STRETCH) then
    some
      { nodeId := node.id, nodeName := node.name, nodeType := node.type
        parentId := parent.id, parentName := parent.name
        kind := .edge_constraint_mismatch, severity := .high
        description := js "\"" ++ node.name ++ js "\" is close to the bottom edge (" ++
          intToChars (jsRound gapBottom) ++ js "px gap) but pinned to the top"
        suggestion := js "Set vertical constraint to BOTTOM so it stays anchored when the screen resizes"
        actual := js "V: " ++ ctStr vc
        expected := js "V: BOTTOM" }
  else none

/-- HEURISTIC 3 of the source (detectWideNotFill): a wide node that should
be FILL or STRETCH. There is no vertical counterpart in the source. -/
def detectWideNotFill (node : LProps) (parent : LProps)
    (cfg : LayoutConfig) : Option LayoutIssue :=
  if !cfg.checks.wideTall then none
  else
  let pw := (innerSize parent).w
  if pw ≤ 0 then none
  else if node.width / pw < cfg.fillRatio then none
  else if isAutoLayoutChild (some parent) then
    if parent.layoutMode = some (js "HORIZONTAL") && layoutGrowOf node = 0 then
      some
        { nodeId := node.id, nodeName := node.name, nodeType := node.type
          parentId := parent.id, parentName := parent.name
          kind := .wide_not_fill, severity := .medium
          description := js "\"" ++ node.name ++ js "\" takes " ++
            intToChars (jsRound (node.width / pw * 100)) ++
            js "% of the row width but has layoutGrow = 0 (Fixed)"
          suggestion := js "Set to Fill container (layoutGrow = 1) so it expands when siblings are added"
          actual := js "layoutGrow: 0 (Fixed)"
          expected := js "layoutGrow: 1 (Fill)" }
    else if parent.layoutMode = some (js "VERTICAL") &&
        !(layoutAlignOf node = js "STRETCH") then
      some
        { nodeId := node.id, nodeName := node.name, nodeType := node.type
          parentId := parent.id, parentName := parent.name
          kind := .wide_not_fill, severity := .medium
          description := js "\"" ++ node.name ++ js "\" spans " ++
            intToChars (jsRound (node.width / pw * 100)) ++
            js "% of the container width but layoutAlign is not STRETCH"
          suggestion := js "Set layoutAlign to STRETCH so it fills the container width"
          actual := js "layoutAlign: " ++ layoutAlignOf node
          expected := js "layoutAlign: STRETCH" }
    else none
  else
    let hc := hConstraint node
    if !(hc = .STRETCH) && !(hc = .SCALE) then
      some
        { nodeId := node.id, nodeName := node.name, nodeType := node.type
          parentId := parent.id, parentName := parent.name
          kind := .wide_not_fill, severity := .medium
          description := js "\"" ++ node.name ++ js "\" covers " ++
            intToChars (jsRound (node.width / pw * 100)) ++
            js "% of parent width but horizontal constraint is not SCALE/STRETCH"
          suggestion := js "Set horizontal constraint to SCALE or LEFT & RIGHT to fill on resize"
          actual := js "H: " ++ ctStr hc
          expected := js "H: SCALE or LEFT & RIGHT" }
    else none

/-- HEURISTIC 4 of the source (detectCenteredNotCenter). -/
def detectCenteredNotCenter (node : LProps) (parent : LProps)
    (cfg : LayoutConfig) : Option LayoutIssue :=
  if !cfg.checks.centeredNotCenter then none
  else if isAutoLayoutChild (some parent) then none
  else if node.constraints.isNone then none
  else
  let isz := innerSize parent
  let pw := isz.w
  let ph := isz.h
  if pw ≤ 0 || ph ≤ 0 then none
  else
  let nx := node.x - isz.pl
  let ny := node.y - isz.pt
  let nodeCenterH := nx + node.width / 2
  let nodeCenterV := ny + node.height / 2
  let parentCenterH := pw / 2
  let parentCenterV := ph / 2
  let hc := hConstraint node
  let vc := vConstraint node
  let tol := cfg.centerTolerancePx
  if decide (|nodeCenterH - parentCenterH| ≤ tol) &&
      !(hc = .CENTER) && !(hc = .STRETCH) && !(hc = .SCALE) then
    some
      { nodeId := node.id, nodeName := node.name, nodeType := node.type
        parentId := parent.id, parentName := parent.name
        kind := .centered_h_not_center, severity := .medium
        description := js "\"" ++ node.name ++ js "\" is horizontally centred (" ++
          intToChars (jsRound |nodeCenterH - parentCenterH|) ++
          js "px off) but constraint is " ++ ctStr hc
        suggestion := js "Set horizontal constraint to CENTER so it stays centred on all screen widths"
        actual := js "H: " ++ ctStr hc
        expected := js "H: CENTER" }
  else if decide (|nodeCenterV - parentCenterV| ≤ tol) &&
      !(vc = .CENTER) && !(vc = .STRETCH) && !(vc = .SCALE) then
    some
      { nodeId := node.id, nodeName := node.name, nodeType := node.type
        parentId := parent.id, parentName := parent.name
        kind := .centered_v_not_center, severity := .medium
        description := js "\"" ++ node.name ++ js "\" is vertically centred (" ++
          intToChars (jsRound |nodeCenterV - parentCenterV|) ++
          js "px off) but constraint is " ++ ctStr vc
        suggestion := js "Set vertical constraint to CENTER so it stays centred on all screen heights"
        actual := js "V: " ++ ctStr vc
        expected := js "V: CENTER" }
  else none

/-- Maximum of a list of rationals (Math.max over a spread child list; the
callers only use it on lists with at least two entries). -/
def qListMax : List ℚ → ℚ
  | [] => 0
  | x :: xs => xs.foldl max x

/-- HEURISTIC 5 of the source (detectSiblingFillCandidate): the widest
child in a horizontal auto-layout row is Fixed instead of Fill. -/
def detectSiblingFillCandidate (parent : LTree) (cfg : LayoutConfig) :
    List LayoutIssue :=
  if !cfg.checks.siblingFill then []
  else if (parent.props.layoutMode).isNone then []
  else if !(parent.props.layoutMode = some (js "HORIZONTAL")) then []
  else if parent.children.length < 2 then []
  else
  let children := (parent.children.map LTree.props).filter
    (fun c => !(c.type = js "VECTOR") && !(c.type = js "BOOLEAN_OPERATION"))
  if children.length < 2 then []
  else
  let totalWidth := children.foldl (fun s c => s + c.width) 0
  let maxWidth := qListMax (children.map LProps.width)
  children.filterMap (fun child =>
    if !(child.width = maxWidth) then none
    else if child.width / totalWidth < (50:ℚ)/100 then none
    else if !(layoutGrowOf child = 0) then none
    else if cfg.onlyDefaults && !(hasDefaultValues child (some parent.props)) then none
    else if !(children.any (fun c => !(c = child) && c.width < child.width * ((60:ℚ)/100))) then none
    else
      some
        { nodeId := child.id, nodeName := child.name, nodeType := child.type
          parentId := parent.props.id, parentName := parent.props.name
          kind := .sibling_fill_candidate, severity := .high
          description := js "\"" ++ child.name ++ js "\" is the widest item (" ++
            intToChars (jsRound child.width) ++ js "px, " ++
            intToChars (jsRound (child.width / totalWidth * 100)) ++
            js "% of row) in an Auto Layout row but is Fixed"
          suggestion := js "Set to Fill container (layoutGrow = 1) — smaller siblings stay fixed while this one expands"
          actual := js "layoutGrow: 0 (Fixed)"
          expected := js "layoutGrow: 1 (Fill)" })

/-- HEURISTIC 6 of the source (detectFullBleedNotStretch). -/
def detectFullBleedNotStretch (node : LProps) (parent : LProps)
    (cfg : LayoutConfig) : Option LayoutIssue :=
  if !cfg.checks.fullBleed then none
  else if isAutoLayoutChild (some parent) then none
  else if node.constraints.isNone then none
  else
  let isz := innerSize parent
  let pw := isz.w
  let ph := isz.h
  if pw ≤ 0 || ph ≤ 0 then none
  else
  let ratio := cfg.fullBleedRatio
  if node.width / pw < ratio || node.height / ph < ratio then none
  else
  let hc := hConstraint node
  let vc := vConstraint node
  if (hc = .STRETCH || hc = .SCALE) && (vc = .STRETCH || vc = .SCALE) then none
  else
    some
      { nodeId := node.id, nodeName := node.name, nodeType := node.type
        parentId := parent.id, parentName := parent.name
        kind := .full_bleed_not_stretch, severity := .medium
        description := js "\"" ++ node.name ++ js "\" covers " ++
          intToChars (jsRound (node.width / pw * 100)) ++ js "% × " ++
          intToChars (jsRound (node.height / ph * 100)) ++
          (js "% of its parent but won" ++ [apos] ++ js "t stretch on resize")
        suggestion := js "Set both constraints to SCALE (or LEFT & RIGHT + TOP & BOTTOM) so it fills the container on all screen sizes"
        actual := js "H: " ++ ctStr hc ++ js ", V: " ++ ctStr vc
        expected := js "H: SCALE or STRETCH, V: SCALE or STRETCH" }

/-- The accumulating state of the layout scan: the issue list and the
dedup seen-set of nodeId::kind keys. -/
structure ScanSt where
  issues : List LayoutIssue
  seen : List JStr
  deriving Repr, DecidableEq

/-- addIfNew from the source: push the issue unless its (nodeId, kind) key
was already seen. -/
def addIfNew (st : ScanSt) (oi : Option LayoutIssue) : ScanSt :=
  match oi with
  | none => st
  | some issue =>
    let key := issue.nodeId ++ js "::" ++ kindStr issue.kind
    if st.seen.contains key then st
    else { issues := st.issues ++ [issue], seen := st.seen ++ [key] }

mutual

/-- scanNode from checkLayout in the source: run the per-node detectors
against the FRAME or COMPONENT parent, run the sibling detector on
auto-layout frames, then recurse. The parent argument is the props of the
physical parent of the visited node, if any. -/
def scanNodeL (cfg : LayoutConfig) (parent : Option LProps) (t : LTree)
    (st : ScanSt) : ScanSt :=
  match t with
  | .node p cs =>
    if p.type = js "PAGE" then scanListL cfg (some p) cs st
    else
      let st1 :=
        match parentOf parent with
        | some pr =>
          if cfg.onlyDefaults && !(hasDefaultValues p parent) then st
          else
            let a := addIfNew st (detectEdgeConstraintMismatch p pr cfg)
            let b := addIfNew a (detectWideNotFill p pr cfg)
            let c := addIfNew b (detectCenteredNotCenter p pr cfg)
            addIfNew c (detectFullBleedNotStretch p pr cfg)
        | none => st
      let st2 :=
        if (p.type = js "FRAME" || p.type = js "COMPONENT") && p.layoutMode.isSome then
          (detectSiblingFillCandidate (LTree.node p cs) cfg).foldl
            (fun s i => addIfNew s (some i)) st1
        else st1
      scanListL cfg (some p) cs st2

/-- Fold of scanNodeL over a child list, in order. -/
def scanListL (cfg : LayoutConfig) (parent : Option LProps)
    (ts : List LTree) (st : ScanSt) : ScanSt :=
  match ts with
  | [] => st
  | t :: rest => scanListL cfg parent rest (scanNodeL cfg parent t st)

end

/-- checkLayout from the source: scan all pages and return the issues. -/
def checkLayout (pages : List LTree) (config : LayoutConfig) :
    List LayoutIssue :=
  (pages.foldl (fun st pg => scanNodeL config none pg st)
    { issues := [], seen := [] }).issues

-- ── Layout fix engine (src/apply/layoutFix.ts) ──────────────────────────────

/-- The mutable state of one node as far as the fix engine touches it: the
constraints property (with a presence flag, since some node types lack
it), and the auto-layout sizing fields, which JavaScript assigns without a
presence check. -/
structure FixNode where
  hasConstraints : Bool
  constraints : Constraints
  layoutGrow : ℚ
  layoutAlign : JStr
  deriving Repr, DecidableEq

/-- The document as the fix engine sees it: node lookup by id. Fixes only
update nodes in place, so an association list suffices. -/
abbrev FixDoc := List (JStr × FixNode)

/-- figma.getNodeById as used by the fix engine. -/
def fdGet (d : FixDoc) (id : JStr) : Option FixNode :=
  (d.find? (fun kv => kv.1 = id)).map (fun kv => kv.2)

/-- Write back one mutated node. -/
def fdSet (d : FixDoc) (id : JStr) (n : FixNode) : FixDoc :=
  d.map (fun kv => if kv.1 = id then (id, n) else kv)

/-- parseConstraintValue from the source: trim, uppercase, accept the five
anchor names, map the friendly LEFT/TOP/RIGHT/BOTTOM names, default MIN. -/
def parseConstraintValue (raw : JStr) : CT :=
  let val := jsToUpper (jsTrim raw)
  if val = js "MIN" then .MIN
  else if val = js "CENTER" then .CENTER
  else if val = js "MAX" then .MAX
  else if val = js "STRETCH" then .STRETCH
  else if val = js "SCALE" then .SCALE
  else if val = js "LEFT" || val = js "TOP" then .MIN
  else if val = js "RIGHT" || val = js "BOTTOM" then .MAX
  else .MIN

/-- Character class of the capture group in the mini-grammar regex: an
uppercase letter or an underscore. -/
def isUpperOrUnderscore (c : Char) : Bool := ('A' ≤ c && c ≤ 'Z') || c = '_'

/-- One attempted match of the regex (letter)(colon)(whitespace star)
(capture of one or more upper or underscore chars) at the start of s. -/
def matchAnchorAt (letter : Char) (s : JStr) : Option JStr :=
  match s with
  | c1 :: c2 :: rest =>
    if c1 = letter && c2 = ':' then
      let grab := (rest.dropWhile jsWsB).takeWhile isUpperOrUnderscore
      if grab = [] then none else some grab
    else none
  | _ => none

/-- Leftmost match of the anchor regex anywhere in the string, as the
JavaScript match method finds it. -/
def findAnchor (letter : Char) : JStr → Option JStr
  | [] => none
  | c :: rest =>
    match matchAnchorAt letter (c :: rest) with
    | some g => some g
    | none => findAnchor letter rest

/-- parseExpectedConstraints from the source: parse the H and V anchors out
of an expected string such as H: RIGHT, V: BOTTOM; each axis defaults to
MIN when its pattern does not match. -/
def parseExpectedConstraints (expected : JStr) : CT × CT :=
  let h := match findAnchor 'H' expected with
    | some m => parseConstraintValue m
    | none => CT.MIN
  let v := match findAnchor 'V' expected with
    | some m => parseConstraintValue m
    | none => CT.MIN
  (h, v)

/-- JavaScript String.prototype.includes: substring containment. -/
def jstrIncludes (pat : JStr) : JStr → Bool
  | [] => pat.isEmpty
  | c :: rest => pat.isPrefixOf (c :: rest) || jstrIncludes pat rest

/-- JavaScript String.prototype.replace with a plain string pattern and an
empty replacement: remove the first occurrence. -/
def removeFirst (pat : JStr) : JStr → JStr
  | [] => []
  | c :: rest =>
    if pat.isPrefixOf (c :: rest) then (c :: rest).drop pat.length
    else c :: removeFirst pat rest

/-- The FIX_MAP dispatch of the source: one handler per issue kind. A
handler either throws (error) or returns the human-readable detail and the
mutated node. Every handler that throws does so before mutating, as in the
source. -/
def fixHandler (node : FixNode) (issue : LayoutIssue) :
    Except JStr (JStr × FixNode) :=
  match issue.kind with
  | .corner_constraint_mismatch =>
    if !node.hasConstraints then .error (js "Node has no constraints property")
    else
      let hv := parseExpectedConstraints issue.expected
      .ok (js "Set constraints to H: " ++ ctStr hv.1 ++ js ", V: " ++ ctStr hv.2,
        { node with constraints := { horizontal := hv.1, vertical := hv.2 } })
  | .edge_constraint_mismatch =>
    if !node.hasConstraints then .error (js "Node has no constraints property")
    else
      let current :=
        if (js "H:").isPrefixOf issue.expected then
          { node.constraints with
            horizontal := parseConstraintValue (jsTrim (removeFirst (js "H:") issue.expected)) }
        else if (js "V:").isPrefixOf issue.expected then
          { node.constraints with
            vertical := parseConstraintValue (jsTrim (removeFirst (js "V:") issue.expected)) }
        else node.constraints
      .ok (js "Set constraint " ++ issue.expected, { node with constraints := current })
  | .both_edges_not_stretch =>
    if !node.hasConstraints then .error (js "Node has no constraints property")
    else
      let current :=
        if (js "H:").isPrefixOf issue.expected then
          { node.constraints with horizontal := CT.STRETCH }
        else if (js "V:").isPrefixOf issue.expected then
          { node.constraints with vertical := CT.STRETCH }
        else node.constraints
      .ok (js "Set constraint " ++ issue.expected, { node with constraints := current })
  | .wide_not_fill =>
    if jstrIncludes (js "layoutGrow") issue.expected then
      .ok (js "Set layoutGrow = 1 (Fill container)", { node with layoutGrow := 1 })
    else if jstrIncludes (js "layoutAlign") issue.expected then
      .ok (js "Set layoutAlign = STRETCH", { node with layoutAlign := js "STRETCH" })
    else if node.hasConstraints then
      .ok (js "Set horizontal constraint to LEFT & RIGHT (STRETCH)",
        { node with constraints := { node.constraints with horizontal := CT.STRETCH } })
    else .error (js "Cannot determine fix for wide_not_fill")
  | .tall_not_fill =>
    if jstrIncludes (js "layoutGrow") issue.expected then
      .ok (js "Set layoutGrow = 1 (Fill container)", { node with layoutGrow := 1 })
    else if jstrIncludes (js "layoutAlign") issue.expected then
      .ok (js "Set layoutAlign = STRETCH", { node with layoutAlign := js "STRETCH" })
    else if node.hasConstraints then
      .ok (js "Set vertical constraint to TOP & BOTTOM (STRETCH)",
        { node with constraints := { node.constraints with vertical := CT.STRETCH } })
    else .error (js "Cannot determine fix for tall_not_fill")
  | .centered_h_not_center =>
    if !node.hasConstraints then .error (js "Node has no constraints property")
    else
      .ok (js "Set horizontal constraint to CENTER",
        { node with constraints := { node.constraints with horizontal := CT.CENTER } })
  | .centered_v_not_center =>
    if !node.hasConstraints then .error (js "Node has no constraints property")
    else
      .ok (js "Set vertical constraint to CENTER",
        { node with constraints := { node.constraints with vertical := CT.CENTER } })
  | .sibling_fill_candidate =>
    .ok (js "Set layoutGrow = 1 (Fill container)", { node with layoutGrow := 1 })
  | .full_bleed_not_stretch =>
    if !node.hasConstraints then .error (js "Node has no constraints property")
    else
      .ok (js "Set constraints to H: SCALE, V: SCALE",
        { node with constraints := { horizontal := CT.SCALE, vertical := CT.SCALE } })

/-- The per-issue result record of the source. -/
structure LayoutFixResult where
  nodeId : JStr
  nodeName : JStr
  kind : LayoutIssueKind
  success : Bool
  error : Option JStr
  detail : JStr
  deriving Repr, DecidableEq

/-- fixLayoutIssue from the source. The try/catch of the source is the
Except of the handler: a missing node and a thrown handler both become a
structured failure result, and on failure the document is unchanged
(every handler throws before mutating). The kind is a closed union here,
so the no-fix-handler branch of the source is unreachable. -/
def fixLayoutIssue (d : FixDoc) (issue : LayoutIssue) :
    FixDoc × LayoutFixResult :=
  match fdGet d issue.nodeId with
  | none =>
    (d, { nodeId := issue.nodeId, nodeName := issue.nodeName, kind := issue.kind
          success := false
          error := some (js "Node not found (may have been deleted)")
          detail := [] })
  | some node =>
    match fixHandler node issue with
    | .ok dn =>
      (fdSet d issue.nodeId dn.2,
        { nodeId := issue.nodeId, nodeName := issue.nodeName, kind := issue.kind
          success := true, error := none, detail := dn.1 })
    | .error e =>
      (d, { nodeId := issue.nodeId, nodeName := issue.nodeName, kind := issue.kind
            success := false, error := some e, detail := [] })

/-- fixAllLayoutIssues from the source: apply each fix in order against the
evolving document, collecting one result per issue. -/
def fixAllLayoutIssues (d : FixDoc) : List LayoutIssue → FixDoc × List LayoutFixResult
  | [] => (d, [])
  | i :: rest =>
    let step := fixLayoutIssue d i
    let restOut := fixAllLayoutIssues step.1 rest
    (restOut.1, step.2 :: restOut.2)

-- ── Component scanner (src/components/scanner.ts) ───────────────────────────

/-- A paint entry as the scanner reads it: a type tag, solid color
channels, and an optional opacity. -/
structure Paint where
  ptype : JStr
  r : ℚ
  g : ℚ
  b : ℚ
  opacity : Option ℚ
  deriving Repr, DecidableEq

/-- The value snapshot of one scene node that the scanner reads. The fills
field is an Option because the source reads it with a nullish fallback. -/
structure PProps where
  id : JStr
  name : JStr
  type : JStr
  width : ℚ
  height : ℚ
  x : ℚ
  y : ℚ
  absoluteX : ℚ
  absoluteY : ℚ
  chars : JStr
  fills : Option (List Paint)
  deriving Repr, DecidableEq

/-- A scene subtree as the scanner walks it. -/
inductive PNode where
  | node (props : PProps) (children : List PNode)

/-- Props of the root of a subtree. -/
def PNode.props : PNode → PProps
  | .node p _ => p

/-- Children of the root of a subtree. -/
def PNode.children : PNode → List PNode
  | .node _ cs => cs

/-- The snap grid (SNAP = 4 in the source): round the value to the nearest
multiple of 4, halves up, as Math.round does. -/
def snap (v : ℚ) : Int := jsRound (v / 4) * 4

/-- The type-and-size prefix of a fingerprint. -/
def fpBase (p : PProps) : JStr :=
  p.type ++ js ":" ++ intToChars (snap p.width) ++ js "x" ++ intToChars (snap p.height)

mutual

/-- buildFingerprint from the source, indexed by the remaining depth
budget: the source passes the current depth and stops at maxDepth = 4;
here the argument counts down from 4, so the zero case is exactly the
depth-at-cap case of the source. Children fingerprints are sorted so that
z-order does not matter. -/
def buildFingerprintAux : Nat → PNode → JStr
  | 0, .node p _ => fpBase p
  | r+1, .node p cs =>
    if cs.isEmpty then fpBase p
    else fpBase p ++ '[' :: (joinComma (jsSortStrings (fpList r cs)) ++ [']'])

/-- Fingerprints of a child list at the given remaining depth. -/
def fpList : Nat → List PNode → List JStr
  | _, [] => []
  | r, c :: rest => buildFingerprintAux r c :: fpList r rest

end

/-- buildFingerprint from the source, at its default depth (0 of max 4). -/
def buildFingerprint (n : PNode) : JStr := buildFingerprintAux 4 n

mutual

/-- figma.getNodeById resolved against a forest of pages, depth first. -/
def findByIdT (id : JStr) : PNode → Option PNode
  | .node p cs => if p.id = id then some (.node p cs) else findByIdL id cs

/-- figma.getNodeById over a list of subtrees. -/
def findByIdL (id : JStr) : List PNode → Option PNode
  | [] => none
  | t :: rest =>
    match findByIdT id t with
    | some r => some r
    | none => findByIdL id rest

end

mutual

/-- node.findAll with a TEXT type predicate: every proper descendant whose
type is TEXT, in depth-first order. -/
def findAllTextT : PNode → List PProps
  | .node _ cs => findAllTextL cs

/-- The TEXT descendants of a list of subtrees, each subtree contributing
its root first. -/
def findAllTextL : List PNode → List PProps
  | [] => []
  | .node p cs :: rest =>
    (if p.type = js "TEXT" then [p] else []) ++ findAllTextL cs ++ findAllTextL rest

end

/-- Map.set semantics over an insertion-ordered association list: an
existing key is overwritten in place, a new key appends. -/
def setKV : List (JStr × JStr) → JStr → JStr → List (JStr × JStr)
  | [], k, v => [(k, v)]
  | kv :: rest, k, v =>
    if kv.1 = k then (k, v) :: rest else kv :: setKV rest k v

/-- Map.get semantics. -/
def getKV (m : List (JStr × JStr)) (k : JStr) : Option JStr :=
  (m.find? (fun kv => kv.1 = k)).map (fun kv => kv.2)

/-- The master text table of computeDiffs: TEXT names to characters, later
entries overwriting earlier ones as Map.set does. -/
def buildTexts (l : List PProps) : List (JStr × JStr) :=
  l.foldl (fun m t => setKV m t.name t.chars) []

/-- Text content difference for a single node versus the master. -/
structure TextDiff where
  childName : JStr
  value : JStr
  deriving Repr, DecidableEq

/-- Fill color difference for a single node versus the master. -/
structure FillDiff where
  fillIndex : Nat
  hex : JStr
  r : ℚ
  g : ℚ
  b : ℚ
  a : ℚ
  deriving Repr, DecidableEq

/-- All differences for one non-master node in a group. -/
structure DiffEntry where
  nodeId : JStr
  nodeName : JStr
  textDiffs : List TextDiff
  fillDiffs : List FillDiff
  rawFills : List Paint
  deriving Repr, DecidableEq

/-- The node metadata snapshot that the scanner records (ComponentNode_ in
the source). -/
structure ComponentNode_ where
  id : JStr
  name : JStr
  type : JStr
  width : ℚ
  height : ℚ
  absoluteX : ℚ
  absoluteY : ℚ
  relativeX : ℚ
  relativeY : ℚ
  parentId : JStr
  parentName : JStr
  pageName : JStr
  insideProtected : Bool
  deriving Repr, DecidableEq

/-- A group of structurally equivalent nodes (ComponentGroup). -/
structure ComponentGroup where
  fingerprint : JStr
  label : JStr
  nodes : List ComponentNode_
  pages : List JStr
  hasDiffs : Bool
  diffs : List DiffEntry
  deriving Repr, DecidableEq

/-- Hexadecimal digits of a natural number, fuel-driven. -/
def natHexAux : Nat → Nat → List Char
  | 0, _ => []
  | f+1, n =>
    if n < 16 then [Nat.digitChar n]
    else natHexAux f (n / 16) ++ [Nat.digitChar (n % 16)]

/-- Number.prototype.toString(16) for integral values. -/
def intHexChars (i : Int) : JStr :=
  if i < 0 then '-' :: natHexAux (i.natAbs + 1) i.natAbs
  else natHexAux (i.toNat + 1) i.toNat

/-- String.prototype.padStart(2, zero). -/
def padStart2 (s : JStr) : JStr :=
  if s.length < 2 then List.replicate (2 - s.length) '0' ++ s else s

/-- The toHex helper of rgbToHex. -/
def toHexByte (v : ℚ) : JStr := padStart2 (intHexChars (jsRound (v * 255)))

/-- rgbToHex from the source. -/
def rgbToHex (r g b : ℚ) : JStr := '#' :: (toHexByte r ++ toHexByte g ++ toHexByte b)

/-- The per-paint comparison inside fillsEqual: types must agree, and for
SOLID paints each channel and the opacity must agree within 0.01. -/
def paintClose (fa fb : Paint) : Bool :=
  fa.ptype = fb.ptype &&
    (if fa.ptype = js "SOLID" then
      !(|fa.r - fb.r| > (1:ℚ)/100) && !(|fa.g - fb.g| > (1:ℚ)/100) &&
        !(|fa.b - fb.b| > (1:ℚ)/100) &&
        !(|fa.opacity.getD 1 - fb.opacity.getD 1| > (1:ℚ)/100)
    else true)

/-- fillsEqual from the source. -/
def fillsEqual (a b : List Paint) : Bool :=
  if !(a.length = b.length) then false
  else (a.zip b).all (fun fab => paintClose fab.1 fab.2)

/-- The body of the member loop of computeDiffs, for one non-master
member: an unresolvable id yields an entry with empty diff lists, a
resolvable one yields the name-matched text diffs and the coarse fill
diff. -/
def diffOne (doc : List PNode) (masterTexts : List (JStr × JStr))
    (masterFills : List Paint) (meta : ComponentNode_) : DiffEntry :=
  match findByIdL meta.id doc with
  | none =>
    { nodeId := meta.id, nodeName := meta.name
      textDiffs := [], fillDiffs := [], rawFills := [] }
  | some node =>
    let textDiffs := (findAllTextT node).filterMap (fun t =>
      match getKV masterTexts t.name with
      | some masterValue =>
        if !(masterValue = t.chars) then some { childName := t.name, value := t.chars }
        else none
      | none => none)
    let nodeFills := node.props.fills.getD []
    let fillDiffs :=
      if !(fillsEqual masterFills nodeFills) then
        nodeFills.enum.filterMap (fun p =>
          if p.2.ptype = js "SOLID" then
            some { fillIndex := p.1, hex := rgbToHex p.2.r p.2.g p.2.b
                   r := p.2.r, g := p.2.g, b := p.2.b, a := p.2.opacity.getD 1 }
          else none)
      else []
    { nodeId := meta.id, nodeName := meta.name
      textDiffs := textDiffs, fillDiffs := fillDiffs, rawFills := nodeFills }

/-- computeDiffs from the source: nothing for groups smaller than two or
an unresolvable master; otherwise one entry per non-master member, in
member order. -/
def computeDiffs (doc : List PNode) (nodes : List ComponentNode_) : List DiffEntry :=
  match nodes with
  | [] => []
  | m0 :: rest =>
    if rest.isEmpty then []
    else
      match findByIdL m0.id doc with
      | none => []
      | some masterNode =>
        let masterTexts := buildTexts (findAllTextT masterNode)
        let masterFills := masterNode.props.fills.getD []
        rest.map (diffOne doc masterTexts masterFills)

/-- The candidate types of the scanner. -/
def isCandidateType (t : JStr) : Bool := t = js "FRAME" || t = js "GROUP"

/-- The protected types whose insides the default scan does not enter. -/
def isProtectedType (t : JStr) : Bool := t = js "COMPONENT" || t = js "INSTANCE"

/-- The fingerprint map of the scan: fingerprint to matching nodes, with
JavaScript Map insertion order (new keys append, pushes append to the
entry in place). -/
abbrev FpMap := List (JStr × List ComponentNode_)

/-- Record one candidate under its fingerprint. -/
def fpPush (m : FpMap) (fp : JStr) (meta : ComponentNode_) : FpMap :=
  if m.any (fun kv => kv.1 = fp) then
    m.map (fun kv => if kv.1 = fp then (kv.1, kv.2 ++ [meta]) else kv)
  else m ++ [(fp, [meta])]

/-- The metadata snapshot the scanner takes of a candidate node. -/
def mkMeta (p : PProps) (parent : Option PProps) (pageName : JStr)
    (inside : Bool) : ComponentNode_ :=
  { id := p.id, name := p.name, type := p.type
    width := p.width, height := p.height
    absoluteX := p.absoluteX, absoluteY := p.absoluteY
    relativeX := p.x, relativeY := p.y
    parentId := (parent.map PProps.id).getD []
    parentName := (parent.map PProps.name).getD []
    pageName := pageName
    insideProtected := inside }

mutual

/-- scanNode from the scanner: record FRAME and GROUP nodes that have at
least one child (skipping ones inside protected subtrees unless opted
in), and do not recurse into protected nodes in default mode. The inside
flag says whether some strict ancestor is COMPONENT or INSTANCE, which is
what the isInsideProtected parent walk of the source computes. -/
def scanNodeC (includeProtected : Bool) (pageName : JStr)
    (parent : Option PProps) (inside : Bool) (t : PNode) (m : FpMap) : FpMap :=
  match t with
  | .node p cs =>
    let m1 :=
      if isCandidateType p.type && !cs.isEmpty && (!inside || includeProtected) then
        fpPush m (buildFingerprint (.node p cs)) (mkMeta p parent pageName inside)
      else m
    if !includeProtected && isProtectedType p.type then m1
    else scanListC includeProtected pageName (some p) (inside || isProtectedType p.type) cs m1

/-- Fold of scanNodeC over a child list, in order. -/
def scanListC (includeProtected : Bool) (pageName : JStr)
    (parent : Option PProps) (inside : Bool) (ts : List PNode) (m : FpMap) : FpMap :=
  match ts with
  | [] => m
  | t :: rest =>
    scanListC includeProtected pageName parent inside rest
      (scanNodeC includeProtected pageName parent inside t m)

end

/-- The separator class of the label regexes: whitespace, underscore or
hyphen. -/
def sepClass (c : Char) : Bool := jsWsB c || c = '_' || c = '-'

/-- Strip one trailing number, optionally preceded by one separator (the
first replace of deriveLabel). -/
def stripTrailingNumber (s : JStr) : JStr :=
  let rev := s.reverse
  let digits := rev.takeWhile Char.isDigit
  if digits.isEmpty then s
  else
    let rest := rev.drop digits.length
    match rest with
    | c :: rest2 => if sepClass c then rest2.reverse else rest.reverse
    | [] => []

/-- The state words of the second replace of deriveLabel. -/
def STATE_WORDS : List JStr :=
  [js "default", js "hover", js "pressed", js "active", js "disabled",
   js "selected", js "focus", js "normal"]

/-- Strip a trailing state word together with the separator run before it
(the second replace of deriveLabel); the input is already lowercased. -/
def stripStateWord (s : JStr) : JStr :=
  match STATE_WORDS.find? (fun w =>
      w.isSuffixOf s && !((s.reverse.drop w.length).takeWhile sepClass).isEmpty) with
  | some w => ((s.reverse.drop w.length).dropWhile sepClass).reverse
  | none => s

/-- Nonempty all-digit string. -/
def allDigits1 (l : JStr) : Bool := !l.isEmpty && l.all Char.isDigit

/-- The dynamic regex of deriveLabel: base, an optional separator, then
one or more digits, spanning the whole name. -/
def matchesBaseNum (base n : JStr) : Bool :=
  base.isPrefixOf n &&
    (let rest := n.drop base.length
     allDigits1 rest ||
       (match rest with
        | c :: more => sepClass c && allDigits1 more
        | [] => false))

/-- deriveLabel from the source: the shared lowercased base name if every
member matches it, otherwise a size label built from the first node. -/
def deriveLabel (nodes : List ComponentNode_) : JStr :=
  match nodes with
  | [] => []
  | n0 :: _ =>
    let names := nodes.map (fun n => jsToLower (jsTrim n.name))
    let first := jsToLower (jsTrim n0.name)
    let base := jsTrim (stripStateWord (stripTrailingNumber first))
    let allShareBase := !base.isEmpty && names.all (fun n =>
      n = base || (base ++ [' ']).isPrefixOf n || (base ++ ['_']).isPrefixOf n ||
        (base ++ ['-']).isPrefixOf n || matchesBaseNum base n)
    if allShareBase && !base.isEmpty then base
    else intToChars (jsRound n0.width) ++ ['×'] ++ intToChars (jsRound n0.height) ++ js " frame"

/-- Spread of a Set built from a list: unique values in first-occurrence
order. -/
def firstDedup (l : List JStr) : List JStr :=
  l.foldl (fun acc x => if acc.contains x then acc else acc ++ [x]) []

/-- The group ordering of the scan: descending member count, then the
label comparison; this is the non-positive region of the source
comparator, with localeCompare modelled as code-unit comparison. -/
def groupLeB (a b : ComponentGroup) : Bool :=
  decide (b.nodes.length < a.nodes.length) ||
    (decide (b.nodes.length = a.nodes.length) && jstrLeB a.label b.label)

/-- scanComponentCandidates from the source: fingerprint all candidate
nodes of all pages, group fingerprints shared by at least two nodes,
attach labels and content diffs, and sort groups by descending size with
the label as tie break (a stable sort, as JavaScript engines provide). -/
def scanComponentCandidates (pages : List PNode) (includeProtected : Bool) :
    List ComponentGroup :=
  let fpMap := pages.foldl
    (fun m pg => scanNodeC includeProtected pg.props.name none false pg m) []
  let groups := fpMap.filterMap (fun kv =>
    if kv.2.length < 2 then none
    else
      let pageNames := firstDedup (kv.2.map ComponentNode_.pageName)
      let label := deriveLabel kv.2
      let diffs := computeDiffs pages kv.2
      let hasDiffs := diffs.any (fun d => !d.textDiffs.isEmpty || !d.fillDiffs.isEmpty)
      some { fingerprint := kv.1, label := label, nodes := kv.2
             pages := pageNames, hasDiffs := hasDiffs, diffs := diffs })
  List.insertionSort (fun a b => groupLeB a b = true) groups

-- ── The host document arena ─────────────────────────────────────────────────
-- The converter and the variant combiner mutate the host document through
-- the primitives of spec section 6 (lookup, create, clone, reparent,
-- remove, property setters). The document is an arena of nodes addressed
-- by numeric ids; walks over the arena take fuel bounded by the arena
-- size, which is sufficient on well-formed (acyclic) documents.

/-- One scene node of the host document, with the properties the converter
and combiner read or write. An Option field is a property the source
tests for presence (or that the node type may lack); hasChildrenProp
models the JavaScript test for a children property on the object. -/
structure SNode where
  type : JStr
  name : JStr
  x : ℚ := 0
  y : ℚ := 0
  width : ℚ := 100
  height : ℚ := 100
  parent : Option Nat := none
  children : List Nat := []
  hasChildrenProp : Bool := true
  layoutMode : Option JStr := none
  primaryAxisSizingMode : Option JStr := none
  counterAxisSizingMode : Option JStr := none
  primaryAxisAlignItems : Option JStr := none
  counterAxisAlignItems : Option JStr := none
  itemSpacing : Option ℚ := none
  paddingLeft : Option ℚ := none
  paddingRight : Option ℚ := none
  paddingTop : Option ℚ := none
  paddingBottom : Option ℚ := none
  itemReverseZIndex : Option Bool := none
  clipsContent : Option Bool := none
  cornerRadius : Option ℚ := none
  topLeftRadius : Option ℚ := none
  topRightRadius : Option ℚ := none
  bottomLeftRadius : Option ℚ := none
  bottomRightRadius : Option ℚ := none
  opacity : Option ℚ := none
  blendMode : Option JStr := none
  effects : List Nat := []
  fills : Option (List Paint) := none
  strokes : Option (List Paint) := none
  strokeWeight : Option ℚ := none
  mainComponent : Option Nat := none
  deriving Repr, DecidableEq

/-- The host document: an arena of nodes, a fresh-id counter, and the id
of the current page. -/
structure Doc where
  arena : List (Nat × SNode)
  nextId : Nat
  currentPage : Nat
  deriving Repr, DecidableEq

/-- figma.getNodeById. -/
def getN (d : Doc) (i : Nat) : Option SNode :=
  (d.arena.find? (fun kv => kv.1 = i)).map (fun kv => kv.2)

/-- Overwrite one node in place. -/
def setN (d : Doc) (i : Nat) (n : SNode) : Doc :=
  { d with arena := d.arena.map (fun kv => if kv.1 = i then (i, n) else kv) }

/-- Update one node in place, a no-op when the id does not resolve. -/
def updateN (d : Doc) (i : Nat) (f : SNode → SNode) : Doc :=
  match getN d i with
  | some n => setN d i (f n)
  | none => d

/-- Allocate a fresh node, returning its id. -/
def allocN (d : Doc) (n : SNode) : Doc × Nat :=
  ({ d with arena := d.arena ++ [(d.nextId, n)], nextId := d.nextId + 1 }, d.nextId)

/-- Remove a node from the child list of its parent and clear its parent
link (the first half of every reparent or removal). -/
def detach (d : Doc) (cid : Nat) : Doc :=
  match getN d cid with
  | some c =>
    match c.parent with
    | some pid =>
      let d1 := updateN d pid (fun p =>
        { p with children := p.children.filter (fun x => !(x = cid)) })
      updateN d1 cid (fun cc => { cc with parent := none })
    | none => d
  | none => d

/-- appendChild: detach from the old parent, then append to the end of
the child list of the new parent. -/
def appendChild (d : Doc) (pid cid : Nat) : Doc :=
  let d1 := detach d cid
  let d2 := updateN d1 pid (fun p => { p with children := p.children ++ [cid] })
  updateN d2 cid (fun c => { c with parent := some pid })

/-- List insertion at an index (the insertChild index semantics). -/
def listInsertAt (idx : Nat) (x : Nat) (l : List Nat) : List Nat :=
  l.take idx ++ x :: l.drop idx

/-- insertChild: detach, then insert at the given index of the child
list of the new parent. -/
def insertChild (d : Doc) (pid : Nat) (idx : Nat) (cid : Nat) : Doc :=
  let d1 := detach d cid
  let d2 := updateN d1 pid (fun p => { p with children := listInsertAt idx cid p.children })
  updateN d2 cid (fun c => { c with parent := some pid })

/-- Delete an id from the arena. -/
def delId (d : Doc) (i : Nat) : Doc :=
  { d with arena := d.arena.filter (fun kv => !(kv.1 = i)) }

/-- Delete a subtree from the arena, fuel-bounded. -/
def removeSubtreeF : Nat → Doc → Nat → Doc
  | 0, d, _ => d
  | fuel+1, d, i =>
    match getN d i with
    | none => d
    | some n => delId (n.children.foldl (fun dd c => removeSubtreeF fuel dd c) d) i

/-- node.remove(): detach from the parent and delete the subtree. -/
def removeNode (d : Doc) (i : Nat) : Doc :=
  removeSubtreeF d.arena.length (detach d i) i

/-- Deep clone of a subtree into fresh ids, fuel-bounded. The clone is
produced detached (no parent); every caller in the source immediately
reparents the clone with appendChild, so the transient parent of a fresh
clone is unobservable. -/
def cloneSubF : Nat → Doc → Nat → Option Nat → Doc × Option Nat
  | 0, d, _, _ => (d, none)
  | fuel+1, d, src, parentFor =>
    match getN d src with
    | none => (d, none)
    | some n =>
      let dk := allocN d { n with parent := parentFor, children := [] }
      let d2 := n.children.foldl (fun dd c =>
        let r := cloneSubF fuel dd c (some dk.2)
        match r.2 with
        | some kc => updateN r.1 dk.2 (fun kn => { kn with children := kn.children ++ [kc] })
        | none => r.1) dk.1
      (d2, some dk.2)

/-- node.clone(). -/
def cloneNode (d : Doc) (i : Nat) : Doc × Option Nat :=
  cloneSubF d.arena.length d i none

/-- Walk the ancestor chain looking for a COMPONENT or INSTANCE, starting
from the given (optional) parent, fuel-bounded. -/
def ancProtected : Nat → Doc → Option Nat → Bool
  | 0, _, _ => false
  | _+1, _, none => false
  | fuel+1, d, some i =>
    match getN d i with
    | none => false
    | some n => if isProtectedType n.type then true else ancProtected fuel d n.parent

/-- isInsideProtected of the converter sources: some strict ancestor is a
COMPONENT or INSTANCE. -/
def isInsideProtectedA (d : Doc) (i : Nat) : Bool :=
  match getN d i with
  | some n => ancProtected d.arena.length d n.parent
  | none => false

/-- Walk the ancestor chain looking for an INSTANCE. -/
def ancInstance : Nat → Doc → Option Nat → Bool
  | 0, _, _ => false
  | _+1, _, none => false
  | fuel+1, d, some i =>
    match getN d i with
    | none => false
    | some n => if n.type = js "INSTANCE" then true else ancInstance fuel d n.parent

/-- isInsideInstance of the converter sources, applied to a node id. -/
def isInsideInstanceA (d : Doc) (i : Nat) : Bool :=
  match getN d i with
  | some n => ancInstance d.arena.length d n.parent
  | none => false

/-- figma.createComponent: a fresh default COMPONENT appended to the
current page. -/
def createComponent (d : Doc) : Doc × Nat :=
  let dk := allocN d
    { type := js "COMPONENT", name := js "Component"
      parent := some d.currentPage, hasChildrenProp := true }
  (updateN dk.1 d.currentPage (fun p => { p with children := p.children ++ [dk.2] }), dk.2)

/-- component.createInstance: a fresh INSTANCE on the current page linked
to its definition, mirroring the definition size and name. The internal
children of an instance are not modelled; nothing proved here reads
them. -/
def createInstance (d : Doc) (comp : Nat) : Doc × Nat :=
  let cn := (getN d comp).getD { type := js "COMPONENT", name := js "Component" }
  let dk := allocN d
    { type := js "INSTANCE", name := cn.name
      width := cn.width, height := cn.height
      parent := some d.currentPage, hasChildrenProp := true
      mainComponent := some comp }
  (updateN dk.1 d.currentPage (fun p => { p with children := p.children ++ [dk.2] }), dk.2)

/-- node.resize(w, h): sets the size. Host side effects of resizing on
auto-layout children are not modelled; nothing proved here depends on
them. -/
def resizeN (d : Doc) (i : Nat) (w h : ℚ) : Doc :=
  updateN d i (fun n => { n with width := w, height := h })

/-- Array.prototype.indexOf semantics: the index, or minus one. -/
def jsIndexOf (l : List Nat) (x : Nat) : Int :=
  match l.findIdx? (fun y => y = x) with
  | some i => (i : Int)
  | none => -1

-- ── Component converter (src/components/converter.ts) ───────────────────────

/-- The convertible source types of the converter. -/
def isConvertibleType (t : JStr) : Bool :=
  t = js "FRAME" || t = js "GROUP" || t = js "RECTANGLE" ||
    t = js "ELLIPSE" || t = js "VECTOR"

/-- Copy one optional property when present. -/
def copyOpt {α : Type} (v : Option α) (f : α → SNode → SNode) (dst : SNode) : SNode :=
  match v with
  | some x => f x dst
  | none => dst

/-- The FRAME property copy block shared verbatim by extractToComponent
and extractFromProtected in converter.ts: auto-layout plumbing when the
source has a non-NONE layoutMode, then clip flag, corner radii, paint
and stroke; extractToComponent additionally copies effects inside this
block and extractFromProtected copies them up front, so effects are
handled by the callers. -/
def copyFrameBlock (src : SNode) (dst : SNode) : SNode :=
  if src.type = js "FRAME" then
    let dst :=
      match src.layoutMode with
      | some lm =>
        if !(lm = js "NONE") then
          let dst := { dst with layoutMode := some lm }
          let dst := copyOpt src.primaryAxisSizingMode
            (fun v c => { c with primaryAxisSizingMode := some v }) dst
          let dst := copyOpt src.counterAxisSizingMode
            (fun v c => { c with counterAxisSizingMode := some v }) dst
          let dst := copyOpt src.primaryAxisAlignItems
            (fun v c => { c with primaryAxisAlignItems := some v }) dst
          let dst := copyOpt src.counterAxisAlignItems
            (fun v c => { c with counterAxisAlignItems := some v }) dst
          let dst := copyOpt src.itemSpacing
            (fun v c => { c with itemSpacing := some v }) dst
          let dst := copyOpt src.paddingLeft
            (fun v c => { c with paddingLeft := some v }) dst
          let dst := copyOpt src.paddingRight
            (fun v c => { c with paddingRight := some v }) dst
          let dst := copyOpt src.paddingTop
            (fun v c => { c with paddingTop := some v }) dst
          let dst := copyOpt src.paddingBottom
            (fun v c => { c with paddingBottom := some v }) dst
          copyOpt src.itemReverseZIndex
            (fun v c => { c with itemReverseZIndex := some v }) dst
        else dst
      | none => dst
    let dst := copyOpt src.clipsContent
      (fun v c => { c with clipsContent := some v }) dst
    let dst := copyOpt src.cornerRadius
      (fun v c => { c with cornerRadius := some v }) dst
    let dst := copyOpt src.topLeftRadius
      (fun v c =>
        { c with topLeftRadius := some v
                 topRightRadius := src.topRightRadius
                 bottomLeftRadius := src.bottomLeftRadius
                 bottomRightRadius := src.bottomRightRadius }) dst
    let dst := copyOpt src.fills (fun v c => { c with fills := some v }) dst
    let dst := copyOpt src.strokes (fun v c => { c with strokes := some v }) dst
    copyOpt src.strokeWeight (fun v c => { c with strokeWeight := some v }) dst
  else dst

/-- The shared visual copies at the top of extractFromProtected and
nodeToComponent: opacity, blend mode, and effects when nonempty. -/
def copyVisuals (src : SNode) (dst : SNode) : SNode :=
  let dst := match src.opacity with
    | some o => { dst with opacity := some o } | none => dst
  let dst := match src.blendMode with
    | some bm => { dst with blendMode := some bm } | none => dst
  if !src.effects.isEmpty then { dst with effects := src.effects } else dst

/-- JavaScript truthy string-or-fallback for names. -/
def nameOr (name : JStr) (fallback : JStr) : JStr :=
  if name.isEmpty then fallback else name

/-- Move a child list into the component (the auto-layout branch: the
host manages positions). -/
def moveChildrenLoop (comp : Nat) (cs : List Nat) (d : Doc) : Doc :=
  cs.foldl (fun dd c => appendChild dd comp c) d

/-- Snapshot the x and y of each child before any move. -/
def snapshotPositions (d : Doc) (cs : List Nat) : List (Nat × ℚ × ℚ) :=
  cs.map (fun c =>
    match getN d c with
    | some n => (c, n.x, n.y)
    | none => (c, 0, 0))

/-- Move each child into the component and restore its snapshotted
position (the non-auto-layout branch). -/
def moveRestoreLoop (comp : Nat) : List (Nat × ℚ × ℚ) → Doc → Doc
  | [], d => d
  | (c, cx, cy) :: rest, d =>
    let d1 := appendChild d comp c
    let d2 := updateN d1 c (fun n => { n with x := cx, y := cy })
    moveRestoreLoop comp rest d2

/-- Re-lock the component size after children arrived: fixed-sized axes
of an auto-layout source keep the original size, a plain source is simply
resized back. -/
def relockSize (comp : Nat) (isAuto : Bool) (src : SNode) (w h : ℚ) (d : Doc) : Doc :=
  if isAuto then
    let hFixed := src.primaryAxisSizingMode = some (js "FIXED")
    let vFixed := src.counterAxisSizingMode = some (js "FIXED")
    if hFixed || vFixed then
      let cur := (getN d comp).getD { type := js "COMPONENT", name := [] }
      resizeN d comp (if hFixed then w else cur.width) (if vFixed then h else cur.height)
    else d
  else resizeN d comp w h

/-- extractFromProtected from converter.ts: clone the node to the page
root, build the component from the clone, replace the original inside the
protected parent with an instance, remove the original. -/
def extractFromProtected (d : Doc) (nid : Nat) : Doc × Nat :=
  match getN d nid with
  | none => (d, 0)
  | some n =>
    let page := d.currentPage
    let w := n.width
    let h := n.height
    let relX := n.x
    let relY := n.y
    let originalParent := n.parent
    let zIndex : Int :=
      match originalParent with
      | some op =>
        match getN d op with
        | some opn => jsIndexOf opn.children nid
        | none => -1
      | none => -1
    -- Step 1: clone to page root
    let dc := cloneNode d nid
    match dc.2 with
    | none => (dc.1, 0)
    | some cloned =>
      let d1 := appendChild dc.1 page cloned
      -- Step 2: build the component from the clone
      let dk := createComponent d1
      let comp := dk.2
      let d2 := dk.1
      let clonedN := (getN d2 cloned).getD n
      let d3 := updateN d2 comp (fun c =>
        copyFrameBlock clonedN (copyVisuals clonedN { c with name := nameOr n.name (js "Component") }))
      let d4 := resizeN d3 comp w h
      let isAutoLayout :=
        clonedN.type = js "FRAME" &&
          (match clonedN.layoutMode with
           | some lm => !(lm = js "NONE")
           | none => false)
      let d5 :=
        if !clonedN.children.isEmpty then
          let moved :=
            if isAutoLayout then moveChildrenLoop comp clonedN.children d4
            else moveRestoreLoop comp (snapshotPositions d4 clonedN.children) d4
          relockSize comp isAutoLayout clonedN w h moved
        else d4
      -- remove the temporary clone
      let d6 := removeNode d5 cloned
      -- Step 3: replace the original with an instance inside the parent
      let d7 :=
        match originalParent with
        | some op =>
          match getN d6 op with
          | some opn =>
            if opn.hasChildrenProp then
              let di := createInstance d6 comp
              let dIns :=
                if zIndex ≥ 0 then insertChild di.1 op zIndex.toNat di.2
                else appendChild di.1 op di.2
              updateN dIns di.2 (fun ins => { ins with x := relX, y := relY })
            else d6
          | none => d6
        | none => d6
      (removeNode d7 nid, comp)

/-- extractToComponent from converter.ts. The free path moves the
children of the source directly into the new component: positions are
snapshotted and restored for non-auto-layout sources, and the original is
removed afterwards behind a still-exists check. The protected path
delegates to extractFromProtected. -/
def extractToComponent (d : Doc) (nid : Nat) : Doc × Except JStr Nat :=
  match getN d nid with
  | none => (d, .error (js "Node not found"))
  | some n =>
    if !isConvertibleType n.type then
      (d, .error (js "Cannot convert " ++ n.type ++ js " to COMPONENT"))
    else if isInsideProtectedA d nid then
      let r := extractFromProtected d nid
      (r.1, .ok r.2)
    else
      let w := n.width
      let h := n.height
      let dk := createComponent d
      let comp := dk.2
      -- copy frame layout and paint properties before children arrive
      let d2 := updateN dk.1 comp (fun c =>
        let c := { c with name := nameOr n.name (js "Component") }
        let c := copyFrameBlock n c
        -- the source guards with a truthiness test on the effects array,
        -- which holds for every array value, so the copy is unconditional
        if n.type = js "FRAME" then { c with effects := n.effects } else c)
      -- set size before adding children
      let d3 := resizeN d2 comp w h
      let isAutoLayout :=
        n.type = js "FRAME" &&
          (match n.layoutMode with
           | some lm => !(lm = js "NONE")
           | none => false)
      -- move children
      let d4 :=
        if n.hasChildrenProp then
          if isAutoLayout then moveChildrenLoop comp n.children d3
          else moveRestoreLoop comp (snapshotPositions d3 n.children) d3
        else d3
      -- re-lock size after the move
      let d5 := relockSize comp isAutoLayout n w h d4
      -- remove the original behind a still-exists check
      let d6 :=
        match getN d5 nid with
        | some _ => removeNode d5 nid
        | none => d5
      (d6, .ok comp)

-- ── Variant combiner (src/components/variantCombiner.ts) ────────────────────

/-- The convertible types of the variant combiner (they include
COMPONENT). -/
def isConvertibleTypeVC (t : JStr) : Bool :=
  t = js "FRAME" || t = js "GROUP" || t = js "RECTANGLE" ||
    t = js "ELLIPSE" || t = js "VECTOR" || t = js "COMPONENT"

/-- The first loop of the GROUP branch of nodeToComponent: clone every
child of the group, remembering the position of each original. -/
def cloneChildrenLoop (d : Doc) : List Nat → Doc × List (Nat × ℚ × ℚ)
  | [] => (d, [])
  | c :: rest =>
    let xy : ℚ × ℚ :=
      match getN d c with
      | some cn => (cn.x, cn.y)
      | none => (0, 0)
    let dc := cloneNode d c
    match dc.2 with
    | some kc =>
      let r := cloneChildrenLoop dc.1 rest
      (r.1, (kc, xy.1, xy.2) :: r.2)
    | none => cloneChildrenLoop dc.1 rest

/-- The second loop of the GROUP branch: append each clone to the
component and restore the remembered position. -/
def appendClonesLoop (comp : Nat) : List (Nat × ℚ × ℚ) → Doc → Doc
  | [], d => d
  | (k, cx, cy) :: rest, d =>
    let d1 := appendChild d comp k
    let d2 := updateN d1 k (fun n => { n with x := cx, y := cy })
    appendClonesLoop comp rest d2

/-- nodeToComponent from variantCombiner.ts. GROUP sources have their
children cloned into the component before the group is removed; FRAME
sources have their children moved directly; childless leaf types are
cloned wholesale. -/
def nodeToComponent (d : Doc) (nid : Nat) : Doc × Except JStr Nat :=
  match getN d nid with
  | none => (d, .error (js "Node not found"))
  | some n =>
    if !isConvertibleTypeVC n.type then
      (d, .error (js "Cannot convert node type \"" ++ n.type ++ js "\" to a Component"))
    else if isInsideProtectedA d nid then
      (d, .error (js "\"" ++ nameOr n.name (natToChars nid) ++
        js "\" is inside a component or instance. Detach it first."))
    else if n.type = js "COMPONENT" then
      (d, .ok nid)
    else
      let w := n.width
      let h := n.height
      let dk := createComponent d
      let comp := dk.2
      let d2 := updateN dk.1 comp (fun c =>
        copyFrameBlock n (copyVisuals n { c with name := nameOr n.name (js "Component") }))
      let d3 := resizeN d2 comp w h
      let isAutoLayout :=
        n.type = js "FRAME" &&
          (match n.layoutMode with
           | some lm => !(lm = js "NONE")
           | none => false)
      let isGroup := n.type = js "GROUP"
      let d9 :=
        if n.hasChildrenProp && !n.children.isEmpty then
          let d6 :=
            if isGroup then
              let cl := cloneChildrenLoop d3 n.children
              let d5 := appendClonesLoop comp cl.2 cl.1
              removeNode d5 nid
            else if isAutoLayout then moveChildrenLoop comp n.children d3
            else
              let moved := moveRestoreLoop comp (snapshotPositions d3 n.children) d3
              match getN moved nid with
              | some _ => removeNode moved nid
              | none => moved
          relockSize comp isAutoLayout n w h d6
        else if !n.hasChildrenProp then
          let dc := cloneNode d3 nid
          match dc.2 with
          | some k =>
            let d5 := appendChild dc.1 comp k
            let d6 := updateN d5 k (fun c => { c with x := 0, y := 0 })
            let d7 := resizeN d6 comp w h
            removeNode d7 nid
          | none => dc.1
        else d3
      (d9, .ok comp)

/-- The request shape of combineAsVariants. -/
structure CombineAsVariantsRequest where
  nodeIds : List Nat
  componentSetName : Option JStr := none
  propertyName : Option JStr := none
  deriving Repr, DecidableEq

/-- The result shape of combineAsVariants. -/
structure CombineAsVariantsResult where
  success : Bool
  componentSetId : Option Nat
  componentSetName : JStr
  variantCount : Nat
  errors : List JStr
  deriving Repr, DecidableEq

/-- The per-node snapshot the combiner takes before any conversion. -/
structure NodeSnapshotA where
  parentId : Option Nat
  relX : ℚ
  relY : ℚ
  zIndex : Int
  parentIsInstance : Bool
  absoluteX : ℚ
  absoluteY : ℚ
  deriving Repr, DecidableEq

/-- Absolute canvas position, derived by walking the ancestor chain
(the absoluteBoundingBox of the host), fuel-bounded. -/
def absPos : Nat → Doc → Nat → ℚ × ℚ
  | 0, _, _ => (0, 0)
  | fuel+1, d, i =>
    match getN d i with
    | none => (0, 0)
    | some n =>
      match n.parent with
      | none => (n.x, n.y)
      | some p =>
        let pr := absPos fuel d p
        (pr.1 + n.x, pr.2 + n.y)

/-- snapshotNode from variantCombiner.ts. -/
def snapshotNodeA (d : Doc) (i : Nat) : NodeSnapshotA :=
  match getN d i with
  | none =>
    { parentId := none, relX := 0, relY := 0, zIndex := -1
      parentIsInstance := false, absoluteX := 0, absoluteY := 0 }
  | some n =>
    let zIndex : Int :=
      match n.parent with
      | some p =>
        match getN d p with
        | some pn => jsIndexOf pn.children i
        | none => -1
      | none => -1
    let parentIsInstance :=
      match n.parent with
      | some p =>
        (match getN d p with
         | some pn => pn.type = js "INSTANCE"
         | none => false) || ancInstance d.arena.length d (some p)
      | none => false
    let ab := absPos d.arena.length d i
    { parentId := n.parent, relX := n.x, relY := n.y, zIndex := zIndex
      parentIsInstance := parentIsInstance, absoluteX := ab.1, absoluteY := ab.2 }

/-- One resolved entry of the combiner. -/
structure VariantEntry where
  originalId : Nat
  originalName : JStr
  snapshot : NodeSnapshotA
  variantName : JStr
  deriving Repr, DecidableEq

/-- figma.combineAsVariants as a host primitive: a fresh COMPONENT_SET on
the page adopting the given components, in order. -/
def combineAsVariantsHost (d : Doc) (comps : List Nat) (pg : Nat) : Doc × Nat :=
  let dk := allocN d
    { type := js "COMPONENT_SET", name := [], parent := some pg
      hasChildrenProp := true }
  let d2 := updateN dk.1 pg (fun p => { p with children := p.children ++ [dk.2] })
  (comps.foldl (fun dd c => appendChild dd dk.2 c) d2, dk.2)

/-- The walk of step 2 of combineAsVariants: from a starting node up to
the ancestor that is a direct child of the current page, if any. -/
def topAncestor : Nat → Doc → Nat → Option Nat
  | 0, _, _ => none
  | fuel+1, d, i =>
    match getN d i with
    | none => none
    | some n =>
      match n.parent with
      | none => none
      | some p => if p = d.currentPage then some i else topAncestor fuel d p

/-- combineAsVariants from variantCombiner.ts. The validation of the
request size happens before anything touches the document. -/
def combineAsVariants (d : Doc) (req : CombineAsVariantsRequest) :
    Doc × CombineAsVariantsResult :=
  let page := d.currentPage
  let propertyName :=
    match req.propertyName with
    | some p => nameOr p (js "State")
    | none => js "State"
  if req.nodeIds.length < 2 then
    (d, { success := false, componentSetId := none, componentSetName := []
          variantCount := 0
          errors := [js "At least 2 nodes are required to combine as variants"] })
  else
    -- Step 1: resolve nodes and snapshot before conversion
    let entStep := req.nodeIds.enum.foldl
      (fun (acc : List JStr × List VariantEntry) p =>
        match getN d p.2 with
        | none => (acc.1 ++ [js "Node " ++ natToChars p.2 ++ js " not found — skipped"], acc.2)
        | some n =>
          if isInsideProtectedA d p.2 then
            (acc.1 ++ [js "\"" ++ nameOr n.name (natToChars p.2) ++
              js "\" is inside a component/instance — skipped. Detach it first."], acc.2)
          else
            let variantName :=
              if p.1 = 0 then js "Default" else js "Variant" ++ natToChars (p.1 + 1)
            (acc.1, acc.2 ++ [{ originalId := p.2
                                originalName := nameOr n.name (js "Component")
                                snapshot := snapshotNodeA d p.2
                                variantName := variantName }]))
      ([], [])
    let errors0 := entStep.1
    let entries := entStep.2
    if entries.length < 2 then
      (d, { success := false, componentSetId := none, componentSetName := []
            variantCount := 0
            errors := errors0 ++
              [js "Not enough valid nodes to create a variant set (need at least 2)"] })
    else
      -- Step 2: placement for the component set
      let firstSnap := (entries.headD
        { originalId := 0, originalName := [], variantName := []
          snapshot := { parentId := none, relX := 0, relY := 0, zIndex := -1
                        parentIsInstance := false, absoluteX := 0, absoluteY := 0 } }).snapshot
      let topLevelAncestor : Option Nat :=
        match firstSnap.parentId with
        | some fp =>
          if fp = page then none
          else
            match getN d fp with
            | some _ => topAncestor d.arena.length d fp
            | none => none
        | none => none
      let place : ℚ × ℚ :=
        match topLevelAncestor with
        | some a =>
          let ab := absPos d.arena.length d a
          let an := (getN d a).getD { type := [], name := [] }
          (ab.1, ab.2 + an.height + 500)
        | none =>
          let pageChildren := ((getN d page).getD { type := [], name := [] }).children
          let mr := pageChildren.foldl
            (fun (acc : Option ℚ × ℚ) c =>
              let ab := absPos d.arena.length d c
              let cw := ((getN d c).getD { type := [], name := [] }).width
              let right := ab.1 + cw
              let mx := match acc.1 with
                | some m => if right > m then some right else some m
                | none => some right
              let fy := if acc.2 = 0 then ab.2 else acc.2
              (mx, fy))
            (none, 0)
          (match mr.1 with
           | some m => m + 500
           | none => 0, mr.2)
      -- Step 3: convert each entry
      let conv := entries.foldl
        (fun (acc : Doc × List Nat × List JStr) entry =>
          let dd := acc.1
          match getN dd entry.originalId with
          | none =>
            (dd, acc.2.1, acc.2.2 ++
              [js "Node " ++ natToChars entry.originalId ++ js " disappeared before conversion"])
          | some n =>
            let step : Doc × Except JStr Nat :=
              if n.type = js "COMPONENT" then
                (appendChild dd page entry.originalId, .ok entry.originalId)
              else
                let r := nodeToComponent dd entry.originalId
                match r.2 with
                | .ok c => (appendChild r.1 page c, .ok c)
                | .error e => (r.1, .error e)
            match step.2 with
            | .ok comp =>
              let named := updateN step.1 comp (fun c =>
                { c with name := propertyName ++ js "=" ++ entry.variantName })
              (named, acc.2.1 ++ [comp], acc.2.2)
            | .error e =>
              (step.1, acc.2.1, acc.2.2 ++
                [js "Convert failed for " ++ natToChars entry.originalId ++ js ": " ++ e]))
        (d, [], errors0)
      let d10 := conv.1
      let components := conv.2.1
      let errors1 := conv.2.2
      if components.length < 2 then
        (components.foldl (fun dd c => removeNode dd c) d10,
          { success := false, componentSetId := none, componentSetName := []
            variantCount := 0
            errors := errors1 ++ [js "Conversion failed — not enough components created"] })
      else
        -- Step 4: combine into a component set (the host primitive of the
        -- model always succeeds, so the catch branch of the source is not
        -- reachable here)
        let comb := combineAsVariantsHost d10 components page
        let cset := comb.2
        -- Step 5: name and position the set
        let setName :=
          match req.componentSetName with
          | some s => nameOr s (nameOr ((entries.headD
              { originalId := 0, originalName := [], variantName := []
                snapshot := firstSnap }).originalName) (js "Component"))
          | none => nameOr ((entries.headD
              { originalId := 0, originalName := [], variantName := []
                snapshot := firstSnap }).originalName) (js "Component")
        let d11 := updateN comb.1 cset (fun c =>
          { c with name := setName, x := place.1, y := place.2 })
        -- Step 6: replace each original position with an instance of its
        -- own variant
        let d12 := (entries.enum.foldl
          (fun dd pe =>
            match components[pe.1]? with
            | none => dd
            | some comp =>
              let snapE := pe.2.snapshot
              let di := createInstance dd comp
              let inst := di.2
              let canInsert :=
                match snapE.parentId with
                | some op =>
                  (match getN di.1 op with
                   | some opn => opn.hasChildrenProp
                   | none => false) && !snapE.parentIsInstance
                | none => false
              match snapE.parentId with
              | some op =>
                if canInsert then
                  let dA := appendChild di.1 op inst
                  let dB :=
                    if snapE.zIndex ≥ 0 then insertChild dA op snapE.zIndex.toNat inst
                    else dA
                  updateN dB inst (fun iN => { iN with x := snapE.relX, y := snapE.relY })
                else
                  let dA := appendChild di.1 page inst
                  updateN dA inst (fun iN =>
                    { iN with x := snapE.absoluteX, y := snapE.absoluteY })
              | none =>
                let dA := appendChild di.1 page inst
                updateN dA inst (fun iN =>
                  { iN with x := snapE.absoluteX, y := snapE.absoluteY }))
          d11)
        (d12,
          { success := true, componentSetId := some cset, componentSetName := setName
            variantCount := components.length, errors := errors1 })

/-- The not-found failure result of fixLayoutIssue for an issue whose node
id no longer resolves. -/
def notFoundResult (issue : LayoutIssue) : LayoutFixResult :=
  { nodeId := issue.nodeId, nodeName := issue.nodeName, kind := issue.kind
    success := false
    error := some (js "Node not found (may have been deleted)")
    detail := [] }

/-- A tiny fix document for concrete batch runs: two constraint-capable
nodes with ids a and c. -/
def fixDocW : FixDoc :=
  [(js "a",
    { hasConstraints := true
      constraints := { horizontal := CT.MIN, vertical := CT.MIN }
      layoutGrow := 0, layoutAlign := js "INHERIT" }),
   (js "c",
    { hasConstraints := true
      constraints := { horizontal := CT.MIN, vertical := CT.MIN }
      layoutGrow := 0, layoutAlign := js "INHERIT" })]

/-- A valid single-edge issue against node a. -/
def issueA : LayoutIssue :=
  { nodeId := js "a", nodeName := js "a", nodeType := js "FRAME"
    parentId := js "p", parentName := js "p"
    kind := .edge_constraint_mismatch, severity := .high
    description := [], suggestion := []
    actual := js "H: MIN", expected := js "H: RIGHT" }

/-- An issue referencing a node id that does not resolve. -/
def issueB : LayoutIssue :=
  { nodeId := js "b", nodeName := js "b", nodeType := js "FRAME"
    parentId := js "p", parentName := js "p"
    kind := .centered_h_not_center, severity := .medium
    description := [], suggestion := []
    actual := js "H: MIN", expected := js "H: CENTER" }

/-- A valid centering issue against node c. -/
def issueC : LayoutIssue :=
  { nodeId := js "c", nodeName := js "c", nodeType := js "FRAME"
    parentId := js "p", parentName := js "p"
    kind := .centered_h_not_center, severity := .medium
    description := [], suggestion := []
    actual := js "H: MIN", expected := js "H: CENTER" }

/-- A 100 by 100 plain frame with no padding and no auto layout, used as
the parent of concrete layout scenes. -/
def frameW : LProps :=
  { id := js "frame", name := js "frame", type := js "FRAME"
    x := 0, y := 0, width := 100, height := 100
    constraints := none, layoutMode := none
    paddingLeft := none, paddingRight := none, paddingTop := none, paddingBottom := none
    layoutGrow := none, layoutAlign := none }

/-- A page node for concrete layout scenes. -/
def pageW : LProps :=
  { id := js "page", name := js "Page 1", type := js "PAGE"
    x := 0, y := 0, width := 0, height := 0
    constraints := none, layoutMode := none
    paddingLeft := none, paddingRight := none, paddingTop := none, paddingBottom := none
    layoutGrow := none, layoutAlign := none }

/-- A node sitting in the bottom-right corner of frameW (gaps of 2 to the
right and bottom edges, both under 15 percent of 100) whose horizontal
constraint is already MAX but whose vertical constraint is MIN. -/
def cornerChildW : LProps :=
  { id := js "child", name := js "child", type := js "FRAME"
    x := 90, y := 90, width := 8, height := 8
    constraints := some { horizontal := CT.MAX, vertical := CT.MIN }
    layoutMode := none
    paddingLeft := none, paddingRight := none, paddingTop := none, paddingBottom := none
    layoutGrow := none, layoutAlign := none }

/-- The corner scene: a page holding frameW holding cornerChildW. -/
def cornerSceneW : LTree :=
  .node pageW [.node frameW [.node cornerChildW []]]

/-- A node occupying 80 percent of the inner parent height (at least the
default fillRatio of 70 percent) whose vertical constraint is MIN, placed
so that no other detector fires. -/
def tallChildW : LProps :=
  { id := js "tall", name := js "tall", type := js "FRAME"
    x := 20, y := 2, width := 10, height := 80
    constraints := some { horizontal := CT.MIN, vertical := CT.MIN }
    layoutMode := none
    paddingLeft := none, paddingRight := none, paddingTop := none, paddingBottom := none
    layoutGrow := none, layoutAlign := none }

/-- The tall scene: a page holding frameW holding tallChildW. -/
def tallSceneW : LTree :=
  .node pageW [.node frameW [.node tallChildW []]]

/-- A childless scanner-model node for concrete diff documents. -/
def leafPW (idn name ty chars : String) : PNode :=
  .node
    { id := js idn, name := js name, type := js ty
      width := 10, height := 10, x := 0, y := 0, absoluteX := 0, absoluteY := 0
      chars := js chars, fills := none } []

/-- A concrete master frame with one TEXT leaf named label holding A. -/
def masterTreeW : PNode :=
  .node
    { id := js "m", name := js "master", type := js "FRAME"
      width := 10, height := 10, x := 0, y := 0, absoluteX := 0, absoluteY := 0
      chars := [], fills := none }
    [leafPW "t1" "label" "TEXT" "A"]

/-- A concrete candidate frame with one TEXT leaf named label holding B. -/
def candTreeW : PNode :=
  .node
    { id := js "c", name := js "cand", type := js "FRAME"
      width := 10, height := 10, x := 0, y := 0, absoluteX := 0, absoluteY := 0
      chars := [], fills := none }
    [leafPW "t2" "label" "TEXT" "B"]

/-- The concrete diff document of the two frames. -/
def diffDocW : List PNode := [masterTreeW, candTreeW]

/-- A scanner metadata record pointing at the given id. -/
def metaW (idn : String) : ComponentNode_ :=
  { id := js idn, name := js idn, type := js "FRAME"
    width := 10, height := 10, absoluteX := 0, absoluteY := 0
    relativeX := 0, relativeY := 0
    parentId := [], parentName := [], pageName := js "Page 1"
    insideProtected := false }

-- ════════════════════════════════════════════════════════════════════════════
-- Theorems
-- ── Arena well-formedness and converter inputs (for C1) ────────────────────

def WfD (d : Doc) : Prop :=
  (∀ kv ∈ d.arena, kv.1 < d.nextId) ∧ (d.arena.map Prod.fst).Nodup

def compSeed (page : Nat) : SNode :=
  { type := js "COMPONENT", name := js "Component",
    parent := some page, hasChildrenProp := true }

def grpC1 : SNode :=
  { type := js "GROUP", name := js "Group", x := 10, y := 20,
    width := 50, height := 40, parent := some 0, children := [2] }

def docC1X : Doc :=
  { arena :=
      [ (0, { type := js "PAGE", name := js "Page 1", children := [1] }),
        (1, grpC1),
        (2, { type := js "RECTANGLE", name := js "Rect", x := 15, y := 25,
              width := 30, height := 20, parent := some 1, children := [],
              hasChildrenProp := false }) ]
    nextId := 3
    currentPage := 0 }

-- ── Fingerprint structural identity and injectivity inputs (C4) ────────────

/-- Structural identity of subtrees in the sense of the scanner: equal
types, sizes equal after snapping to the 4-unit grid, and recursively
identical child multisets (children match pairwise after some
reordering). -/
inductive StructEq : PNode → PNode → Prop
  | node {p1 p2 : PProps} {cs1 cs2 l : List PNode} :
      p1.type = p2.type → snap p1.width = snap p2.width →
      snap p1.height = snap p2.height →
      cs2.Perm l → List.Forall₂ StructEq cs1 l →
      StructEq (PNode.node p1 cs1) (PNode.node p2 cs2)

/-- Bracket-depth scan of a string: follows the nesting depth of square
brackets, failing on a comma or a closing bracket at depth zero, and
returns the final depth. -/
def scanD : Nat → JStr → Option Nat
  | d, [] => some d
  | d, c :: rest =>
    if c = ',' then (if d = 0 then none else scanD d rest)
    else if c = '[' then scanD (d + 1) rest
    else if c = ']' then (if d = 0 then none else scanD (d - 1) rest)
    else scanD d rest

/-- A wellformed fingerprint token: nonempty, brackets balanced, and no
comma or closing bracket at nesting depth zero. -/
def goodTok (s : JStr) : Bool := !s.isEmpty && (scanD 0 s == some 0)

/-- Split a string at the first comma at bracket depth zero. -/
def splitTopAux : Nat → JStr → JStr × Option JStr
  | _, [] => ([], none)
  | d, c :: rest =>
    if c = ',' ∧ d = 0 then ([], some rest)
    else
      (c :: (splitTopAux (if c = '[' then d + 1 else if c = ']' then d - 1 else d) rest).1,
       (splitTopAux (if c = '[' then d + 1 else if c = ']' then d - 1 else d) rest).2)

/-- Character classes that leave the scan state untouched. -/
def neutralChar (c : Char) : Bool := !(c = ',') && !(c = '[') && !(c = ']')

/-- Characters allowed in a node type for fingerprint injectivity: anything
except the delimiters of the fingerprint grammar. -/
def typeOkChar (c : Char) : Bool :=
  !(c = ':') && !(c = ',') && !(c = '[') && !(c = ']')

mutual

/-- Every node type in the subtree avoids the fingerprint delimiters. -/
def typesOkT : PNode → Bool
  | .node p cs => p.type.all typeOkChar && typesOkL cs

/-- typesOkT over a child list. -/
def typesOkL : List PNode → Bool
  | [] => true
  | t :: rest => typesOkT t && typesOkL rest

end

/-- One leaf of the subtree, at the given depth, has its type changed and
nothing else: the surrounding tree is shared. -/
inductive LeafTypeChanged : PNode → PNode → Nat → Prop
  | here {p1 p2 : PProps} : ¬(p1.type = p2.type) →
      LeafTypeChanged (PNode.node p1 []) (PNode.node p2 []) 0
  | deeper {p : PProps} {xs ys : List PNode} {t t2 : PNode} {k : Nat} :
      LeafTypeChanged t t2 k →
      LeafTypeChanged (PNode.node p (xs ++ t :: ys)) (PNode.node p (xs ++ t2 :: ys)) (k + 1)

def pPropsC4 (ty : String) (w h : ℚ) : PProps :=
  { id := js "n", name := js "node", type := js ty,
    width := w, height := h, x := 0, y := 0, absoluteX := 0, absoluteY := 0,
    chars := [], fills := none }

def leafC4 (ty : String) : PNode := PNode.node (pPropsC4 ty 10 10) []

def wrapC4 (t : PNode) : PNode := PNode.node (pPropsC4 "FRAME" 100 100) [t]

def deepAC4 : PNode := wrapC4 (wrapC4 (wrapC4 (wrapC4 (wrapC4 (leafC4 "RECTANGLE")))))

def deepBC4 : PNode := wrapC4 (wrapC4 (wrapC4 (wrapC4 (wrapC4 (leafC4 "ELLIPSE")))))

def permAC4 : PNode :=
  PNode.node (pPropsC4 "FRAME" 100 100) [leafC4 "RECTANGLE", leafC4 "TEXT"]

def permBC4 : PNode :=
  PNode.node (pPropsC4 "FRAME" 100 101) [leafC4 "TEXT", leafC4 "RECTANGLE"]

def oneAC4 : PNode := wrapC4 (leafC4 "RECTANGLE")

def oneBC4 : PNode := wrapC4 (leafC4 "ELLIPSE")

-- ════════════════════════════════════════════════════════════════════════════

/-- Claim C8: for every partial stored layout configuration (possibly
missing newly introduced fields, including missing members of the nested
checks object), merging with the built-in defaults yields a complete
LayoutConfig in which every missing field, top-level or inside checks,
takes its default value, and every field present in the stored config
keeps its stored value. -/
theorem claim_C8_config_merge (stored : PartialLayoutConfig) :
    ((stored.edgeProximityRatio = none →
        (mergeWithDefaults stored).edgeProximityRatio = DEFAULT_LAYOUT_CONFIG.edgeProximityRatio) ∧
      (∀ v, stored.edgeProximityRatio = some v →
        (mergeWithDefaults stored).edgeProximityRatio = v)) ∧
    ((stored.fillRatio = none →
        (mergeWithDefaults stored).fillRatio = DEFAULT_LAYOUT_CONFIG.fillRatio) ∧
      (∀ v, stored.fillRatio = some v → (mergeWithDefaults stored).fillRatio = v)) ∧
    ((stored.fullBleedRatio = none →
        (mergeWithDefaults stored).fullBleedRatio = DEFAULT_LAYOUT_CONFIG.fullBleedRatio) ∧
      (∀ v, stored.fullBleedRatio = some v → (mergeWithDefaults stored).fullBleedRatio = v)) ∧
    ((stored.centerTolerancePx = none →
        (mergeWithDefaults stored).centerTolerancePx = DEFAULT_LAYOUT_CONFIG.centerTolerancePx) ∧
      (∀ v, stored.centerTolerancePx = some v →
        (mergeWithDefaults stored).centerTolerancePx = v)) ∧
    ((stored.onlyDefaults = none →
        (mergeWithDefaults stored).onlyDefaults = DEFAULT_LAYOUT_CONFIG.onlyDefaults) ∧
      (∀ v, stored.onlyDefaults = some v → (mergeWithDefaults stored).onlyDefaults = v)) ∧
    (stored.checks = none →
      (mergeWithDefaults stored).checks = DEFAULT_LAYOUT_CONFIG.checks) ∧
    (∀ pc, stored.checks = some pc →
      ((pc.cornerConstraint = none →
          (mergeWithDefaults stored).checks.cornerConstraint =
            DEFAULT_LAYOUT_CONFIG.checks.cornerConstraint) ∧
        (∀ b, pc.cornerConstraint = some b →
          (mergeWithDefaults stored).checks.cornerConstraint = b)) ∧
      ((pc.edgeConstraint = none →
          (mergeWithDefaults stored).checks.edgeConstraint =
            DEFAULT_LAYOUT_CONFIG.checks.edgeConstraint) ∧
        (∀ b, pc.edgeConstraint = some b →
          (mergeWithDefaults stored).checks.edgeConstraint = b)) ∧
      ((pc.siblingFill = none →
          (mergeWithDefaults stored).checks.siblingFill =
            DEFAULT_LAYOUT_CONFIG.checks.siblingFill) ∧
        (∀ b, pc.siblingFill = some b →
          (mergeWithDefaults stored).checks.siblingFill = b)) ∧
      ((pc.wideTall = none →
          (mergeWithDefaults stored).checks.wideTall =
            DEFAULT_LAYOUT_CONFIG.checks.wideTall) ∧
        (∀ b, pc.wideTall = some b → (mergeWithDefaults stored).checks.wideTall = b)) ∧
      ((pc.fullBleed = none →
          (mergeWithDefaults stored).checks.fullBleed =
            DEFAULT_LAYOUT_CONFIG.checks.fullBleed) ∧
        (∀ b, pc.fullBleed = some b → (mergeWithDefaults stored).checks.fullBleed = b)) ∧
      ((pc.centeredNotCenter = none →
          (mergeWithDefaults stored).checks.centeredNotCenter =
            DEFAULT_LAYOUT_CONFIG.checks.centeredNotCenter) ∧
        (∀ b, pc.centeredNotCenter = some b →
          (mergeWithDefaults stored).checks.centeredNotCenter = b))) := by
  refine ⟨⟨?_, ?_⟩, ⟨?_, ?_⟩, ⟨?_, ?_⟩, ⟨?_, ?_⟩, ⟨?_, ?_⟩, ?_, ?_⟩
  all_goals
    first
    | (intro pc hpc
       refine ⟨⟨?_, ?_⟩, ⟨?_, ?_⟩, ⟨?_, ?_⟩, ⟨?_, ?_⟩, ⟨?_, ?_⟩, ⟨?_, ?_⟩⟩ <;>
         first
         | (intro h; simp [mergeWithDefaults, hpc, h])
         | (intro b h; simp [mergeWithDefaults, hpc, h]))
    | (intro h; simp [mergeWithDefaults, h])
    | (intro v h; simp [mergeWithDefaults, h])

/-- Witness for claim C8 at a concrete stored config that is missing the
fullBleedRatio threshold and most of the checks object. -/
theorem claim_C8_config_merge_witness :
    (mergeWithDefaults
        { fillRatio := some (1/2)
          checks := some { wideTall := some false } }).fillRatio = 1/2 ∧
    (mergeWithDefaults
        { fillRatio := some (1/2)
          checks := some { wideTall := some false } }).fullBleedRatio = 80/100 ∧
    (mergeWithDefaults
        { fillRatio := some (1/2)
          checks := some { wideTall := some false } }).checks.wideTall = false ∧
    (mergeWithDefaults
        { fillRatio := some (1/2)
          checks := some { wideTall := some false } }).checks.fullBleed = true := by
  have h := claim_C8_config_merge
    { fillRatio := some (1/2), checks := some { wideTall := some false } }
  exact ⟨h.2.1.2 _ rfl, h.2.2.1.1 rfl,
    (h.2.2.2.2.2.2 _ rfl).2.2.2.1.2 _ rfl,
    (h.2.2.2.2.2.2 _ rfl).2.2.2.2.1.1 rfl⟩

/-- Claim C7: combineAsVariants with fewer than 2 node ids returns a
validation failure and performs zero mutations: the document comes back
unchanged, so no definition, component set, or instance is created and the
tree is untouched. -/
theorem claim_C7_combine_validation (d : Doc) (req : CombineAsVariantsRequest)
    (h : req.nodeIds.length < 2) :
    combineAsVariants d req =
      (d, { success := false, componentSetId := none, componentSetName := []
            variantCount := 0
            errors := [js "At least 2 nodes are required to combine as variants"] }) := by
  simp [combineAsVariants, h]

/-- Witness for claim C7 at a one-element request against a one-page
document. -/
theorem claim_C7_combine_validation_witness :
    combineAsVariants
        { arena := [(0, { type := js "PAGE", name := js "Page 1" })]
          nextId := 1, currentPage := 0 }
        { nodeIds := [5] } =
      ({ arena := [(0, { type := js "PAGE", name := js "Page 1" })]
         nextId := 1, currentPage := 0 },
        { success := false, componentSetId := none, componentSetName := []
          variantCount := 0
          errors := [js "At least 2 nodes are required to combine as variants"] }) :=
  claim_C7_combine_validation _ _ (by decide)

-- ── Helper lemmas for the fix batch (claim C6) ──────────────────────────────

/-- Overwriting a node in the fix document never changes which ids
resolve. -/
theorem fdGet_fdSet_isSome (d : FixDoc) (i : JStr) (n : FixNode) (x : JStr) :
    (fdGet (fdSet d i n) x).isSome = (fdGet d x).isSome := by
  induction d with
  | nil => rfl
  | cons kv rest ih =>
    by_cases hk : kv.1 = i
    · by_cases hx : kv.1 = x <;>
        simp_all [fdGet, fdSet, List.find?]
    · by_cases hx : kv.1 = x <;>
        simp_all [fdGet, fdSet, List.find?]

/-- fixLayoutIssue on an unresolvable id is a structured failure with the
document unchanged. -/
theorem fixLayoutIssue_notFound (d : FixDoc) (issue : LayoutIssue)
    (h : fdGet d issue.nodeId = none) :
    fixLayoutIssue d issue = (d, notFoundResult issue) := by
  simp [fixLayoutIssue, h, notFoundResult]

/-- One fix step never changes which ids resolve. -/
theorem fixStep_get_isSome (d : FixDoc) (issue : LayoutIssue) (x : JStr) :
    (fdGet (fixLayoutIssue d issue).1 x).isSome = (fdGet d x).isSome := by
  cases hg : fdGet d issue.nodeId with
  | none => simp [fixLayoutIssue, hg]
  | some node =>
    cases hf : fixHandler node issue with
    | ok dn => simp [fixLayoutIssue, hg, hf, fdGet_fdSet_isSome]
    | error e => simp [fixLayoutIssue, hg, hf]

/-- A failed fix never mutates the document. -/
theorem fixStep_failure_unchanged (d : FixDoc) (issue : LayoutIssue)
    (h : (fixLayoutIssue d issue).2.success = false) :
    (fixLayoutIssue d issue).1 = d := by
  cases hg : fdGet d issue.nodeId with
  | none => simp [fixLayoutIssue, hg]
  | some node =>
    cases hf : fixHandler node issue with
    | ok dn => simp [fixLayoutIssue, hg, hf] at h
    | error e => simp [fixLayoutIssue, hg, hf]

/-- The results of a fix batch align one to one, in order, with the input
issues. -/
theorem fixAll_alignment (issues : List LayoutIssue) (d : FixDoc) :
    List.Forall₂
      (fun (r : LayoutFixResult) (i : LayoutIssue) =>
        r.nodeId = i.nodeId ∧ r.nodeName = i.nodeName ∧ r.kind = i.kind)
      (fixAllLayoutIssues d issues).2 issues := by
  induction issues generalizing d with
  | nil => exact .nil
  | cons i rest ih =>
    refine .cons ?_ (ih _)
    cases hg : fdGet d i.nodeId with
    | none => simp [fixLayoutIssue, hg]
    | some node =>
      cases hf : fixHandler node i with
      | ok dn => simp [fixLayoutIssue, hg, hf]
      | error e => simp [fixLayoutIssue, hg, hf]

/-- A batch that contains an unresolvable issue anywhere behaves on every
other issue exactly as the batch without it: the final document is the
one of the reduced batch, and the results are the reduced results with
the structured failure spliced in at the position of the bad issue. -/
theorem fixAll_skip_notFound (xs : List LayoutIssue) (b : LayoutIssue)
    (ys : List LayoutIssue) (d : FixDoc) (hb : fdGet d b.nodeId = none) :
    (fixAllLayoutIssues d (xs ++ b :: ys)).1 = (fixAllLayoutIssues d (xs ++ ys)).1 ∧
    (fixAllLayoutIssues d (xs ++ b :: ys)).2 =
      (fixAllLayoutIssues d xs).2 ++ notFoundResult b ::
        (fixAllLayoutIssues (fixAllLayoutIssues d xs).1 ys).2 := by
  induction xs generalizing d with
  | nil =>
    simp [fixAllLayoutIssues, fixLayoutIssue_notFound d b hb]
  | cons a xs ih =>
    have hbs : fdGet (fixLayoutIssue d a).1 b.nodeId = none := by
      have := fixStep_get_isSome d a b.nodeId
      rw [hb] at this
      cases hq : fdGet (fixLayoutIssue d a).1 b.nodeId with
      | none => rfl
      | some v => rw [hq] at this; simp at this
    have ihd := ih (fixLayoutIssue d a).1 hbs
    constructor
    · simpa [fixAllLayoutIssues] using ihd.1
    · simpa [fixAllLayoutIssues] using ihd.2

/-- Claim C6 (amended): a fix batch returns exactly one result per input
issue, in input order (the one-to-one alignment); an issue whose node id
does not resolve yields a not-found failure that leaves the document
untouched, while the rest of the batch is processed exactly as if that
issue were absent, wherever it sits in the list; a failing item never
mutates the document; and fixLayoutIssue is total (it never throws),
which the embedding exhibits by construction. -/
theorem claim_C6_fix_batch (d : FixDoc) (issues : List LayoutIssue) :
    ((fixAllLayoutIssues d issues).2.length = issues.length ∧
      List.Forall₂
        (fun (r : LayoutFixResult) (i : LayoutIssue) =>
          r.nodeId = i.nodeId ∧ r.nodeName = i.nodeName ∧ r.kind = i.kind)
        (fixAllLayoutIssues d issues).2 issues) ∧
    (∀ issue, (fixLayoutIssue d issue).2.success = false →
      (fixLayoutIssue d issue).1 = d) ∧
    (∀ issue, fdGet d issue.nodeId = none →
      fixLayoutIssue d issue = (d, notFoundResult issue)) ∧
    (∀ xs b ys, issues = xs ++ b :: ys → fdGet d b.nodeId = none →
      (fixAllLayoutIssues d issues).1 = (fixAllLayoutIssues d (xs ++ ys)).1 ∧
      (fixAllLayoutIssues d issues).2 =
        (fixAllLayoutIssues d xs).2 ++ notFoundResult b ::
          (fixAllLayoutIssues (fixAllLayoutIssues d xs).1 ys).2) := by
  refine ⟨⟨?_, fixAll_alignment issues d⟩, ?_, ?_, ?_⟩
  · exact (fixAll_alignment issues d).length_eq
  · exact fun issue h => fixStep_failure_unchanged d issue h
  · exact fun issue h => fixLayoutIssue_notFound d issue h
  · intro xs b ys hsplit hb
    subst hsplit
    exact fixAll_skip_notFound xs b ys d hb

/-- Witness for claim C6: a batch of three issues whose middle issue
references a deleted node; the batch result is the reduced batch with the
structured failure spliced in, and the per-item success flags are true,
false, true. -/
theorem claim_C6_fix_batch_witness :
    ((fixAllLayoutIssues fixDocW [issueA, issueB, issueC]).1 =
        (fixAllLayoutIssues fixDocW [issueA, issueC]).1 ∧
      (fixAllLayoutIssues fixDocW [issueA, issueB, issueC]).2 =
        (fixAllLayoutIssues fixDocW [issueA]).2 ++ notFoundResult issueB ::
          (fixAllLayoutIssues (fixAllLayoutIssues fixDocW [issueA]).1 [issueC]).2) ∧
    (fixAllLayoutIssues fixDocW [issueA, issueB, issueC]).2.map
        (fun r => r.success) = [true, false, true] :=
  ⟨(claim_C6_fix_batch fixDocW [issueA, issueB, issueC]).2.2.2
      [issueA] issueB [issueC] rfl (by decide),
    by with_unfolding_all decide⟩

/-- Counterexample to claim C2 as stated: cornerChildW sits within the
proximity threshold of both the right and the bottom edge and its
vertical constraint differs from the matching anchor MAX, so the claim
demands a high-severity corner_constraint_mismatch; the scan instead
emits a single edge_constraint_mismatch, because the corner branch of the
detector requires BOTH axes to differ from their anchors. -/
theorem claim_C2_corner_counterexample :
    (checkLayout [cornerSceneW] DEFAULT_LAYOUT_CONFIG).map (fun i => i.kind) =
      [LayoutIssueKind.edge_constraint_mismatch] := by
  with_unfolding_all decide

/-- Claim C2 (amended): for a node under the corner detector (corner check
enabled, not an auto-layout child, constraints present, positive inner
parent size) whose gaps to the two adjacent edges of a handled corner are
nonnegative and below the proximity threshold while the gaps to the two
opposite edges are not, the detector emits the high-severity corner issue
recommending the matching anchor pair exactly when the constraints on
BOTH of those axes differ from the matching anchors; only the
bottom-right, top-right and bottom-left corners are handled. -/
theorem claim_C2_corner_amended (node parent : LProps) (cfg : LayoutConfig)
    (hcc : cfg.checks.cornerConstraint = true)
    (hauto : isAutoLayoutChild (some parent) = false)
    (c : Constraints) (hcons : node.constraints = some c)
    (hpw : 0 < (innerSize parent).w)
    (hph : 0 < (innerSize parent).h) :
    (0 ≤ (innerSize parent).w - (node.x - (innerSize parent).pl + node.width) →
      (innerSize parent).w - (node.x - (innerSize parent).pl + node.width) <
        (innerSize parent).w * cfg.edgeProximityRatio →
      0 ≤ (innerSize parent).h - (node.y - (innerSize parent).pt + node.height) →
      (innerSize parent).h - (node.y - (innerSize parent).pt + node.height) <
        (innerSize parent).h * cfg.edgeProximityRatio →
      c.horizontal ≠ .MAX → c.vertical ≠ .MAX →
      (detectEdgeConstraintMismatch node parent cfg).map
          (fun i => (i.kind, i.severity, i.expected)) =
        some (.corner_constraint_mismatch, .high, js "H: RIGHT, V: BOTTOM")) ∧
    (0 ≤ (innerSize parent).w - (node.x - (innerSize parent).pl + node.width) →
      (innerSize parent).w - (node.x - (innerSize parent).pl + node.width) <
        (innerSize parent).w * cfg.edgeProximityRatio →
      0 ≤ node.y - (innerSize parent).pt →
      node.y - (innerSize parent).pt < (innerSize parent).h * cfg.edgeProximityRatio →
      ¬ (0 ≤ (innerSize parent).h - (node.y - (innerSize parent).pt + node.height) ∧
          (innerSize parent).h - (node.y - (innerSize parent).pt + node.height) <
            (innerSize parent).h * cfg.edgeProximityRatio) →
      c.horizontal ≠ .MAX → c.vertical ≠ .MIN →
      (detectEdgeConstraintMismatch node parent cfg).map
          (fun i => (i.kind, i.severity, i.expected)) =
        some (.corner_constraint_mismatch, .high, js "H: RIGHT, V: TOP")) ∧
    (0 ≤ node.x - (innerSize parent).pl →
      node.x - (innerSize parent).pl < (innerSize parent).w * cfg.edgeProximityRatio →
      0 ≤ (innerSize parent).h - (node.y - (innerSize parent).pt + node.height) →
      (innerSize parent).h - (node.y - (innerSize parent).pt + node.height) <
        (innerSize parent).h * cfg.edgeProximityRatio →
      ¬ (0 ≤ (innerSize parent).w - (node.x - (innerSize parent).pl + node.width) ∧
          (innerSize parent).w - (node.x - (innerSize parent).pl + node.width) <
            (innerSize parent).w * cfg.edgeProximityRatio) →
      c.horizontal ≠ .MIN → c.vertical ≠ .MAX →
      (detectEdgeConstraintMismatch node parent cfg).map
          (fun i => (i.kind, i.severity, i.expected)) =
        some (.corner_constraint_mismatch, .high, js "H: LEFT, V: BOTTOM")) := by
  have hnpw : ¬ (innerSize parent).w ≤ 0 := not_le.mpr hpw
  have hnph : ¬ (innerSize parent).h ≤ 0 := not_le.mpr hph
  refine ⟨?_, ?_, ?_⟩
  · intro h1 h2 h3 h4 hh hv
    simp [detectEdgeConstraintMismatch, hcc, hauto, hcons, hnpw, hnph,
      hConstraint, vConstraint, h1, h2, h3, h4, hh, hv, ge_iff_le]
  · intro h1 h2 h3 h4 hnb hh hv
    have hnb2 : ¬ (0 ≤ (innerSize parent).h - (node.y - (innerSize parent).pt + node.height)) ∨
        ¬ ((innerSize parent).h - (node.y - (innerSize parent).pt + node.height) <
          (innerSize parent).h * cfg.edgeProximityRatio) := by tauto
    rcases hnb2 with hnb2 | hnb2 <;>
      simp [detectEdgeConstraintMismatch, hcc, hauto, hcons, hnpw, hnph,
        hConstraint, vConstraint, h1, h2, h3, h4, hh, hv, hnb2, ge_iff_le]
  · intro h1 h2 h3 h4 hnr hh hv
    have hnr2 : ¬ (0 ≤ (innerSize parent).w - (node.x - (innerSize parent).pl + node.width)) ∨
        ¬ ((innerSize parent).w - (node.x - (innerSize parent).pl + node.width) <
          (innerSize parent).w * cfg.edgeProximityRatio) := by tauto
    rcases hnr2 with hnr2 | hnr2 <;>
      simp [detectEdgeConstraintMismatch, hcc, hauto, hcons, hnpw, hnph,
        hConstraint, vConstraint, h1, h2, h3, h4, hh, hv, hnr2, ge_iff_le]

/-- Witness for the amended claim C2 at the concrete bottom-right corner
scene with both constraints at MIN. -/
theorem claim_C2_corner_amended_witness :
    (detectEdgeConstraintMismatch
          { cornerChildW with constraints := some { horizontal := CT.MIN, vertical := CT.MIN } }
          frameW DEFAULT_LAYOUT_CONFIG).map
        (fun i => (i.kind, i.severity, i.expected)) =
      some (.corner_constraint_mismatch, .high, js "H: RIGHT, V: BOTTOM") :=
  (claim_C2_corner_amended
      { cornerChildW with constraints := some { horizontal := CT.MIN, vertical := CT.MIN } }
      frameW DEFAULT_LAYOUT_CONFIG rfl (by with_unfolding_all decide)
      { horizontal := CT.MIN, vertical := CT.MIN } rfl
      (by with_unfolding_all decide) (by with_unfolding_all decide)).1
    (by with_unfolding_all decide) (by with_unfolding_all decide)
    (by with_unfolding_all decide) (by with_unfolding_all decide)
    (by with_unfolding_all decide) (by with_unfolding_all decide)

-- ── Helper lemmas for claim C3: no detector produces tall_not_fill ──────────

/-- Splitting an if over the property that every some value of an Option
satisfies a predicate. -/
theorem optAll_ite {c : Prop} [Decidable c] {α : Type} {P : α → Prop} {a b : Option α}
    (ha : ∀ k, a = some k → P k) (hb : ∀ k, b = some k → P k) :
    ∀ k, (if c then a else b) = some k → P k := by
  intro k hkk
  split at hkk
  · exact ha k hkk
  · exact hb k hkk

/-- Nothing to show for none. -/
theorem optAll_none {α : Type} {P : α → Prop} :
    ∀ k : α, (none : Option α) = some k → P k := fun _ hkk => Option.noConfusion hkk

/-- A some leaf. -/
theorem optAll_some {α : Type} {P : α → Prop} {x : α} (hx : P x) :
    ∀ k, some x = some k → P k := by
  intro k hkk
  injection hkk with e
  rw [← e]
  exact hx

/-- Splitting an if over the property that every member of a list
satisfies a predicate. -/
theorem memAll_ite {c : Prop} [Decidable c] {α : Type} {P : α → Prop} {a b : List α}
    (ha : ∀ x ∈ a, P x) (hb : ∀ x ∈ b, P x) :
    ∀ x ∈ (if c then a else b), P x := by
  intro x hx
  split at hx
  · exact ha x hx
  · exact hb x hx

/-- Nothing to show for the empty list. -/
theorem memAll_nil {α : Type} {P : α → Prop} : ∀ x ∈ ([] : List α), P x :=
  fun _ hx => absurd hx (List.not_mem_nil _)

/-- The edge and corner detector only produces corner, both-edges and
single-edge kinds, never the tall kind. -/
theorem detectEdge_not_tall (node parent : LProps) (cfg : LayoutConfig)
    (iss : LayoutIssue) (h : detectEdgeConstraintMismatch node parent cfg = some iss) :
    iss.kind ≠ LayoutIssueKind.tall_not_fill := by
  have hall : ∀ k, (detectEdgeConstraintMismatch node parent cfg).map
      (fun i => i.kind) = some k → k ≠ LayoutIssueKind.tall_not_fill := by
    simp only [detectEdgeConstraintMismatch,
      apply_ite (Option.map (fun i : LayoutIssue => i.kind)),
      Option.map_some', Option.map_none']
    repeat'
      first
      | exact optAll_none
      | exact optAll_some (by simp)
      | apply optAll_ite
  exact hall iss.kind (by simp only [h, Option.map_some'])

/-- The wide detector only produces the wide kind, never the tall kind. -/
theorem detectWide_not_tall (node parent : LProps) (cfg : LayoutConfig)
    (iss : LayoutIssue) (h : detectWideNotFill node parent cfg = some iss) :
    iss.kind ≠ LayoutIssueKind.tall_not_fill := by
  have hall : ∀ k, (detectWideNotFill node parent cfg).map
      (fun i => i.kind) = some k → k ≠ LayoutIssueKind.tall_not_fill := by
    simp only [detectWideNotFill,
      apply_ite (Option.map (fun i : LayoutIssue => i.kind)),
      Option.map_some', Option.map_none']
    repeat'
      first
      | exact optAll_none
      | exact optAll_some (by simp)
      | apply optAll_ite
  exact hall iss.kind (by simp only [h, Option.map_some'])

/-- The centering detector only produces the centered kinds. -/
theorem detectCentered_not_tall (node parent : LProps) (cfg : LayoutConfig)
    (iss : LayoutIssue) (h : detectCenteredNotCenter node parent cfg = some iss) :
    iss.kind ≠ LayoutIssueKind.tall_not_fill := by
  have hall : ∀ k, (detectCenteredNotCenter node parent cfg).map
      (fun i => i.kind) = some k → k ≠ LayoutIssueKind.tall_not_fill := by
    simp only [detectCenteredNotCenter,
      apply_ite (Option.map (fun i : LayoutIssue => i.kind)),
      Option.map_some', Option.map_none']
    repeat'
      first
      | exact optAll_none
      | exact optAll_some (by simp)
      | apply optAll_ite
  exact hall iss.kind (by simp only [h, Option.map_some'])

/-- The full-bleed detector only produces the full-bleed kind. -/
theorem detectFullBleed_not_tall (node parent : LProps) (cfg : LayoutConfig)
    (iss : LayoutIssue) (h : detectFullBleedNotStretch node parent cfg = some iss) :
    iss.kind ≠ LayoutIssueKind.tall_not_fill := by
  have hall : ∀ k, (detectFullBleedNotStretch node parent cfg).map
      (fun i => i.kind) = some k → k ≠ LayoutIssueKind.tall_not_fill := by
    simp only [detectFullBleedNotStretch,
      apply_ite (Option.map (fun i : LayoutIssue => i.kind)),
      Option.map_some', Option.map_none']
    repeat'
      first
      | exact optAll_none
      | exact optAll_some (by simp)
      | apply optAll_ite
  exact hall iss.kind (by simp only [h, Option.map_some'])

/-- The sibling detector only produces the sibling kind. -/
theorem detectSibling_not_tall (parent : LTree) (cfg : LayoutConfig) :
    ∀ iss ∈ detectSiblingFillCandidate parent cfg,
      iss.kind ≠ LayoutIssueKind.tall_not_fill := by
  simp only [detectSiblingFillCandidate]
  repeat'
    first
    | exact memAll_nil
    | apply memAll_ite
  intro iss hm
  rw [List.mem_filterMap] at hm
  obtain ⟨c, -, hf⟩ := hm
  replace hf := congrArg (Option.map (fun i : LayoutIssue => i.kind)) hf
  simp only [apply_ite (Option.map (fun i : LayoutIssue => i.kind)),
    Option.map_some', Option.map_none'] at hf
  repeat' split at hf
  any_goals exact Option.noConfusion hf
  all_goals (injection hf with e; rw [← e]; simp)

/-- addIfNew preserves the absence of tall issues. -/
theorem addIfNew_not_tall (st : ScanSt) (oi : Option LayoutIssue)
    (hst : ∀ i ∈ st.issues, i.kind ≠ LayoutIssueKind.tall_not_fill)
    (hoi : ∀ iss, oi = some iss → iss.kind ≠ LayoutIssueKind.tall_not_fill) :
    ∀ i ∈ (addIfNew st oi).issues, i.kind ≠ LayoutIssueKind.tall_not_fill := by
  cases oi with
  | none => exact hst
  | some iss =>
    intro i hi
    simp only [addIfNew] at hi
    split at hi
    · exact hst i hi
    · rcases List.mem_append.mp hi with hi2 | hi2
      · exact hst i hi2
      · rcases List.mem_singleton.mp hi2 with rfl
        exact hoi i rfl

/-- The sibling fold preserves the absence of tall issues. -/
theorem foldl_addIfNew_not_tall (l : List LayoutIssue) (st : ScanSt)
    (hst : ∀ i ∈ st.issues, i.kind ≠ LayoutIssueKind.tall_not_fill)
    (hl : ∀ iss ∈ l, iss.kind ≠ LayoutIssueKind.tall_not_fill) :
    ∀ i ∈ (l.foldl (fun s i => addIfNew s (some i)) st).issues,
      i.kind ≠ LayoutIssueKind.tall_not_fill := by
  induction l generalizing st with
  | nil => exact hst
  | cons a l ih =>
    refine ih _ ?_ (fun iss hm => hl iss (List.mem_cons_of_mem _ hm))
    exact addIfNew_not_tall st (some a) hst
      (fun iss hs => by cases hs; exact hl a (List.mem_cons_self _ _))

mutual

/-- The per-node scan never records a tall issue. -/
theorem scanNodeL_not_tall (cfg : LayoutConfig) (parent : Option LProps)
    (t : LTree) (st : ScanSt)
    (hst : ∀ i ∈ st.issues, i.kind ≠ LayoutIssueKind.tall_not_fill) :
    ∀ i ∈ (scanNodeL cfg parent t st).issues,
      i.kind ≠ LayoutIssueKind.tall_not_fill :=
  match t with
  | .node p cs => by
    rw [scanNodeL]
    split
    · exact scanListL_not_tall cfg (some p) cs st hst
    · apply scanListL_not_tall
      have h1 : ∀ i ∈ (match parentOf parent with
          | some pr =>
            if cfg.onlyDefaults && !(hasDefaultValues p parent) then st
            else
              addIfNew (addIfNew (addIfNew (addIfNew st
                (detectEdgeConstraintMismatch p pr cfg))
                (detectWideNotFill p pr cfg))
                (detectCenteredNotCenter p pr cfg))
                (detectFullBleedNotStretch p pr cfg)
          | none => st).issues, i.kind ≠ LayoutIssueKind.tall_not_fill := by
        cases hp : parentOf parent with
        | none => simp only [hp]; exact hst
        | some pr =>
          simp only [hp]
          split
          · exact hst
          · apply addIfNew_not_tall
            apply addIfNew_not_tall
            apply addIfNew_not_tall
            apply addIfNew_not_tall st _ hst
            all_goals intro iss hs
            · exact detectEdge_not_tall p pr cfg iss hs
            · exact detectWide_not_tall p pr cfg iss hs
            · exact detectCentered_not_tall p pr cfg iss hs
            · exact detectFullBleed_not_tall p pr cfg iss hs
      split
      · exact foldl_addIfNew_not_tall _ _ h1
          (fun iss hm => detectSibling_not_tall _ cfg iss hm)
      · exact h1

/-- The child-list scan never records a tall issue. -/
theorem scanListL_not_tall (cfg : LayoutConfig) (parent : Option LProps)
    (ts : List LTree) (st : ScanSt)
    (hst : ∀ i ∈ st.issues, i.kind ≠ LayoutIssueKind.tall_not_fill) :
    ∀ i ∈ (scanListL cfg parent ts st).issues,
      i.kind ≠ LayoutIssueKind.tall_not_fill :=
  match ts with
  | [] => hst
  | t :: rest => by
    rw [scanListL]
    exact scanListL_not_tall cfg parent rest _
      (scanNodeL_not_tall cfg parent t st hst)

end

/-- Claim C3: the layout scan never emits a tall_not_fill issue for any
document and configuration — the tall counterpart of the wide detector
does not exist in the scan (first conjunct); in particular the concrete
tall scene, where tallChildW occupies 80 percent of the inner parent
height with a MIN vertical constraint, produces no issue at all (second
conjunct), although the claim demands a tall-not-fill issue there. -/
theorem claim_C3_no_tall_issue :
    (∀ (pages : List LTree) (cfg : LayoutConfig),
      (checkLayout pages cfg).all
        (fun i => !(i.kind = LayoutIssueKind.tall_not_fill)) = true) ∧
    checkLayout [tallSceneW] DEFAULT_LAYOUT_CONFIG = [] := by
  constructor
  · intro pages cfg
    rw [List.all_eq_true]
    intro i hi
    have hgen : ∀ (ps : List LTree) (st : ScanSt),
        (∀ i ∈ st.issues, i.kind ≠ LayoutIssueKind.tall_not_fill) →
        ∀ i ∈ (ps.foldl (fun st pg => scanNodeL cfg none pg st) st).issues,
          i.kind ≠ LayoutIssueKind.tall_not_fill := by
      intro ps
      induction ps with
      | nil => exact fun st h => h
      | cons pg ps ih =>
        intro st h
        exact ih _ (scanNodeL_not_tall cfg none pg st h)
    have hmain := hgen pages { issues := [], seen := [] } (by simp)
    simpa using hmain i hi
  · with_unfolding_all decide

-- ── Claim C9: diff entry alignment ──────────────────────────────────────────

/-- A mapped list is pointwise related to its source. -/
theorem forall₂_map_self {α β : Type} (R : β → α → Prop) (f : α → β) (l : List α)
    (h : ∀ x ∈ l, R (f x) x) : List.Forall₂ R (l.map f) l := by
  induction l with
  | nil => exact .nil
  | cons a l ih =>
    exact .cons (h a (List.mem_cons_self _ _))
      (ih (fun x hx => h x (List.mem_cons_of_mem _ hx)))

/-- Counterexample to claim C9 as stated: when the MASTER id (nodes[0])
does not resolve, computeDiffs returns the empty list, emitting no entry
at all for the non-master member with id c, even though that member still
resolves; the claim demands exactly one entry per non-master member. -/
theorem claim_C9_counterexample :
    computeDiffs [candTreeW] [metaW "gone", metaW "c"] = [] := by
  with_unfolding_all decide

/-- Claim C9 (amended): provided the master (nodes[0]) resolves,
computeDiffs returns exactly one DiffEntry per non-master member,
index-aligned with the member list; a member whose id no longer resolves
still gets an entry, with empty textDiffs, fillDiffs and rawFills, so the
alignment is preserved. When the master does not resolve, the empty list
is returned instead (see the counterexample). -/
theorem claim_C9_diff_alignment (doc : List PNode) (m0 : ComponentNode_)
    (rest : List ComponentNode_) (masterNode : PNode)
    (hm : findByIdL m0.id doc = some masterNode) :
    List.Forall₂ (fun (e : DiffEntry) (mi : ComponentNode_) =>
        e.nodeId = mi.id ∧ e.nodeName = mi.name ∧
          (findByIdL mi.id doc = none →
            e.textDiffs = [] ∧ e.fillDiffs = [] ∧ e.rawFills = []))
      (computeDiffs doc (m0 :: rest)) rest := by
  cases rest with
  | nil => simp [computeDiffs]
  | cons r rs =>
    simp only [computeDiffs, hm, List.isEmpty_cons, Bool.false_eq_true, if_false]
    apply forall₂_map_self
    intro mi hmi
    cases hc : findByIdL mi.id doc with
    | none => simp [diffOne, hc]
    | some cand => simp [diffOne, hc]

/-- Witness for the amended claim C9: the master resolves, the single
non-master member does not, and the diff list is exactly the one aligned
empty entry. -/
theorem claim_C9_diff_alignment_witness :
    List.Forall₂ (fun (e : DiffEntry) (mi : ComponentNode_) =>
        e.nodeId = mi.id ∧ e.nodeName = mi.name ∧
          (findByIdL mi.id diffDocW = none →
            e.textDiffs = [] ∧ e.fillDiffs = [] ∧ e.rawFills = []))
      (computeDiffs diffDocW [metaW "m", metaW "gone"]) [metaW "gone"] ∧
    computeDiffs diffDocW [metaW "m", metaW "gone"] =
      [{ nodeId := js "gone", nodeName := js "gone"
         textDiffs := [], fillDiffs := [], rawFills := [] }] :=
  ⟨claim_C9_diff_alignment diffDocW (metaW "m") [metaW "gone"] masterTreeW rfl,
    by with_unfolding_all decide⟩

-- ── Claim C5: text diffs match by name ──────────────────────────────────────

/-- Setting a key makes it resolve to the new value. -/
theorem getKV_setKV_self (k v : JStr) :
    ∀ m, getKV (setKV m k v) k = some v := by
  intro m
  induction m with
  | nil => simp [setKV, getKV, List.find?]
  | cons kv rest ih =>
    by_cases hk : kv.1 = k <;> simp [setKV, getKV, List.find?, hk] <;>
      simpa [getKV] using ih

/-- Setting a key leaves other keys untouched. -/
theorem getKV_setKV_other (k v k' : JStr) (hne : ¬ k' = k) :
    ∀ m, getKV (setKV m k v) k' = getKV m k' := by
  intro m
  have hne2 : ¬ k = k' := fun h => hne h.symm
  induction m with
  | nil => simp [setKV, getKV, List.find?, hne2]
  | cons kv rest ih =>
    by_cases hk : kv.1 = k
    · by_cases hk2 : kv.1 = k' <;>
        simp_all [setKV, getKV, List.find?]
    · by_cases hk2 : kv.1 = k' <;>
        simp_all [setKV, getKV, List.find?]

/-- Folding text entries over an accumulator leaves unmentioned names
untouched. -/
theorem foldTexts_not_mem (l : List PProps) (name : JStr)
    (h : name ∉ l.map PProps.name) :
    ∀ m0, getKV (l.foldl (fun m t => setKV m t.name t.chars) m0) name = getKV m0 name := by
  induction l with
  | nil => intro m0; rfl
  | cons a l ih =>
    intro m0
    have hna : ¬ name = a.name := by
      intro he
      exact h (by simp [he])
    have hrest : name ∉ l.map PProps.name := by
      intro hm
      exact h (by simp [hm])
    rw [List.foldl_cons, ih hrest, getKV_setKV_other _ _ _ hna]

/-- In a text list with pairwise distinct names, the built master table
resolves the name of each entry to the characters of that entry. -/
theorem buildTexts_nodup_get (l : List PProps)
    (hnd : (l.map PProps.name).Nodup) (t : PProps) (ht : t ∈ l) :
    getKV (buildTexts l) t.name = some t.chars := by
  unfold buildTexts
  have main : ∀ m0, getKV (l.foldl (fun m tt => setKV m tt.name tt.chars) m0) t.name = some t.chars := by
    induction l with
    | nil => exact absurd ht (List.not_mem_nil _)
    | cons a l ih =>
      intro m0
      rcases List.mem_cons.mp ht with rfl | htl
      · have hnin : t.name ∉ l.map PProps.name := by
          simpa using (List.nodup_cons.mp hnd).1
        rw [List.foldl_cons, foldTexts_not_mem l t.name hnin, getKV_setKV_self]
      · exact ih (List.nodup_cons.mp hnd).2 htl _
  exact main []

/-- A name that the built table resolves occurs among the source names. -/
theorem buildTexts_some_names (l : List PProps) (name v : JStr)
    (h : getKV (buildTexts l) name = some v) : name ∈ l.map PProps.name := by
  by_contra hn
  rw [buildTexts, foldTexts_not_mem l name hn []] at h
  simp [getKV, List.find?] at h

/-- The filterMap body of the text diff, characterized. -/
theorem textDiffBody_eq (mt : List (JStr × JStr)) (t : PProps) (td : TextDiff) :
    ((match getKV mt t.name with
      | some masterValue =>
        if !(masterValue = t.chars) then some { childName := t.name, value := t.chars }
        else none
      | none => none) = some td) ↔
      (∃ mv, getKV mt t.name = some mv ∧ ¬ (mv = t.chars)) ∧
        td = { childName := t.name, value := t.chars } := by
  cases hg : getKV mt t.name with
  | none => simp
  | some mv =>
    by_cases hc : mv = t.chars <;> simp [hc] <;> exact eq_comm

/-- Two text entries of a list with pairwise distinct names that share a
name are the same entry. -/
theorem nodup_names_inj (l : List PProps) (hnd : (l.map PProps.name).Nodup)
    (t t0 : PProps) (ht : t ∈ l) (h0 : t0 ∈ l) (he : t.name = t0.name) : t = t0 :=
  List.inj_on_of_nodup_map hnd ht h0 he

/-- Claim C5: the content diff matches text leaves by name, not position;
for every diff entry (one per non-master member, aligned by index), every
emitted text override names a text leaf present in the master (so no
override is emitted for names absent from the master), and, when text
names are unambiguous within the master and within the candidate, an
override for a name present in both exists exactly when the two string
contents differ, and its value is the candidate string. -/
theorem claim_C5_text_diff_by_name (doc : List PNode) (m0 : ComponentNode_)
    (rest : List ComponentNode_) (masterNode : PNode)
    (hm : findByIdL m0.id doc = some masterNode) :
    List.Forall₂ (fun (e : DiffEntry) (mi : ComponentNode_) =>
        ∀ cand, findByIdL mi.id doc = some cand →
          (∀ td ∈ e.textDiffs,
            td.childName ∈ (findAllTextT masterNode).map PProps.name) ∧
          (((findAllTextT masterNode).map PProps.name).Nodup →
            ((findAllTextT cand).map PProps.name).Nodup →
            ∀ t0 ∈ findAllTextT cand, ∀ tm ∈ findAllTextT masterNode,
              tm.name = t0.name →
                ((∃ td ∈ e.textDiffs, td.childName = t0.name) ↔ ¬ tm.chars = t0.chars) ∧
                (∀ td ∈ e.textDiffs, td.childName = t0.name → td.value = t0.chars)))
      (computeDiffs doc (m0 :: rest)) rest := by
  cases rest with
  | nil => simp [computeDiffs]
  | cons r rs =>
    simp only [computeDiffs, hm, List.isEmpty_cons, Bool.false_eq_true, if_false]
    apply forall₂_map_self
    intro mi hmi cand hcand
    have he : (diffOne doc (buildTexts (findAllTextT masterNode))
        (masterNode.props.fills.getD []) mi).textDiffs =
        (findAllTextT cand).filterMap (fun t =>
          match getKV (buildTexts (findAllTextT masterNode)) t.name with
          | some masterValue =>
            if !(masterValue = t.chars) then some { childName := t.name, value := t.chars }
            else none
          | none => none) := by
      simp [diffOne, hcand]
    constructor
    · intro td htd
      rw [he, List.mem_filterMap] at htd
      obtain ⟨t, -, hf⟩ := htd
      rw [textDiffBody_eq] at hf
      obtain ⟨⟨mv, hmv, -⟩, rfl⟩ := hf
      exact buildTexts_some_names _ _ _ hmv
    · intro hndM hndC t0 ht0 tm htm hname
      have hgm : getKV (buildTexts (findAllTextT masterNode)) t0.name = some tm.chars := by
        rw [← hname]
        exact buildTexts_nodup_get _ hndM tm htm
      constructor
      · constructor
        · rintro ⟨td, htd, hcn⟩
          rw [he, List.mem_filterMap] at htd
          obtain ⟨t, htmem, hf⟩ := htd
          rw [textDiffBody_eq] at hf
          obtain ⟨⟨mv, hmv, hdiff⟩, rfl⟩ := hf
          have : t = t0 := nodup_names_inj _ hndC t t0 htmem ht0 (by simpa using hcn)
          subst this
          rw [hgm] at hmv
          injection hmv with hmv
          rw [← hmv] at hdiff
          exact hdiff
        · intro hdiff
          refine ⟨{ childName := t0.name, value := t0.chars }, ?_, rfl⟩
          rw [he, List.mem_filterMap]
          exact ⟨t0, ht0, by rw [textDiffBody_eq]; exact ⟨⟨tm.chars, hgm, hdiff⟩, rfl⟩⟩
      · intro td htd hcn
        rw [he, List.mem_filterMap] at htd
        obtain ⟨t, htmem, hf⟩ := htd
        rw [textDiffBody_eq] at hf
        obtain ⟨-, rfl⟩ := hf
        have : t = t0 := nodup_names_inj _ hndC t t0 htmem ht0 (by simpa using hcn)
        rw [this]

set_option maxRecDepth 4000 in
/-- Witness for claim C5 at the concrete master-candidate pair where the
single text leaf named label holds A in the master and B in the
candidate: the theorem applies, and the computed diff entry is exactly
one override with childName label and value B. -/
theorem claim_C5_text_diff_by_name_witness :
    List.Forall₂ (fun (e : DiffEntry) (mi : ComponentNode_) =>
        ∀ cand, findByIdL mi.id diffDocW = some cand →
          (∀ td ∈ e.textDiffs,
            td.childName ∈ (findAllTextT masterTreeW).map PProps.name) ∧
          (((findAllTextT masterTreeW).map PProps.name).Nodup →
            ((findAllTextT cand).map PProps.name).Nodup →
            ∀ t0 ∈ findAllTextT cand, ∀ tm ∈ findAllTextT masterTreeW,
              tm.name = t0.name →
                ((∃ td ∈ e.textDiffs, td.childName = t0.name) ↔ ¬ tm.chars = t0.chars) ∧
                (∀ td ∈ e.textDiffs, td.childName = t0.name → td.value = t0.chars)))
      (computeDiffs diffDocW [metaW "m", metaW "c"]) [metaW "c"] ∧
    (computeDiffs diffDocW [metaW "m", metaW "c"]).map DiffEntry.textDiffs =
      [[{ childName := js "label", value := js "B" }]] :=
  ⟨claim_C5_text_diff_by_name diffDocW (metaW "m") [metaW "c"] masterTreeW rfl,
    by with_unfolding_all decide⟩

-- ── Claim C10: group ordering ───────────────────────────────────────────────

/-- The strict string comparison is asymmetric. -/
theorem jstrLtB_asymm : ∀ a b : JStr, jstrLtB a b = true → jstrLtB b a = false := by
  intro a
  induction a with
  | nil =>
    intro b h
    cases b with
    | nil => simp [jstrLtB] at h
    | cons c cs => simp [jstrLtB]
  | cons x xs ih =>
    intro b h
    cases b with
    | nil => simp [jstrLtB] at h
    | cons y ys =>
      by_cases hxy : x < y
      · have hyx : ¬ y < x := lt_asymm hxy
        simp [jstrLtB, hxy, hyx, lt_irrefl]
      · by_cases hyx : y < x
        · simp [jstrLtB, hxy, hyx] at h
        · simp [jstrLtB, hxy, hyx] at h ⊢
          exact ih ys h

/-- The strict string comparison is transitive. -/
theorem jstrLtB_trans : ∀ a b c : JStr,
    jstrLtB a b = true → jstrLtB b c = true → jstrLtB a c = true := by
  intro a
  induction a with
  | nil =>
    intro b c hab hbc
    cases b with
    | nil => simp [jstrLtB] at hab
    | cons y ys =>
      cases c with
      | nil => simp [jstrLtB] at hbc
      | cons z zs => simp [jstrLtB]
  | cons x xs ih =>
    intro b c hab hbc
    cases b with
    | nil => simp [jstrLtB] at hab
    | cons y ys =>
      cases c with
      | nil => simp [jstrLtB] at hbc
      | cons z zs =>
        by_cases hxy : x < y
        · by_cases hyz : y < z
          · have hxz : x < z := lt_trans hxy hyz
            simp [jstrLtB, hxz]
          · by_cases hzy : z < y
            · simp [jstrLtB, hyz, hzy] at hbc
            · have hyz2 : y = z := le_antisymm (not_lt.mp hzy) (not_lt.mp hyz)
              subst hyz2
              simp [jstrLtB, hxy]
        · by_cases hyx : y < x
          · simp [jstrLtB, hxy, hyx] at hab
          · have hxy2 : x = y := le_antisymm (not_lt.mp hyx) (not_lt.mp hxy)
            subst hxy2
            simp only [jstrLtB, if_neg (lt_irrefl x)] at hab
            by_cases hyz : x < z
            · simp [jstrLtB, hyz]
            · by_cases hzy : z < x
              · simp [jstrLtB, hyz, hzy] at hbc
              · simp only [jstrLtB, if_neg hyz, if_neg hzy] at hbc ⊢
                exact ih ys zs hab hbc

/-- Strings that are not strictly comparable either way are equal. -/
theorem jstrLtB_conn : ∀ a b : JStr,
    jstrLtB a b = false → jstrLtB b a = false → a = b := by
  intro a
  induction a with
  | nil =>
    intro b hab hba
    cases b with
    | nil => rfl
    | cons y ys => simp [jstrLtB] at hab
  | cons x xs ih =>
    intro b hab hba
    cases b with
    | nil => simp [jstrLtB] at hba
    | cons y ys =>
      by_cases hxy : x < y
      · simp [jstrLtB, hxy] at hab
      · by_cases hyx : y < x
        · simp [jstrLtB, hyx] at hba
        · have hxy2 : x = y := le_antisymm (not_lt.mp hyx) (not_lt.mp hxy)
          subst hxy2
          simp only [jstrLtB, if_neg (lt_irrefl x)] at hab hba
          rw [ih ys (by simpa [lt_irrefl] using hab) (by simpa [lt_irrefl] using hba)]

/-- The non-strict string comparison is total. -/
theorem jstrLeB_total (a b : JStr) : jstrLeB a b = true ∨ jstrLeB b a = true := by
  unfold jstrLeB
  cases hba : jstrLtB b a with
  | false => exact Or.inl rfl
  | true =>
    right
    rw [jstrLtB_asymm b a hba]
    rfl

/-- The non-strict string comparison is transitive. -/
theorem jstrLeB_trans (a b c : JStr)
    (hab : jstrLeB a b = true) (hbc : jstrLeB b c = true) : jstrLeB a c = true := by
  unfold jstrLeB at *
  cases hca : jstrLtB c a with
  | false => rfl
  | true =>
    exfalso
    have hba : jstrLtB b a = false := by
      cases h : jstrLtB b a with
      | false => rfl
      | true => rw [h] at hab; exact absurd hab (by simp)
    have hcb : jstrLtB c b = false := by
      cases h : jstrLtB c b with
      | false => rfl
      | true => rw [h] at hbc; exact absurd hbc (by simp)
    by_cases hbc2 : jstrLtB b c = true
    · have := jstrLtB_trans b c a hbc2 hca
      rw [this] at hba
      exact Bool.noConfusion hba
    · have heq : b = c := jstrLtB_conn b c (Bool.not_eq_true _ ▸ Bool.of_not_eq_true hbc2) hcb
      subst heq
      rw [hca] at hba
      exact Bool.noConfusion hba

/-- The group comparison is total. -/
theorem groupLeB_total (a b : ComponentGroup) :
    groupLeB a b = true ∨ groupLeB b a = true := by
  unfold groupLeB
  rcases Nat.lt_trichotomy a.nodes.length b.nodes.length with h | h | h
  · right
    simp [h]
  · rcases jstrLeB_total a.label b.label with hl | hl
    · left
      simp [h, hl]
    · right
      simp [h, hl]
  · left
    simp [h]

/-- The group comparison is transitive. -/
theorem groupLeB_trans (a b c : ComponentGroup)
    (hab : groupLeB a b = true) (hbc : groupLeB b c = true) :
    groupLeB a c = true := by
  unfold groupLeB at *
  simp only [Bool.or_eq_true, Bool.and_eq_true, decide_eq_true_eq] at hab hbc ⊢
  rcases hab with hab | ⟨hab1, hab2⟩
  · rcases hbc with hbc | ⟨hbc1, hbc2⟩
    · exact Or.inl (Nat.lt_trans hbc hab)
    · exact Or.inl (hbc1 ▸ hab)
  · rcases hbc with hbc | ⟨hbc1, hbc2⟩
    · exact Or.inl (hab1 ▸ hbc)
    · exact Or.inr ⟨hbc1.trans hab1, jstrLeB_trans _ _ _ hab2 hbc2⟩

/-- Claim C10: for every document and mode, the groups returned by
scanComponentCandidates are in order: any earlier group has a strictly
larger member count than any later group, or an equal count and a label
that compares at or before the later label (localeCompare modelled as
code-unit comparison); the scan itself is a pure function of the pages,
so the order is deterministic for a given document. -/
theorem claim_C10_group_order (pages : List PNode) (includeProtected : Bool) :
    (scanComponentCandidates pages includeProtected).Pairwise (fun a b =>
      b.nodes.length < a.nodes.length ∨
        (b.nodes.length = a.nodes.length ∧ jstrLeB a.label b.label = true)) := by
  haveI : IsTotal ComponentGroup (fun a b => groupLeB a b = true) := ⟨groupLeB_total⟩
  haveI : IsTrans ComponentGroup (fun a b => groupLeB a b = true) := ⟨groupLeB_trans⟩
  simp only [scanComponentCandidates]
  refine List.Pairwise.imp ?_ (List.sorted_insertionSort _ _)
  intro a b hab
  simpa [groupLeB, Bool.or_eq_true, Bool.and_eq_true, decide_eq_true_eq] using hab


-- ── Claim C1: GROUP extraction ──────────────────────────────────────────────

/-- Claim C1 counterexample: converter.ts extractToComponent has no GROUP
special case. On a free GROUP (id 1, child rectangle id 2) it moves the
child directly into the new component (id 3): the component ends up with
the ORIGINAL child id 2 as its only child, the fresh-id counter shows no
clone was ever allocated (nextId 4: only the component itself), and the
emptied group is removed, contradicting the claim that children of a
GROUP source are never moved directly but always cloned first. -/
theorem claim_C1_counterexample :
    (extractToComponent docC1X 1).2.toOption = some 3 ∧
    ((getN (extractToComponent docC1X 1).1 3).map (fun c => c.children)) = some [2] ∧
    ((getN (extractToComponent docC1X 1).1 2).map (fun c => c.parent)) = some (some 3) ∧
    (extractToComponent docC1X 1).1.nextId = 4 ∧
    getN (extractToComponent docC1X 1).1 1 = none := by
  with_unfolding_all decide


-- ── Arena lemmas for the converter and variant combiner (C1) ────────────────

/-- Well-formed arena: keys below the fresh counter and no duplicate keys. -/

theorem find?_key_of_mem : ∀ {l : List (Nat × SNode)}, (l.map Prod.fst).Nodup →
    ∀ {i : Nat} {v : SNode}, (i, v) ∈ l →
      l.find? (fun kv => kv.1 = i) = some (i, v) := by
  intro l
  induction l with
  | nil => intro _ i v h; exact absurd h (List.not_mem_nil _)
  | cons kv rest ih =>
    intro hnd i v h
    simp only [List.map_cons, List.nodup_cons] at hnd
    rcases List.mem_cons.mp h with h1 | h1
    · rw [← h1]
      rw [List.find?_cons_of_pos _ (by simp)]
    · have hki : ¬(kv.1 = i) := by
        intro he
        exact hnd.1 (he ▸ (List.mem_map.mpr ⟨(i, v), h1, rfl⟩))
      rw [List.find?_cons_of_neg _ (by simpa using hki)]
      exact ih hnd.2 h1

theorem getN_of_mem {d : Doc} (hnd : (d.arena.map Prod.fst).Nodup)
    {i : Nat} {v : SNode} (h : (i, v) ∈ d.arena) : getN d i = some v := by
  unfold getN
  rw [find?_key_of_mem hnd h]
  rfl

theorem mem_of_getN {d : Doc} {i : Nat} {v : SNode} (h : getN d i = some v) :
    (i, v) ∈ d.arena := by
  unfold getN at h
  cases hf : d.arena.find? (fun kv => kv.1 = i) with
  | none => rw [hf] at h; exact absurd h (by simp)
  | some kv =>
    rw [hf] at h
    simp only [Option.map_some'] at h
    have hm := List.mem_of_find?_eq_some hf
    have hp := List.find?_some hf
    simp only [decide_eq_true_eq] at hp
    have hv : kv.2 = v := Option.some.inj h
    have : kv = (i, v) := by
      cases kv
      simp only at hp hv
      simp [hp, hv]
    exact this ▸ hm

theorem getN_lt_nextId {d : Doc} (hka : ∀ kv ∈ d.arena, kv.1 < d.nextId)
    {i : Nat} {v : SNode} (h : getN d i = some v) : i < d.nextId :=
  hka (i, v) (mem_of_getN h)

theorem getN_pos_length {d : Doc} {i : Nat} {v : SNode} (h : getN d i = some v) :
    0 < d.arena.length := by
  have hm := mem_of_getN h
  cases ha : d.arena with
  | nil => rw [ha] at hm; exact absurd hm (List.not_mem_nil _)
  | cons kv rest => simp [ha]

-- setN

theorem nextId_setN (d : Doc) (i : Nat) (v : SNode) : (setN d i v).nextId = d.nextId := rfl

theorem keys_setN (d : Doc) (i : Nat) (v : SNode) :
    (setN d i v).arena.map Prod.fst = d.arena.map Prod.fst := by
  unfold setN
  simp only [List.map_map]
  apply List.map_congr_left
  intro kv _
  by_cases h : kv.1 = i
  · simp [h]
  · simp [h]

theorem find?_map_set_ne : ∀ {l : List (Nat × SNode)} {i j : Nat}, j ≠ i → ∀ (v : SNode),
    (l.map (fun kv => if kv.1 = i then (i, v) else kv)).find? (fun kv => kv.1 = j)
      = l.find? (fun kv => kv.1 = j) := by
  intro l
  induction l with
  | nil => intro i j h v; rfl
  | cons kv rest ih =>
    intro i j h v
    rw [List.map_cons]
    by_cases hki : kv.1 = i
    · rw [if_pos hki,
        List.find?_cons_of_neg _ (by simp; exact fun he => h he.symm),
        List.find?_cons_of_neg _ (by simp [hki]; exact fun he => h he.symm)]
      exact ih h v
    · by_cases hkj : kv.1 = j
      · rw [if_neg hki, List.find?_cons_of_pos _ (by simpa using hkj),
          List.find?_cons_of_pos _ (by simpa using hkj)]
      · rw [if_neg hki, List.find?_cons_of_neg _ (by simpa using hkj),
          List.find?_cons_of_neg _ (by simpa using hkj)]
        exact ih h v

theorem getN_setN_ne (d : Doc) {i j : Nat} (h : j ≠ i) (v : SNode) :
    getN (setN d i v) j = getN d j := by
  unfold getN setN
  simp only
  rw [find?_map_set_ne h v]

theorem find?_map_set_self : ∀ {l : List (Nat × SNode)} {i : Nat} {w : SNode},
    (i, w) ∈ l → ∀ (v : SNode),
      (l.map (fun kv => if kv.1 = i then (i, v) else kv)).find? (fun kv => kv.1 = i)
        = some (i, v) := by
  intro l
  induction l with
  | nil => intro i w h v; exact absurd h (List.not_mem_nil _)
  | cons kv rest ih =>
    intro i w h v
    rw [List.map_cons]
    by_cases hki : kv.1 = i
    · rw [if_pos hki, List.find?_cons_of_pos _ (by simp)]
    · rw [if_neg hki, List.find?_cons_of_neg _ (by simpa using hki)]
      rcases List.mem_cons.mp h with h1 | h1
      · exact absurd (congrArg Prod.fst h1.symm) hki
      · exact ih h1 v

theorem getN_setN_self {d : Doc} {i : Nat} {w : SNode} (h : getN d i = some w) (v : SNode) :
    getN (setN d i v) i = some v := by
  have hm := mem_of_getN h
  unfold getN setN
  simp only
  rw [find?_map_set_self hm v]
  rfl

-- updateN

theorem nextId_updateN (d : Doc) (i : Nat) (f : SNode → SNode) :
    (updateN d i f).nextId = d.nextId := by
  unfold updateN; split <;> rfl

theorem keys_updateN (d : Doc) (i : Nat) (f : SNode → SNode) :
    (updateN d i f).arena.map Prod.fst = d.arena.map Prod.fst := by
  unfold updateN; split
  · exact keys_setN d i _
  · rfl

theorem getN_updateN_ne (d : Doc) {i j : Nat} (h : j ≠ i) (f : SNode → SNode) :
    getN (updateN d i f) j = getN d j := by
  unfold updateN; split
  · exact getN_setN_ne d h _
  · rfl

theorem getN_updateN_self {d : Doc} {i : Nat} {w : SNode} (h : getN d i = some w)
    (f : SNode → SNode) : getN (updateN d i f) i = some (f w) := by
  unfold updateN
  rw [h]
  exact getN_setN_self h (f w)

theorem wf_setN {d : Doc} (hwf : WfD d) (i : Nat) (v : SNode) : WfD (setN d i v) := by
  constructor
  · intro kv hkv
    have : kv.1 ∈ (setN d i v).arena.map Prod.fst := List.mem_map.mpr ⟨kv, hkv, rfl⟩
    rw [keys_setN] at this
    rcases List.mem_map.mp this with ⟨kw, hkw, he⟩
    rw [nextId_setN, ← he]
    exact hwf.1 kw hkw
  · rw [keys_setN]; exact hwf.2

theorem updateN_of_none {d : Doc} {i : Nat} (h : getN d i = none) (f : SNode → SNode) :
    updateN d i f = d := by
  unfold updateN
  rw [h]

theorem wf_updateN {d : Doc} (hwf : WfD d) (i : Nat) (f : SNode → SNode) :
    WfD (updateN d i f) := by
  unfold updateN; split
  · exact wf_setN hwf i _
  · exact hwf

-- allocN

theorem nextId_allocN (d : Doc) (v : SNode) : (allocN d v).1.nextId = d.nextId + 1 := rfl

theorem getN_allocN_ne (d : Doc) {j : Nat} (h : j ≠ d.nextId) (v : SNode) :
    getN (allocN d v).1 j = getN d j := by
  unfold getN allocN
  simp only
  rw [List.find?_append]
  cases hf : d.arena.find? (fun kv => kv.1 = j) with
  | some kv => simp
  | none =>
    simp only [Option.none_or]
    rw [List.find?_cons_of_neg _ (by simpa using (Ne.symm h))]
    rfl

theorem getN_allocN_self {d : Doc} (hka : ∀ kv ∈ d.arena, kv.1 < d.nextId) (v : SNode) :
    getN (allocN d v).1 d.nextId = some v := by
  unfold getN allocN
  simp only
  rw [List.find?_append]
  have : d.arena.find? (fun kv => kv.1 = d.nextId) = none := by
    rw [List.find?_eq_none]
    intro kv hkv
    simp only [decide_eq_true_eq]
    exact Nat.ne_of_lt (hka kv hkv)
  rw [this]
  simp

theorem wf_allocN {d : Doc} (hwf : WfD d) (v : SNode) : WfD (allocN d v).1 := by
  constructor
  · intro kv hkv
    rw [nextId_allocN]
    rcases List.mem_append.mp hkv with h | h
    · exact Nat.lt_succ_of_lt (hwf.1 kv h)
    · simp only [List.mem_singleton] at h
      rw [h]
      exact Nat.lt_succ_self _
  · show ((d.arena ++ [(d.nextId, v)]).map Prod.fst).Nodup
    rw [List.map_append]
    simp only [List.map_cons, List.map_nil]
    rw [List.nodup_append]
    refine ⟨hwf.2, List.nodup_singleton _, ?_⟩
    intro a ha
    rcases List.mem_map.mp ha with ⟨kv, hkv, he⟩
    simp only [List.mem_singleton]
    intro hb
    rw [hb] at he
    exact absurd (he ▸ hwf.1 kv hkv) (Nat.lt_irrefl _)

-- delId

theorem nextId_delId (d : Doc) (i : Nat) : (delId d i).nextId = d.nextId := rfl

theorem getN_delId_self (d : Doc) (i : Nat) : getN (delId d i) i = none := by
  unfold getN delId
  simp only
  have hnone : (d.arena.filter (fun kv => !(kv.1 = i))).find? (fun kv => kv.1 = i) = none := by
    rw [List.find?_eq_none]
    intro kv hkv
    have := List.of_mem_filter hkv
    simp only [Bool.not_eq_true', decide_eq_false_iff_not] at this
    simpa using this
  rw [hnone]
  rfl

theorem find?_filter_ne : ∀ {l : List (Nat × SNode)} {i j : Nat}, j ≠ i →
    (l.filter (fun kv => !(kv.1 = i))).find? (fun kv => kv.1 = j)
      = l.find? (fun kv => kv.1 = j) := by
  intro l
  induction l with
  | nil => intro i j h; rfl
  | cons kv rest ih =>
    intro i j h
    by_cases hki : kv.1 = i
    · rw [List.filter_cons_of_neg (by simpa using hki),
        List.find?_cons_of_neg _ (by simp [hki]; exact fun he => h he.symm)]
      exact ih h
    · rw [List.filter_cons_of_pos (by simpa using hki)]
      by_cases hkj : kv.1 = j
      · rw [List.find?_cons_of_pos _ (by simpa using hkj),
          List.find?_cons_of_pos _ (by simpa using hkj)]
      · rw [List.find?_cons_of_neg _ (by simpa using hkj),
          List.find?_cons_of_neg _ (by simpa using hkj)]
        exact ih h

theorem getN_delId_ne (d : Doc) {i j : Nat} (h : j ≠ i) : getN (delId d i) j = getN d j := by
  unfold getN delId
  simp only
  rw [find?_filter_ne h]

theorem delId_sublist (d : Doc) (i : Nat) : (delId d i).arena.Sublist d.arena :=
  List.filter_sublist _

theorem allocN_snd (d : Doc) (v : SNode) : (allocN d v).2 = d.nextId := rfl

-- detach / appendChild

theorem detach_of_parent_none {d : Doc} {i : Nat} {v : SNode} (h : getN d i = some v)
    (hp : v.parent = none) : detach d i = d := by
  unfold detach
  simp only [h, hp]

theorem detach_of_parent_some {d : Doc} {i : Nat} {v : SNode} (h : getN d i = some v)
    {p : Nat} (hp : v.parent = some p) :
    detach d i = updateN (updateN d p (fun pp =>
      { pp with children := pp.children.filter (fun x => !(x = i)) })) i
      (fun cc => { cc with parent := none }) := by
  unfold detach
  simp only [h, hp]

theorem appendChild_parent_none {d : Doc} {k : Nat} {kn : SNode}
    (h : getN d k = some kn) (hp : kn.parent = none) (comp : Nat) :
    appendChild d comp k =
      updateN (updateN d comp (fun p => { p with children := p.children ++ [k] })) k
        (fun c => { c with parent := some comp }) := by
  unfold appendChild
  rw [detach_of_parent_none h hp]

-- removeSubtreeF

theorem removeSubtreeF_self_none (fuel : Nat) (d : Doc) (i : Nat) (h : 0 < fuel) :
    getN (removeSubtreeF fuel d i) i = none := by
  cases fuel with
  | zero => exact absurd h (by simp)
  | succ fuel =>
    rw [removeSubtreeF]
    cases hg : getN d i with
    | none => simp only [hg]
    | some n => simp only [hg]; exact getN_delId_self _ i

theorem removeSubtreeF_preserve (d0 : Doc) (hnd : (d0.arena.map Prod.fst).Nodup)
    (B : Nat → Prop)
    (hstep : ∀ i v, getN d0 i = some v → B i → ∀ c ∈ v.children, B c)
    (j : Nat) (hj : ¬ B j) :
    ∀ (fuel : Nat) (d : Doc), d.arena.Sublist d0.arena → ∀ (i : Nat), B i →
      getN (removeSubtreeF fuel d i) j = getN d j ∧
        (removeSubtreeF fuel d i).arena.Sublist d0.arena := by
  intro fuel
  induction fuel with
  | zero => intro d hsub i hBi; exact ⟨rfl, hsub⟩
  | succ fuel ih =>
    intro d hsub i hBi
    rw [removeSubtreeF]
    cases hg : getN d i with
    | none => simp only [hg]; exact ⟨trivial, hsub⟩
    | some n =>
      simp only [hg]
      have hmem : (i, n) ∈ d0.arena := hsub.subset (mem_of_getN hg)
      have hg0 : getN d0 i = some n := getN_of_mem hnd hmem
      have hkids : ∀ c ∈ n.children, B c := hstep i n hg0 hBi
      have hfold : ∀ (cs : List Nat), (∀ c ∈ cs, B c) → ∀ (dd : Doc),
          dd.arena.Sublist d0.arena → getN dd j = getN d j →
          getN (cs.foldl (fun x c => removeSubtreeF fuel x c) dd) j = getN d j ∧
            (cs.foldl (fun x c => removeSubtreeF fuel x c) dd).arena.Sublist d0.arena := by
        intro cs
        induction cs with
        | nil => intro _ dd hdds hddj; exact ⟨hddj, hdds⟩
        | cons c rest ihc =>
          intro hcs dd hdds hddj
          rw [List.foldl_cons]
          have h1 := ih dd hdds c (hcs c (List.mem_cons_self c rest))
          exact ihc (fun x hx => hcs x (List.mem_cons_of_mem c hx)) _ h1.2 (h1.1.trans hddj)
      have hf := hfold n.children hkids d hsub rfl
      have hji : j ≠ i := fun he => hj (he ▸ hBi)
      constructor
      · rw [getN_delId_ne _ hji]
        exact hf.1
      · exact (delId_sublist _ i).trans hf.2

theorem cloneSubF_spec : ∀ (fuel : Nat) (d : Doc) (src : Nat) (pf : Option Nat), WfD d →
    d.nextId ≤ (cloneSubF fuel d src pf).1.nextId ∧
    WfD (cloneSubF fuel d src pf).1 ∧
    (∀ j, j < d.nextId → getN (cloneSubF fuel d src pf).1 j = getN d j) ∧
    (fuel ≠ 0 → ∀ v, getN d src = some v →
      (cloneSubF fuel d src pf).2 = some d.nextId ∧
      d.nextId < (cloneSubF fuel d src pf).1.nextId ∧
      ∃ cs, getN (cloneSubF fuel d src pf).1 d.nextId =
        some { v with parent := pf, children := cs }) := by
  intro fuel
  induction fuel with
  | zero =>
    intro d src pf hwf
    exact ⟨le_refl _, hwf, fun j hj => rfl, fun h => absurd rfl h⟩
  | succ fuel ih =>
    intro d src pf hwf
    rw [cloneSubF]
    cases hg : getN d src with
    | none =>
      simp only [hg]
      refine ⟨le_refl _, hwf, fun j hj => trivial, fun _ v hv => ?_⟩
      exact absurd hv (by simp)
    | some n =>
      simp only [hg, allocN_snd]
      have hwf1 : WfD (allocN d { n with parent := pf, children := [] }).1 :=
        wf_allocN hwf _
      have hroot1 : getN (allocN d { n with parent := pf, children := [] }).1 d.nextId =
          some { n with parent := pf, children := [] } := getN_allocN_self hwf.1 _
      have aux : ∀ (cs : List Nat) (dd : Doc), WfD dd → d.nextId + 1 ≤ dd.nextId →
          (∀ j, j < d.nextId → getN dd j = getN d j) →
          (∃ cs0, getN dd d.nextId = some { n with parent := pf, children := cs0 }) →
          WfD (cs.foldl (fun dd c =>
              match (cloneSubF fuel dd c (some d.nextId)).2 with
              | some kc => updateN (cloneSubF fuel dd c (some d.nextId)).1 d.nextId
                  (fun kn => { kn with children := kn.children ++ [kc] })
              | none => (cloneSubF fuel dd c (some d.nextId)).1) dd) ∧
          d.nextId + 1 ≤ (cs.foldl (fun dd c =>
              match (cloneSubF fuel dd c (some d.nextId)).2 with
              | some kc => updateN (cloneSubF fuel dd c (some d.nextId)).1 d.nextId
                  (fun kn => { kn with children := kn.children ++ [kc] })
              | none => (cloneSubF fuel dd c (some d.nextId)).1) dd).nextId ∧
          (∀ j, j < d.nextId → getN (cs.foldl (fun dd c =>
              match (cloneSubF fuel dd c (some d.nextId)).2 with
              | some kc => updateN (cloneSubF fuel dd c (some d.nextId)).1 d.nextId
                  (fun kn => { kn with children := kn.children ++ [kc] })
              | none => (cloneSubF fuel dd c (some d.nextId)).1) dd) j = getN d j) ∧
          (∃ cs0, getN (cs.foldl (fun dd c =>
              match (cloneSubF fuel dd c (some d.nextId)).2 with
              | some kc => updateN (cloneSubF fuel dd c (some d.nextId)).1 d.nextId
                  (fun kn => { kn with children := kn.children ++ [kc] })
              | none => (cloneSubF fuel dd c (some d.nextId)).1) dd) d.nextId =
            some { n with parent := pf, children := cs0 }) := by
        intro cs
        induction cs with
        | nil => intro dd h1 h2 h3 h4; exact ⟨h1, h2, h3, h4⟩
        | cons c rest ihc =>
          intro dd h1 h2 h3 h4
          rw [List.foldl_cons]
          obtain ⟨hA, hB, hC, _⟩ := ih dd c (some d.nextId) h1
          cases hr : (cloneSubF fuel dd c (some d.nextId)).2 with
          | none =>
            simp only [hr]
            refine ihc _ hB (le_trans h2 hA) (fun j hj => ?_) ?_
            · rw [hC j (lt_of_lt_of_le hj (le_trans (Nat.le_succ _) h2))]
              exact h3 j hj
            · obtain ⟨cs0, hcs0⟩ := h4
              exact ⟨cs0, by rw [hC d.nextId (lt_of_lt_of_le (Nat.lt_succ_self _) h2)]; exact hcs0⟩
          | some kc =>
            simp only [hr]
            obtain ⟨cs0, hcs0⟩ := h4
            have hroot : getN (cloneSubF fuel dd c (some d.nextId)).1 d.nextId =
                some { n with parent := pf, children := cs0 } := by
              rw [hC d.nextId (lt_of_lt_of_le (Nat.lt_succ_self _) h2)]
              exact hcs0
            refine ihc _ (wf_updateN hB d.nextId _) ?_ (fun j hj => ?_) ?_
            · rw [nextId_updateN]
              exact le_trans h2 hA
            · rw [getN_updateN_ne _ (Nat.ne_of_lt hj) _]
              rw [hC j (lt_of_lt_of_le hj (le_trans (Nat.le_succ _) h2))]
              exact h3 j hj
            · refine ⟨cs0 ++ [kc], ?_⟩
              rw [getN_updateN_self hroot _]
      obtain ⟨hA, hB, hC, hD⟩ := aux n.children
        (allocN d { n with parent := pf, children := [] }).1 hwf1
        (le_of_eq (nextId_allocN d _).symm)
        (fun j hj => getN_allocN_ne d (Nat.ne_of_lt hj) _)
        ⟨[], hroot1⟩
      refine ⟨le_trans (Nat.le_succ _) hB, hA, hC, fun _ v hv => ?_⟩
      have hnv : n = v := Option.some.inj (hg ▸ hv)
      subst hnv
      exact ⟨trivial, lt_of_lt_of_le (Nat.lt_succ_self _) hB, hD⟩

theorem forall₂_imp_mem {α β : Type} {R S : α → β → Prop} :
    ∀ {l₁ : List α} {l₂ : List β}, List.Forall₂ R l₁ l₂ →
      (∀ a ∈ l₁, ∀ b, R a b → S a b) → List.Forall₂ S l₁ l₂ := by
  intro l₁ l₂ h
  induction h with
  | nil => intro _; exact List.Forall₂.nil
  | cons hab htail ih =>
    intro hmem
    exact List.Forall₂.cons
      (hmem _ (List.mem_cons_self _ _) _ hab)
      (ih (fun a ha b hr => hmem a (List.mem_cons_of_mem _ ha) b hr))

theorem cloneNode_spec {d : Doc} (hwf : WfD d) (i : Nat) :
    d.nextId ≤ (cloneNode d i).1.nextId ∧ WfD (cloneNode d i).1 ∧
    (∀ j, j < d.nextId → getN (cloneNode d i).1 j = getN d j) ∧
    (∀ v, getN d i = some v →
      (cloneNode d i).2 = some d.nextId ∧ d.nextId < (cloneNode d i).1.nextId ∧
      ∃ cs, getN (cloneNode d i).1 d.nextId = some { v with parent := none, children := cs }) := by
  have h := cloneSubF_spec d.arena.length d i none hwf
  refine ⟨h.1, h.2.1, h.2.2.1, fun v hv => ?_⟩
  have hfz : d.arena.length ≠ 0 := Nat.pos_iff_ne_zero.mp (getN_pos_length hv)
  exact h.2.2.2 hfz v hv

theorem cloneChildrenLoop_spec : ∀ (cs : List Nat) (d : Doc), WfD d →
    (∀ c ∈ cs, c < d.nextId) → (∀ c ∈ cs, (getN d c).isSome = true) →
    WfD (cloneChildrenLoop d cs).1 ∧
    d.nextId ≤ (cloneChildrenLoop d cs).1.nextId ∧
    (∀ j, j < d.nextId → getN (cloneChildrenLoop d cs).1 j = getN d j) ∧
    List.Pairwise (fun s t => s.1 < t.1) (cloneChildrenLoop d cs).2 ∧
    (∀ t ∈ (cloneChildrenLoop d cs).2, d.nextId ≤ t.1) ∧
    List.Forall₂ (fun c t => ∃ cn, getN d c = some cn ∧ t.2.1 = cn.x ∧ t.2.2 = cn.y ∧
      ∃ cs0, getN (cloneChildrenLoop d cs).1 t.1 =
        some { cn with parent := none, children := cs0 }) cs (cloneChildrenLoop d cs).2 := by
  intro cs
  induction cs with
  | nil =>
    intro d hwf _ _
    refine ⟨hwf, le_refl _, fun j hj => rfl, List.Pairwise.nil, ?_, List.Forall₂.nil⟩
    intro t ht
    rw [cloneChildrenLoop] at ht
    exact absurd ht (List.not_mem_nil t)
  | cons c rest ihc =>
    intro d hwf hlt hres
    obtain ⟨cn, hcn⟩ := Option.isSome_iff_exists.mp (hres c (List.mem_cons_self c rest))
    obtain ⟨hm1, hwf2, hpres2, hsucc⟩ := cloneNode_spec hwf c
    obtain ⟨hr2, hlt2, cs0, hroot2⟩ := hsucc cn hcn
    rw [cloneChildrenLoop]
    simp only [hcn, hr2]
    have hltd : ∀ x ∈ rest, x < (cloneNode d c).1.nextId :=
      fun x hx => lt_of_lt_of_le (hlt x (List.mem_cons_of_mem c hx)) hm1
    have hresd : ∀ x ∈ rest, (getN (cloneNode d c).1 x).isSome = true := by
      intro x hx
      rw [hpres2 x (hlt x (List.mem_cons_of_mem c hx))]
      exact hres x (List.mem_cons_of_mem c hx)
    obtain ⟨jwf, jm, jpres, jpw, jlb, jfa⟩ := ihc (cloneNode d c).1 hwf2 hltd hresd
    refine ⟨jwf, le_trans hm1 jm, ?_, ?_, ?_, ?_⟩
    · intro j hj
      rw [jpres j (lt_of_lt_of_le hj hm1)]
      exact hpres2 j hj
    · exact List.Pairwise.cons (fun t ht => lt_of_lt_of_le hlt2 (jlb t ht)) jpw
    · intro t ht
      rcases List.mem_cons.mp ht with h1 | h1
      · rw [h1]
      · exact le_trans (le_of_lt hlt2) (jlb t h1)
    · refine List.Forall₂.cons ⟨cn, hcn, rfl, rfl, cs0, ?_⟩ ?_
      · rw [jpres d.nextId hlt2]
        exact hroot2
      · refine forall₂_imp_mem jfa ?_
        intro a ha t hr
        obtain ⟨an, han, hx, hy, acs, haroot⟩ := hr
        rw [hpres2 a (hlt a (List.mem_cons_of_mem c ha))] at han
        exact ⟨an, han, hx, hy, acs, haroot⟩

theorem createComponent_spec {d : Doc} (hwf : WfD d) (hcp : d.currentPage < d.nextId) :
    (createComponent d).2 = d.nextId ∧
    (createComponent d).1.nextId = d.nextId + 1 ∧
    WfD (createComponent d).1 ∧
    getN (createComponent d).1 d.nextId = some
      { type := js "COMPONENT", name := js "Component",
        parent := some d.currentPage, hasChildrenProp := true } ∧
    (∀ j, j ≠ d.nextId → j ≠ d.currentPage → getN (createComponent d).1 j = getN d j) := by
  unfold createComponent
  refine ⟨rfl, ?_, ?_, ?_, ?_⟩
  · rw [nextId_updateN, nextId_allocN]
  · exact wf_updateN (wf_allocN hwf _) _ _
  · rw [getN_updateN_ne _ (Ne.symm (Nat.ne_of_lt hcp)) _]
    exact getN_allocN_self hwf.1 _
  · intro j hj hjp
    rw [getN_updateN_ne _ hjp _]
    exact getN_allocN_ne d hj _

theorem appendClonesLoop_spec : ∀ (ts : List (Nat × ℚ × ℚ)) (d : Doc) (comp : Nat)
    (cN : SNode), WfD d → getN d comp = some cN →
    (∀ t ∈ ts, comp < t.1) →
    List.Pairwise (fun s t => s.1 < t.1) ts →
    (∀ t ∈ ts, ∃ v, getN d t.1 = some v ∧ v.parent = none) →
    WfD (appendClonesLoop comp ts d) ∧
    (∀ j, j ≠ comp → (∀ t ∈ ts, j ≠ t.1) → getN (appendClonesLoop comp ts d) j = getN d j) ∧
    getN (appendClonesLoop comp ts d) comp =
      some { cN with children := cN.children ++ ts.map Prod.fst } ∧
    (∀ t ∈ ts, ∃ v, getN d t.1 = some v ∧
      getN (appendClonesLoop comp ts d) t.1 =
        some { v with parent := some comp, x := t.2.1, y := t.2.2 }) := by
  intro ts
  induction ts with
  | nil =>
    intro d comp cN hwf hcomp _ _ _
    refine ⟨hwf, fun j _ _ => rfl, ?_, by simp⟩
    rw [appendClonesLoop]
    simp only [List.map_nil, List.append_nil]
    exact hcomp
  | cons t rest iht =>
    intro d comp cN hwf hcomp hgt hpw hpar
    obtain ⟨k, cx, cy⟩ := t
    obtain ⟨v, hv, hvp⟩ := hpar (k, cx, cy) (List.mem_cons_self _ _)
    have hck : comp ≠ k := Nat.ne_of_lt (hgt (k, cx, cy) (List.mem_cons_self _ _))
    rw [appendClonesLoop]
    rw [appendChild_parent_none hv hvp comp]
    have hd1comp : getN (updateN (updateN d comp
        (fun p => { p with children := p.children ++ [k] })) k
        (fun c => { c with parent := some comp })) comp =
        some { cN with children := cN.children ++ [k] } := by
      rw [getN_updateN_ne _ hck _]
      exact getN_updateN_self hcomp _
    have hd1k : getN (updateN (updateN d comp
        (fun p => { p with children := p.children ++ [k] })) k
        (fun c => { c with parent := some comp })) k =
        some { v with parent := some comp } := by
      have h1 : getN (updateN d comp (fun p => { p with children := p.children ++ [k] })) k =
          some v := by
        rw [getN_updateN_ne _ (Ne.symm hck) _]
        exact hv
      exact getN_updateN_self h1 _
    set d1 := updateN (updateN d comp
      (fun p => { p with children := p.children ++ [k] })) k
      (fun c => { c with parent := some comp }) with hd1def
    set d2 := updateN d1 k (fun n => { n with x := cx, y := cy }) with hd2def
    have hd2comp : getN d2 comp = some { cN with children := cN.children ++ [k] } := by
      rw [hd2def, getN_updateN_ne _ hck _]
      exact hd1comp
    have hd2k : getN d2 k = some { v with parent := some comp, x := cx, y := cy } := by
      rw [hd2def]
      have := getN_updateN_self hd1k (fun n => { n with x := cx, y := cy })
      exact this
    have hd2pres : ∀ j, j ≠ comp → j ≠ k → getN d2 j = getN d j := by
      intro j hjc hjk
      rw [hd2def, getN_updateN_ne _ hjk _, hd1def, getN_updateN_ne _ hjk _,
        getN_updateN_ne _ hjc _]
    have hwf2 : WfD d2 := wf_updateN (wf_updateN (wf_updateN hwf _ _) _ _) _ _
    have hgt2 : ∀ s ∈ rest, comp < s.1 := fun s hs => hgt s (List.mem_cons_of_mem _ hs)
    have hklt : ∀ s ∈ rest, k < s.1 := fun s hs => (List.pairwise_cons.mp hpw).1 s hs
    have hpw2 : List.Pairwise (fun s t => s.1 < t.1) rest := (List.pairwise_cons.mp hpw).2
    have hpar2 : ∀ s ∈ rest, ∃ w, getN d2 s.1 = some w ∧ w.parent = none := by
      intro s hs
      obtain ⟨w, hw, hwp⟩ := hpar s (List.mem_cons_of_mem _ hs)
      refine ⟨w, ?_, hwp⟩
      rw [hd2pres s.1 (Ne.symm (Nat.ne_of_lt (hgt2 s hs))) (Ne.symm (Nat.ne_of_lt (hklt s hs)))]
      exact hw
    obtain ⟨jwf, jpres, jcomp, jper⟩ := iht d2 comp { cN with children := cN.children ++ [k] }
      hwf2 hd2comp hgt2 hpw2 hpar2
    refine ⟨jwf, ?_, ?_, ?_⟩
    · intro j hjc hjall
      rw [jpres j hjc (fun s hs => hjall s (List.mem_cons_of_mem _ hs))]
      exact hd2pres j hjc (hjall (k, cx, cy) (List.mem_cons_self _ _))
    · rw [jcomp]
      simp only [List.map_cons]
      rw [← List.append_cons]
    · intro s hs
      rcases List.mem_cons.mp hs with h1 | h1
      · subst h1
        refine ⟨v, hv, ?_⟩
        rw [jpres k (Ne.symm hck) (fun s hs => Nat.ne_of_lt (hklt s hs))]
        exact hd2k
      · obtain ⟨w, hw, hwr⟩ := jper s h1
        refine ⟨w, ?_, hwr⟩
        rw [hd2pres s.1 (Ne.symm (Nat.ne_of_lt (hgt2 s h1))) (Ne.symm (Nat.ne_of_lt (hklt s h1)))] at hw
        exact hw

theorem copyFrameBlock_not_frame {s : SNode} (h : ¬(s.type = js "FRAME")) (x : SNode) :
    copyFrameBlock s x = x := by
  unfold copyFrameBlock
  rw [if_neg h]

theorem copyVisuals_fields (s x : SNode) :
    (copyVisuals s x).type = x.type ∧ (copyVisuals s x).parent = x.parent ∧
    (copyVisuals s x).children = x.children := by
  unfold copyVisuals
  cases s.opacity <;> cases s.blendMode <;> cases h : !s.effects.isEmpty <;> simp [h]

theorem forall₂_imp_mem₂ {α β : Type} {R S : α → β → Prop} :
    ∀ {l₁ : List α} {l₂ : List β}, List.Forall₂ R l₁ l₂ →
      (∀ a ∈ l₁, ∀ b ∈ l₂, R a b → S a b) → List.Forall₂ S l₁ l₂ := by
  intro l₁ l₂ h
  induction h with
  | nil => intro _; exact List.Forall₂.nil
  | cons hab htail ih =>
    intro hmem
    exact List.Forall₂.cons
      (hmem _ (List.mem_cons_self _ _) _ (List.mem_cons_self _ _) hab)
      (ih (fun a ha b hb hr =>
        hmem a (List.mem_cons_of_mem _ ha) b (List.mem_cons_of_mem _ hb) hr))

theorem forall₂_right_mem {α β : Type} {R : α → β → Prop} :
    ∀ {l₁ : List α} {l₂ : List β}, List.Forall₂ R l₁ l₂ → ∀ b ∈ l₂, ∃ a, R a b := by
  intro l₁ l₂ h
  induction h with
  | nil => intro b hb; exact absurd hb (List.not_mem_nil b)
  | cons hab htail ih =>
    intro b hb
    rcases List.mem_cons.mp hb with h1 | h1
    · exact ⟨_, h1 ▸ hab⟩
    · exact ih b h1

theorem groupTail_spec (d : Doc) (nid : Nat) (n : SNode) (d3 : Doc) (v2 : SNode)
    (hka : ∀ kv ∈ d.arena, kv.1 < d.nextId)
    (hnd : (d.arena.map Prod.fst).Nodup)
    (hcb : ∀ kv ∈ d.arena, ∀ c ∈ kv.2.children, c < d.nextId)
    (hpb : ∀ kv ∈ d.arena, ∀ q, kv.2.parent = some q → q < d.nextId)
    (hpr : ∀ kv ∈ d.arena, d.currentPage ∉ kv.2.children)
    (hn : getN d nid = some n)
    (hnpg : nid ≠ d.currentPage)
    (hres : ∀ c ∈ n.children, (getN d c).isSome = true)
    (hwf3 : WfD d3)
    (hnx3 : d3.nextId = d.nextId + 1)
    (hv2 : getN d3 d.nextId = some v2)
    (hv2c : v2.children = [])
    (hpres3 : ∀ j, j < d.nextId → j ≠ d.currentPage → getN d3 j = getN d j) :
    getN (resizeN (removeNode (appendClonesLoop d.nextId
        (cloneChildrenLoop d3 n.children).2 (cloneChildrenLoop d3 n.children).1) nid)
      d.nextId n.width n.height) nid = none ∧
    getN (resizeN (removeNode (appendClonesLoop d.nextId
        (cloneChildrenLoop d3 n.children).2 (cloneChildrenLoop d3 n.children).1) nid)
      d.nextId n.width n.height) d.nextId =
        some { v2 with children := (cloneChildrenLoop d3 n.children).2.map Prod.fst,
                       width := n.width, height := n.height } ∧
    List.Forall₂ (fun c k => d.nextId < k ∧
      ∃ cn kn, getN d c = some cn ∧
        getN (resizeN (removeNode (appendClonesLoop d.nextId
            (cloneChildrenLoop d3 n.children).2 (cloneChildrenLoop d3 n.children).1) nid)
          d.nextId n.width n.height) k = some kn ∧
        kn.type = cn.type ∧ kn.name = cn.name ∧ kn.x = cn.x ∧ kn.y = cn.y ∧
        kn.parent = some d.nextId) n.children
      ((cloneChildrenLoop d3 n.children).2.map Prod.fst) := by
  have hNlt : nid < d.nextId := getN_lt_nextId hka hn
  have hmemn : (nid, n) ∈ d.arena := mem_of_getN hn
  have hcbn : ∀ c ∈ n.children, c < d.nextId := fun c hc => hcb (nid, n) hmemn c hc
  have hprn : d.currentPage ∉ n.children := hpr (nid, n) hmemn
  have hlt3 : ∀ c ∈ n.children, c < d3.nextId :=
    fun c hc => hnx3 ▸ Nat.lt_succ_of_lt (hcbn c hc)
  have hres3 : ∀ c ∈ n.children, (getN d3 c).isSome = true := by
    intro c hc
    rw [hpres3 c (hcbn c hc) (fun he => hprn (he ▸ hc))]
    exact hres c hc
  obtain ⟨clwf, clm, clpres, clpw, cllb, clfa⟩ :=
    cloneChildrenLoop_spec n.children d3 hwf3 hlt3 hres3
  have hNlt3 : d.nextId < d3.nextId := hnx3 ▸ Nat.lt_succ_self _
  have hdcN : getN (cloneChildrenLoop d3 n.children).1 d.nextId = some v2 := by
    rw [clpres d.nextId hNlt3]
    exact hv2
  have htslb : ∀ t ∈ (cloneChildrenLoop d3 n.children).2, d.nextId < t.1 :=
    fun t ht => lt_of_lt_of_le hNlt3 (cllb t ht)
  have hpar : ∀ t ∈ (cloneChildrenLoop d3 n.children).2,
      ∃ v, getN (cloneChildrenLoop d3 n.children).1 t.1 = some v ∧ v.parent = none := by
    intro t ht
    obtain ⟨a, hrel⟩ := forall₂_right_mem clfa t ht
    obtain ⟨cn, hcn, hx, hy, cs0, hroot⟩ := hrel
    exact ⟨_, hroot, rfl⟩
  obtain ⟨apwf, appres, apcomp, apper⟩ :=
    appendClonesLoop_spec (cloneChildrenLoop d3 n.children).2
      (cloneChildrenLoop d3 n.children).1 d.nextId v2 clwf hdcN htslb clpw hpar
  have hnidneN : nid ≠ d.nextId := Nat.ne_of_lt hNlt
  have hnidnots : ∀ t ∈ (cloneChildrenLoop d3 n.children).2, nid ≠ t.1 :=
    fun t ht => Nat.ne_of_lt (lt_trans hNlt (htslb t ht))
  have hd5nid : getN (appendClonesLoop d.nextId (cloneChildrenLoop d3 n.children).2
      (cloneChildrenLoop d3 n.children).1) nid = some n := by
    rw [appres nid hnidneN hnidnots, clpres nid (lt_trans hNlt hNlt3),
      hpres3 nid hNlt hnpg]
    exact hn
  have hd5low : ∀ i, i < d.nextId → i ≠ d.currentPage →
      getN (appendClonesLoop d.nextId (cloneChildrenLoop d3 n.children).2
        (cloneChildrenLoop d3 n.children).1) i = getN d i := by
    intro i hi hip
    rw [appres i (Nat.ne_of_lt hi) (fun t ht => Nat.ne_of_lt (lt_trans hi (htslb t ht))),
      clpres i (lt_trans hi hNlt3), hpres3 i hi hip]
  have hdet :
      getN (detach (appendClonesLoop d.nextId (cloneChildrenLoop d3 n.children).2
          (cloneChildrenLoop d3 n.children).1) nid) d.nextId =
        getN (appendClonesLoop d.nextId (cloneChildrenLoop d3 n.children).2
          (cloneChildrenLoop d3 n.children).1) d.nextId ∧
      (∀ t ∈ (cloneChildrenLoop d3 n.children).2,
        getN (detach (appendClonesLoop d.nextId (cloneChildrenLoop d3 n.children).2
            (cloneChildrenLoop d3 n.children).1) nid) t.1 =
          getN (appendClonesLoop d.nextId (cloneChildrenLoop d3 n.children).2
            (cloneChildrenLoop d3 n.children).1) t.1) ∧
      WfD (detach (appendClonesLoop d.nextId (cloneChildrenLoop d3 n.children).2
          (cloneChildrenLoop d3 n.children).1) nid) ∧
      (∀ i v, getN (detach (appendClonesLoop d.nextId (cloneChildrenLoop d3 n.children).2
          (cloneChildrenLoop d3 n.children).1) nid) i = some v →
        i < d.nextId → i ≠ d.currentPage →
        ∃ w, getN d i = some w ∧ ∀ c ∈ v.children, c ∈ w.children) := by
    cases hp : n.parent with
    | none =>
      rw [detach_of_parent_none hd5nid hp]
      refine ⟨rfl, fun t ht => rfl, apwf, ?_⟩
      intro i v hgv hi hip
      rw [hd5low i hi hip] at hgv
      exact ⟨v, hgv, fun c hc => hc⟩
    | some p =>
      have hpN : p < d.nextId := hpb (nid, n) hmemn p hp
      rw [detach_of_parent_some hd5nid hp]
      refine ⟨?_, ?_, ?_, ?_⟩
      · rw [getN_updateN_ne _ (Ne.symm hnidneN) _, getN_updateN_ne _ (ne_of_gt hpN) _]
      · intro t ht
        rw [getN_updateN_ne _ (Ne.symm (hnidnots t ht)) _,
          getN_updateN_ne _ (ne_of_gt (lt_trans hpN (htslb t ht))) _]
      · exact wf_updateN (wf_updateN apwf _ _) _ _
      · intro i v hgv hi hip
        by_cases hinid : i = nid
        · subst hinid
          by_cases hpnid : p = i
          · subst hpnid
            rw [getN_updateN_self (getN_updateN_self hd5nid _) _] at hgv
            refine ⟨n, hn, ?_⟩
            intro c hc
            rw [← Option.some.inj hgv] at hc
            exact List.mem_of_mem_filter hc
          · rw [getN_updateN_self (by
                rw [getN_updateN_ne _ (fun he => hpnid he.symm) _]
                exact hd5nid) _] at hgv
            refine ⟨n, hn, ?_⟩
            intro c hc
            rw [← Option.some.inj hgv] at hc
            exact hc
        · rw [getN_updateN_ne _ hinid _] at hgv
          by_cases hipp : i = p
          · subst hipp
            cases hD5p : getN (appendClonesLoop d.nextId
                (cloneChildrenLoop d3 n.children).2
                (cloneChildrenLoop d3 n.children).1) i with
            | none =>
              rw [updateN_of_none hD5p _, hD5p] at hgv
              exact absurd hgv (by simp)
            | some w =>
              rw [getN_updateN_self hD5p _] at hgv
              refine ⟨w, by rw [← hd5low i hi hip]; exact hD5p, ?_⟩
              intro c hc
              rw [← Option.some.inj hgv] at hc
              exact List.mem_of_mem_filter hc
          · rw [getN_updateN_ne _ hipp _, hd5low i hi hip] at hgv
            exact ⟨v, hgv, fun c hc => hc⟩
  have hstep : ∀ i v, getN (detach (appendClonesLoop d.nextId
      (cloneChildrenLoop d3 n.children).2 (cloneChildrenLoop d3 n.children).1) nid) i =
        some v → (fun x => x < d.nextId ∧ x ≠ d.currentPage) i →
        ∀ c ∈ v.children, (fun x => x < d.nextId ∧ x ≠ d.currentPage) c := by
    intro i v hgv hBi c hc
    obtain ⟨w, hw, hsubw⟩ := hdet.2.2.2 i v hgv hBi.1 hBi.2
    have hmemw : (i, w) ∈ d.arena := mem_of_getN hw
    exact ⟨hcb (i, w) hmemw c (hsubw c hc),
      fun he => hpr (i, w) hmemw (he ▸ hsubw c hc)⟩
  have hlen5 : 0 < (appendClonesLoop d.nextId (cloneChildrenLoop d3 n.children).2
      (cloneChildrenLoop d3 n.children).1).arena.length := getN_pos_length apcomp
  refine ⟨?_, ?_, ?_⟩
  · unfold resizeN
    rw [getN_updateN_ne _ hnidneN _]
    unfold removeNode
    exact removeSubtreeF_self_none _ _ nid hlen5
  · have hremNN : getN (removeNode (appendClonesLoop d.nextId
        (cloneChildrenLoop d3 n.children).2 (cloneChildrenLoop d3 n.children).1) nid)
        d.nextId = some { v2 with children :=
          v2.children ++ (cloneChildrenLoop d3 n.children).2.map Prod.fst } := by
      unfold removeNode
      rw [(removeSubtreeF_preserve _ hdet.2.2.1.2
        (fun x => x < d.nextId ∧ x ≠ d.currentPage) hstep d.nextId
        (fun hB => absurd hB.1 (lt_irrefl _)) _ _ (List.Sublist.refl _) nid
        ⟨hNlt, hnpg⟩).1, hdet.1]
      exact apcomp
    unfold resizeN
    rw [getN_updateN_self hremNN _]
    have hrec : { v2 with children := (cloneChildrenLoop d3 n.children).2.map Prod.fst,
                          width := n.width, height := n.height } =
        { v2 with children := v2.children ++ (cloneChildrenLoop d3 n.children).2.map Prod.fst,
                  width := n.width, height := n.height } := by
      rw [hv2c]
      rfl
    rw [hrec]
  · rw [List.forall₂_map_right_iff]
    refine forall₂_imp_mem₂ clfa ?_
    intro c hc t ht hrel
    obtain ⟨cn, hcn3, hx, hy, cs0, hroot⟩ := hrel
    have hcnd : getN d c = some cn := by
      rw [← hpres3 c (hcbn c hc) (fun he => hprn (he ▸ hc))]
      exact hcn3
    obtain ⟨vq, hvq, hvq5⟩ := apper t ht
    rw [hroot] at hvq
    have hveq := Option.some.inj hvq
    rw [← hveq] at hvq5
    have hfin : getN (resizeN (removeNode (appendClonesLoop d.nextId
        (cloneChildrenLoop d3 n.children).2 (cloneChildrenLoop d3 n.children).1) nid)
        d.nextId n.width n.height) t.1 =
        getN (appendClonesLoop d.nextId (cloneChildrenLoop d3 n.children).2
          (cloneChildrenLoop d3 n.children).1) t.1 := by
      unfold resizeN
      rw [getN_updateN_ne _ (Nat.ne_of_gt (htslb t ht)) _]
      unfold removeNode
      rw [(removeSubtreeF_preserve _ hdet.2.2.1.2
        (fun x => x < d.nextId ∧ x ≠ d.currentPage) hstep t.1
        (fun hB => absurd hB.1 (lt_asymm (htslb t ht))) _ _ (List.Sublist.refl _) nid
        ⟨hNlt, hnpg⟩).1]
      exact hdet.2.1 t ht
    refine ⟨htslb t ht, cn,
      { cn with children := cs0, parent := some d.nextId, x := t.2.1, y := t.2.2 },
      hcnd, ?_, rfl, rfl, hx, hy, rfl⟩
    rw [hfin, hvq5]

theorem relockSize_false (comp : Nat) (src : SNode) (w h : ℚ) (dd : Doc) :
    relockSize comp false src w h dd = resizeN dd comp w h := by
  simp [relockSize]

/-- Claim C1 (amended): the GROUP clone-first behaviour lives in the
variant combiner, not in the converter. For every well-formed document
(keys below the fresh-id counter and duplicate-free, children and parent
links bounded, the current page a root that is nobody's child) and every
free GROUP node with resolvable children, nodeToComponent returns a fresh
component (id = nextId) whose children correspond one-to-one and in order
to the group children, each a freshly allocated clone (id above every
pre-existing id) carrying the original child type, name and relative
position, reparented into the component; the original group is removed
from the document. -/
theorem claim_C1_group_clone (d : Doc) (nid : Nat) (n : SNode)
    (hka : ∀ kv ∈ d.arena, kv.1 < d.nextId)
    (hnd : (d.arena.map Prod.fst).Nodup)
    (hcb : ∀ kv ∈ d.arena, ∀ c ∈ kv.2.children, c < d.nextId)
    (hpb : ∀ kv ∈ d.arena, ∀ q, kv.2.parent = some q → q < d.nextId)
    (hpr : ∀ kv ∈ d.arena, d.currentPage ∉ kv.2.children)
    (hcp : d.currentPage < d.nextId)
    (hn : getN d nid = some n)
    (hnpg : nid ≠ d.currentPage)
    (htype : n.type = js "GROUP")
    (hhc : n.hasChildrenProp = true)
    (hne : n.children ≠ [])
    (hfree : isInsideProtectedA d nid = false)
    (hres : ∀ c ∈ n.children, (getN d c).isSome = true) :
    (nodeToComponent d nid).2 = Except.ok d.nextId ∧
    getN (nodeToComponent d nid).1 nid = none ∧
    ∃ compN, getN (nodeToComponent d nid).1 d.nextId = some compN ∧
      compN.type = js "COMPONENT" ∧
      compN.parent = some d.currentPage ∧
      compN.width = n.width ∧ compN.height = n.height ∧
      List.Forall₂ (fun c k => d.nextId < k ∧
        ∃ cn kn, getN d c = some cn ∧
          getN (nodeToComponent d nid).1 k = some kn ∧
          kn.type = cn.type ∧ kn.name = cn.name ∧ kn.x = cn.x ∧ kn.y = cn.y ∧
          kn.parent = some d.nextId) n.children compN.children := by
  have hwf : WfD d := ⟨hka, hnd⟩
  obtain ⟨hcc2, hccN, hccW, hccG, hccP⟩ := createComponent_spec hwf hcp
  have hconv : isConvertibleTypeVC (js "GROUP") = true := by with_unfolding_all decide
  have hgc : ¬(js "GROUP" = js "COMPONENT") := by with_unfolding_all decide
  have hgf : ¬(js "GROUP" = js "FRAME") := by with_unfolding_all decide
  have hie : n.children.isEmpty = false := by
    cases hc : n.children with
    | nil => exact absurd hc hne
    | cons a as => rfl
  have hnf : ¬(n.type = js "FRAME") := by rw [htype]; exact hgf
  have hcf : copyFrameBlock n (copyVisuals n
      { compSeed d.currentPage with name := nameOr n.name (js "Component") }) = copyVisuals n
      { compSeed d.currentPage with name := nameOr n.name (js "Component") } :=
    copyFrameBlock_not_frame hnf _
  have hd2N : getN (updateN (createComponent d).1 d.nextId (fun c =>
      copyFrameBlock n (copyVisuals n { c with name := nameOr n.name (js "Component") })))
      d.nextId = some (copyFrameBlock n (copyVisuals n
        { compSeed d.currentPage with name := nameOr n.name (js "Component") })) := getN_updateN_self hccG _
  have hd3N : getN (resizeN (updateN (createComponent d).1 d.nextId (fun c =>
      copyFrameBlock n (copyVisuals n { c with name := nameOr n.name (js "Component") })))
      d.nextId n.width n.height) d.nextId =
      some { copyFrameBlock n (copyVisuals n
        { compSeed d.currentPage with name := nameOr n.name (js "Component") }) with
        width := n.width, height := n.height } := by
    unfold resizeN
    exact getN_updateN_self hd2N _
  have hwf3 : WfD (resizeN (updateN (createComponent d).1 d.nextId (fun c =>
      copyFrameBlock n (copyVisuals n { c with name := nameOr n.name (js "Component") })))
      d.nextId n.width n.height) := wf_updateN (wf_updateN hccW _ _) _ _
  have hnx3 : (resizeN (updateN (createComponent d).1 d.nextId (fun c =>
      copyFrameBlock n (copyVisuals n { c with name := nameOr n.name (js "Component") })))
      d.nextId n.width n.height).nextId = d.nextId + 1 := by
    unfold resizeN
    rw [nextId_updateN, nextId_updateN, hccN]
  have hv2c : ({ copyFrameBlock n (copyVisuals n
      { compSeed d.currentPage with name := nameOr n.name (js "Component") }) with
      width := n.width, height := n.height } : SNode).children = [] := by
    show (copyFrameBlock n (copyVisuals n _)).children = []
    rw [hcf, (copyVisuals_fields n _).2.2]
    rfl
  have hpres3 : ∀ j, j < d.nextId → j ≠ d.currentPage →
      getN (resizeN (updateN (createComponent d).1 d.nextId (fun c =>
        copyFrameBlock n (copyVisuals n { c with name := nameOr n.name (js "Component") })))
        d.nextId n.width n.height) j = getN d j := by
    intro j hj hjp
    unfold resizeN
    rw [getN_updateN_ne _ (Nat.ne_of_lt hj) _, getN_updateN_ne _ (Nat.ne_of_lt hj) _]
    exact hccP j (Nat.ne_of_lt hj) hjp
  obtain ⟨hfin1, hfin2, hfin3⟩ := groupTail_spec d nid n _ _
    hka hnd hcb hpb hpr hn hnpg hres hwf3 hnx3 hd3N hv2c hpres3
  have htypeC : (copyFrameBlock n (copyVisuals n
      { compSeed d.currentPage with name := nameOr n.name (js "Component") })).type = js "COMPONENT" := by
    rw [hcf, (copyVisuals_fields n _).1]
    rfl
  have hparC : (copyFrameBlock n (copyVisuals n
      { compSeed d.currentPage with name := nameOr n.name (js "Component") })).parent = some d.currentPage := by
    rw [hcf, (copyVisuals_fields n _).2.1]
    rfl
  simp only [nodeToComponent, hn, htype, hconv, hfree, hgc, hhc, hie, hgf, hcc2,
    Bool.not_true, Bool.false_eq_true, if_false, decide_False, Bool.false_and,
    Bool.not_false, Bool.true_and, Bool.and_self, if_true, eq_self_iff_true,
    relockSize_false, ite_true, ite_false]
  exact ⟨trivial, hfin1, _, hfin2, htypeC, hparC, rfl, rfl, hfin3⟩

/-- Witness for claim C1: the concrete page-group-rectangle document
satisfies every hypothesis of the amended theorem, and the theorem
instantiates on it. -/
theorem claim_C1_group_clone_witness :
    ((∀ kv ∈ docC1X.arena, kv.1 < docC1X.nextId) ∧
     (docC1X.arena.map Prod.fst).Nodup ∧
     (∀ kv ∈ docC1X.arena, ∀ c ∈ kv.2.children, c < docC1X.nextId) ∧
     (∀ kv ∈ docC1X.arena, ∀ q, kv.2.parent = some q → q < docC1X.nextId) ∧
     (∀ kv ∈ docC1X.arena, docC1X.currentPage ∉ kv.2.children) ∧
     docC1X.currentPage < docC1X.nextId ∧
     getN docC1X 1 = some grpC1 ∧
     1 ≠ docC1X.currentPage ∧
     grpC1.type = js "GROUP" ∧
     grpC1.hasChildrenProp = true ∧
     grpC1.children ≠ [] ∧
     isInsideProtectedA docC1X 1 = false ∧
     (∀ c ∈ grpC1.children, (getN docC1X c).isSome = true)) ∧
    ((nodeToComponent docC1X 1).2 = Except.ok docC1X.nextId ∧
     getN (nodeToComponent docC1X 1).1 1 = none ∧
     ∃ compN, getN (nodeToComponent docC1X 1).1 docC1X.nextId = some compN ∧
       compN.type = js "COMPONENT" ∧
       compN.parent = some docC1X.currentPage ∧
       compN.width = grpC1.width ∧ compN.height = grpC1.height ∧
       List.Forall₂ (fun c k => docC1X.nextId < k ∧
         ∃ cn kn, getN docC1X c = some cn ∧
           getN (nodeToComponent docC1X 1).1 k = some kn ∧
           kn.type = cn.type ∧ kn.name = cn.name ∧ kn.x = cn.x ∧ kn.y = cn.y ∧
           kn.parent = some docC1X.nextId) grpC1.children compN.children) := by
  have h : (∀ kv ∈ docC1X.arena, kv.1 < docC1X.nextId) ∧
      (docC1X.arena.map Prod.fst).Nodup ∧
      (∀ kv ∈ docC1X.arena, ∀ c ∈ kv.2.children, c < docC1X.nextId) ∧
      (∀ kv ∈ docC1X.arena, ∀ q, kv.2.parent = some q → q < docC1X.nextId) ∧
      (∀ kv ∈ docC1X.arena, docC1X.currentPage ∉ kv.2.children) ∧
      docC1X.currentPage < docC1X.nextId ∧
      getN docC1X 1 = some grpC1 ∧
      1 ≠ docC1X.currentPage ∧
      grpC1.type = js "GROUP" ∧
      grpC1.hasChildrenProp = true ∧
      grpC1.children ≠ [] ∧
      isInsideProtectedA docC1X 1 = false ∧
      (∀ c ∈ grpC1.children, (getN docC1X c).isSome = true) := by
    with_unfolding_all decide
  exact ⟨h, claim_C1_group_clone docC1X 1 grpC1 h.1 h.2.1 h.2.2.1 h.2.2.2.1
    h.2.2.2.2.1 h.2.2.2.2.2.1 h.2.2.2.2.2.2.1 h.2.2.2.2.2.2.2.1
    h.2.2.2.2.2.2.2.2.1 h.2.2.2.2.2.2.2.2.2.1 h.2.2.2.2.2.2.2.2.2.2.1
    h.2.2.2.2.2.2.2.2.2.2.2.1 h.2.2.2.2.2.2.2.2.2.2.2.2⟩


-- ── Fingerprint lemmas and claim C4 ─────────────────────────────────────────

theorem fpBase_congr {p1 p2 : PProps} (ht : p1.type = p2.type)
    (hw : snap p1.width = snap p2.width) (hh : snap p1.height = snap p2.height) :
    fpBase p1 = fpBase p2 := by
  unfold fpBase
  rw [ht, hw, hh]

theorem fpList_eq_map : ∀ (r : Nat) (l : List PNode),
    fpList r l = l.map (buildFingerprintAux r)
  | _, [] => rfl
  | r, c :: rest => by rw [fpList, List.map_cons, fpList_eq_map r rest]

theorem jstrLeB_antisymm_eq : ∀ (a b : JStr),
    jstrLeB a b = true → jstrLeB b a = true → a = b := by
  intro a b hab hba
  unfold jstrLeB at hab hba
  exact jstrLtB_conn a b (by
    cases h : jstrLtB a b with
    | false => rfl
    | true => rw [h] at hba; exact absurd hba (by simp)) (by
    cases h : jstrLtB b a with
    | false => rfl
    | true => rw [h] at hab; exact absurd hab (by simp))

theorem jsSortStrings_perm_congr {l1 l2 : List JStr} (h : l1.Perm l2) :
    jsSortStrings l1 = jsSortStrings l2 := by
  unfold jsSortStrings
  haveI : IsTotal JStr (fun a b => jstrLeB a b = true) := ⟨jstrLeB_total⟩
  haveI : IsTrans JStr (fun a b => jstrLeB a b = true) := ⟨jstrLeB_trans⟩
  haveI : IsAntisymm JStr (fun a b => jstrLeB a b = true) := ⟨jstrLeB_antisymm_eq⟩
  refine List.eq_of_perm_of_sorted ?_ (List.sorted_insertionSort _ l1)
    (List.sorted_insertionSort _ l2)
  exact ((List.perm_insertionSort _ l1).trans h).trans
    (List.perm_insertionSort _ l2).symm

mutual

theorem fpAux_congr : ∀ (t1 t2 : PNode), StructEq t1 t2 →
    ∀ (r : Nat), buildFingerprintAux r t1 = buildFingerprintAux r t2
  | .node p1 cs1, .node p2 cs2, h, r => by
    cases h with
    | @node _ _ _ _ l ht hw hh hperm hfa =>
      have hbase := fpBase_congr ht hw hh
      cases r with
      | zero =>
        rw [buildFingerprintAux, buildFingerprintAux]
        exact hbase
      | succ r =>
        rw [buildFingerprintAux, buildFingerprintAux]
        have hlen : cs1.length = cs2.length := by
          rw [List.Forall₂.length_eq hfa]
          exact (List.Perm.length_eq hperm).symm
        cases hemp : cs1.isEmpty with
        | true =>
          have hemp2 : cs2.isEmpty = true := by
            rw [List.isEmpty_iff_length_eq_zero] at hemp ⊢
            rw [← hlen]
            exact hemp
          rw [if_pos rfl, hemp2, if_pos rfl]
          exact hbase
        | false =>
          have hemp2 : cs2.isEmpty = false := by
            cases h2 : cs2.isEmpty with
            | false => rfl
            | true =>
              rw [List.isEmpty_iff_length_eq_zero] at h2
              rw [← hlen] at h2
              rw [← List.isEmpty_iff_length_eq_zero] at h2
              rw [h2] at hemp
              exact hemp
          rw [if_neg (by simp), hemp2, if_neg (by simp)]
          have h1 : fpList r cs1 = fpList r l := fpList_congr cs1 l hfa r
          have h2 : (fpList r cs2).Perm (fpList r l) := by
            rw [fpList_eq_map, fpList_eq_map]
            exact List.Perm.map _ hperm
          rw [hbase, h1, jsSortStrings_perm_congr h2.symm]

theorem fpList_congr : ∀ (l1 l2 : List PNode), List.Forall₂ StructEq l1 l2 →
    ∀ (r : Nat), fpList r l1 = fpList r l2
  | [], [], _, _ => rfl
  | a :: l1, b :: l2, h, r => by
    cases h with
    | cons hab htail =>
      rw [fpList, fpList, fpAux_congr a b hab r, fpList_congr l1 l2 htail r]

end

mutual

theorem structEq_refl : ∀ (t : PNode), StructEq t t
  | .node p cs => StructEq.node rfl rfl rfl (List.Perm.refl cs) (forall₂_structEq_refl cs)

theorem forall₂_structEq_refl : ∀ (l : List PNode), List.Forall₂ StructEq l l
  | [] => List.Forall₂.nil
  | a :: rest => List.Forall₂.cons (structEq_refl a) (forall₂_structEq_refl rest)

end

theorem scanD_append : ∀ (s u : JStr) (d : Nat),
    scanD d (s ++ u) = (scanD d s).bind (fun e => scanD e u)
  | [], u, d => rfl
  | c :: s, u, d => by
    rw [List.cons_append, scanD, scanD]
    by_cases hc : c = ','
    · rw [if_pos hc, if_pos hc]
      by_cases hd : d = 0
      · rw [if_pos hd, if_pos hd]
        rfl
      · rw [if_neg hd, if_neg hd]
        exact scanD_append s u d
    · rw [if_neg hc, if_neg hc]
      by_cases hb : c = '['
      · rw [if_pos hb, if_pos hb]
        exact scanD_append s u (d + 1)
      · rw [if_neg hb, if_neg hb]
        by_cases he : c = ']'
        · rw [if_pos he, if_pos he]
          by_cases hd : d = 0
          · rw [if_pos hd, if_pos hd]
            rfl
          · rw [if_neg hd, if_neg hd]
            exact scanD_append s u (d - 1)
        · rw [if_neg he, if_neg he]
          exact scanD_append s u d

theorem scanD_shift : ∀ (s : JStr) (d e k : Nat), scanD d s = some e →
    scanD (d + k) s = some (e + k)
  | [], d, e, k, h => by
    rw [scanD] at h ⊢
    rw [Option.some.inj h]
  | c :: s, d, e, k, h => by
    rw [scanD] at h ⊢
    by_cases hc : c = ','
    · rw [if_pos hc] at h ⊢
      by_cases hd : d = 0
      · rw [if_pos hd] at h
        exact absurd h (by simp)
      · rw [if_neg hd] at h
        rw [if_neg (by omega)]
        exact scanD_shift s d e k h
    · rw [if_neg hc] at h ⊢
      by_cases hb : c = '['
      · rw [if_pos hb] at h ⊢
        rw [show d + k + 1 = d + 1 + k by omega]
        exact scanD_shift s (d + 1) e k h
      · rw [if_neg hb] at h ⊢
        by_cases he : c = ']'
        · rw [if_pos he] at h ⊢
          by_cases hd : d = 0
          · rw [if_pos hd] at h
            exact absurd h (by simp)
          · rw [if_neg hd] at h
            rw [if_neg (by omega), show d + k - 1 = d - 1 + k by omega]
            exact scanD_shift s (d - 1) e k h
        · rw [if_neg he] at h ⊢
          exact scanD_shift s d e k h

theorem scanD_neutral : ∀ (s : JStr), (∀ c ∈ s, neutralChar c = true) →
    ∀ (d : Nat), scanD d s = some d
  | [], _, d => rfl
  | c :: s, h, d => by
    have hc := h c (List.mem_cons_self c s)
    simp only [neutralChar, Bool.and_eq_true, Bool.not_eq_true', decide_eq_false_iff_not] at hc
    rw [scanD, if_neg hc.1.1, if_neg hc.1.2, if_neg hc.2]
    exact scanD_neutral s (fun x hx => h x (List.mem_cons_of_mem c hx)) d

theorem digitChar_neutral (n : Nat) :
    neutralChar (Nat.digitChar n) = true ∧ ¬(Nat.digitChar n = ':') := by
  rcases Nat.lt_or_ge n 16 with h | h
  · interval_cases n <;> exact ⟨by decide, by decide⟩
  · have he : Nat.digitChar n = '*' := by
      have g0 : ¬(n = 0) := by omega
      have g1 : ¬(n = 1) := by omega
      have g2 : ¬(n = 2) := by omega
      have g3 : ¬(n = 3) := by omega
      have g4 : ¬(n = 4) := by omega
      have g5 : ¬(n = 5) := by omega
      have g6 : ¬(n = 6) := by omega
      have g7 : ¬(n = 7) := by omega
      have g8 : ¬(n = 8) := by omega
      have g9 : ¬(n = 9) := by omega
      have ga : ¬(n = 0xa) := by omega
      have gb : ¬(n = 0xb) := by omega
      have gc : ¬(n = 0xc) := by omega
      have gd : ¬(n = 0xd) := by omega
      have ge : ¬(n = 0xe) := by omega
      have gf : ¬(n = 0xf) := by omega
      unfold Nat.digitChar
      rw [if_neg g0, if_neg g1, if_neg g2, if_neg g3, if_neg g4, if_neg g5,
        if_neg g6, if_neg g7, if_neg g8, if_neg g9, if_neg ga, if_neg gb,
        if_neg gc, if_neg gd, if_neg ge, if_neg gf]
    rw [he]
    exact ⟨by decide, by decide⟩

theorem natCharsAux_neutral : ∀ (fuel n : Nat) (c : Char), c ∈ natCharsAux fuel n →
    neutralChar c = true ∧ ¬(c = ':')
  | 0, n, c, h => absurd h (List.not_mem_nil c)
  | fuel + 1, n, c, h => by
    rw [natCharsAux] at h
    by_cases hn : n < 10
    · rw [if_pos hn] at h
      rw [List.mem_singleton.mp h]
      exact digitChar_neutral n
    · rw [if_neg hn] at h
      rcases List.mem_append.mp h with h1 | h1
      · exact natCharsAux_neutral fuel (n / 10) c h1
      · rw [List.mem_singleton.mp h1]
        exact digitChar_neutral (n % 10)

theorem intToChars_neutral (i : Int) (c : Char) (h : c ∈ intToChars i) :
    neutralChar c = true ∧ ¬(c = ':') := by
  unfold intToChars at h
  split_ifs at h
  · rcases List.mem_cons.mp h with h1 | h1
    · rw [h1]
      exact ⟨rfl, by decide⟩
    · exact natCharsAux_neutral _ _ c h1
  · exact natCharsAux_neutral _ _ c h

theorem fpBase_neutral {p : PProps} (hok : p.type.all typeOkChar = true) :
    ∀ c ∈ fpBase p, neutralChar c = true := by
  intro c hc
  unfold fpBase at hc
  rcases List.mem_append.mp hc with h1 | h1
  · rcases List.mem_append.mp h1 with h2 | h2
    · rcases List.mem_append.mp h2 with h3 | h3
      · rcases List.mem_append.mp h3 with h4 | h4
        · have := List.all_eq_true.mp hok c h4
          simp only [typeOkChar, Bool.and_eq_true, Bool.not_eq_true',
            decide_eq_false_iff_not] at this
          simp only [neutralChar, Bool.and_eq_true, Bool.not_eq_true',
            decide_eq_false_iff_not]
          exact ⟨⟨this.1.1.2, this.1.2⟩, this.2⟩
        · rw [List.mem_singleton.mp h4]
          rfl
      · exact (intToChars_neutral _ c h3).1
    · rw [List.mem_singleton.mp h2]
      rfl
  · exact (intToChars_neutral _ c h1).1

theorem fpBase_scan {p : PProps} (hok : p.type.all typeOkChar = true) (d : Nat) :
    scanD d (fpBase p) = some d :=
  scanD_neutral (fpBase p) (fpBase_neutral hok) d

theorem fpBase_ne_nil (p : PProps) : fpBase p ≠ [] := by
  unfold fpBase
  intro h
  have hl := congrArg List.length h
  simp only [List.length_append, List.length_nil] at hl
  have : (js ":").length = 1 := rfl
  omega

theorem scanD_joinComma : ∀ (L : List JStr), (∀ s ∈ L, scanD 0 s = some 0) →
    scanD 1 (joinComma L) = some 1
  | [], _ => rfl
  | [x], h => by
    rw [joinComma]
    have := scanD_shift x 0 0 1 (h x (List.mem_singleton.mpr rfl))
    simpa using this
  | x :: y :: xs, h => by
    rw [joinComma, scanD_append]
    have hx := scanD_shift x 0 0 1 (h x (List.mem_cons_self _ _))
    simp only [Nat.zero_add] at hx
    rw [hx]
    show scanD 1 (',' :: joinComma (y :: xs)) = some 1
    rw [scanD, if_pos rfl, if_neg (by omega)]
    exact scanD_joinComma (y :: xs) (fun s hs => h s (List.mem_cons_of_mem _ hs))

theorem fpAux_ne_nil : ∀ (t : PNode) (r : Nat), buildFingerprintAux r t ≠ []
  | .node p cs, 0 => by
    rw [buildFingerprintAux]
    exact fpBase_ne_nil p
  | .node p cs, r + 1 => by
    rw [buildFingerprintAux]
    cases hemp : cs.isEmpty with
    | true =>
      rw [if_pos rfl]
      exact fpBase_ne_nil p
    | false =>
      rw [if_neg (by simp)]
      intro h
      exact fpBase_ne_nil p (List.append_eq_nil.mp h).1

mutual

theorem fpAux_scan : ∀ (t : PNode), typesOkT t = true →
    ∀ (r : Nat), scanD 0 (buildFingerprintAux r t) = some 0
  | .node p cs, hok, r => by
    rw [typesOkT, Bool.and_eq_true] at hok
    have hok2 := hok
    cases r with
    | zero =>
      rw [buildFingerprintAux]
      exact fpBase_scan hok2.1 0
    | succ r =>
      rw [buildFingerprintAux]
      cases hemp : cs.isEmpty with
      | true =>
        rw [if_pos rfl]
        exact fpBase_scan hok2.1 0
      | false =>
        rw [if_neg (by simp)]
        rw [scanD_append, fpBase_scan hok2.1 0]
        show scanD 0 ('[' :: (joinComma (jsSortStrings (fpList r cs)) ++ [']'])) = some 0
        rw [scanD, if_neg (by decide), if_pos rfl]
        rw [scanD_append]
        have hj : scanD (0 + 1) (joinComma (jsSortStrings (fpList r cs))) = some 1 := by
          rw [Nat.zero_add]
          refine scanD_joinComma _ ?_
          intro s hs
          have hmem : s ∈ fpList r cs :=
            (List.perm_insertionSort (fun a b => jstrLeB a b = true) (fpList r cs)).mem_iff.mp hs
          exact fpList_scan cs hok2.2 r s hmem
        rw [hj]
        rfl

theorem fpList_scan : ∀ (l : List PNode), typesOkL l = true →
    ∀ (r : Nat) (s : JStr), s ∈ fpList r l → scanD 0 s = some 0
  | [], _, r, s, h => absurd h (List.not_mem_nil s)
  | t :: rest, hok, r, s, h => by
    rw [typesOkL, Bool.and_eq_true] at hok
    have hok2 := hok
    rw [fpList] at h
    rcases List.mem_cons.mp h with h1 | h1
    · rw [h1]
      exact fpAux_scan t hok2.1 r
    · exact fpList_scan rest hok2.2 r s h1

end

theorem goodTok_fpAux {t : PNode} (hok : typesOkT t = true) (r : Nat) :
    goodTok (buildFingerprintAux r t) = true := by
  rw [goodTok, Bool.and_eq_true]
  constructor
  · cases hf : buildFingerprintAux r t with
    | nil => exact absurd hf (fpAux_ne_nil t r)
    | cons a as => rfl
  · rw [beq_iff_eq]
    exact fpAux_scan t hok r

theorem goodTok_ne_nil {s : JStr} (h : goodTok s = true) : s ≠ [] := by
  rw [goodTok, Bool.and_eq_true] at h
  intro he
  rw [he] at h
  exact absurd h.1 (by decide)

theorem goodTok_scan {s : JStr} (h : goodTok s = true) : scanD 0 s = some 0 := by
  rw [goodTok, Bool.and_eq_true] at h
  exact beq_iff_eq.mp h.2

theorem splitTopAux_append_comma : ∀ (s : JStr) (d : Nat) (rest : JStr),
    scanD d s = some 0 → splitTopAux d (s ++ ',' :: rest) = (s, some rest)
  | [], d, rest, h => by
    rw [scanD] at h
    have hd : d = 0 := Option.some.inj h
    subst hd
    rw [List.nil_append, splitTopAux, if_pos ⟨rfl, rfl⟩]
  | c :: s, d, rest, h => by
    rw [scanD] at h
    rw [List.cons_append, splitTopAux]
    by_cases hc : c = ','
    · rw [if_pos hc] at h
      by_cases hd : d = 0
      · rw [if_pos hd] at h
        exact absurd h (by simp)
      · rw [if_neg hd] at h
        have hb : ¬(c = '[') := by rw [hc]; decide
        have he : ¬(c = ']') := by rw [hc]; decide
        rw [if_neg (fun hh => hd hh.2), if_neg hb, if_neg he,
          splitTopAux_append_comma s d rest h]
    · rw [if_neg hc] at h
      rw [if_neg (fun hh => hc hh.1)]
      by_cases hb : c = '['
      · rw [if_pos hb] at h
        rw [if_pos hb, splitTopAux_append_comma s (d + 1) rest h]
      · rw [if_neg hb] at h
        rw [if_neg hb]
        by_cases he : c = ']'
        · rw [if_pos he] at h
          by_cases hd : d = 0
          · rw [if_pos hd] at h
            exact absurd h (by simp)
          · rw [if_neg hd] at h
            rw [if_pos he, splitTopAux_append_comma s (d - 1) rest h]
        · rw [if_neg he] at h
          rw [if_neg he, splitTopAux_append_comma s d rest h]

theorem splitTopAux_self : ∀ (s : JStr) (d : Nat),
    scanD d s = some 0 → splitTopAux d s = (s, none)
  | [], d, h => by
    rw [splitTopAux]
  | c :: s, d, h => by
    rw [scanD] at h
    rw [splitTopAux]
    by_cases hc : c = ','
    · rw [if_pos hc] at h
      by_cases hd : d = 0
      · rw [if_pos hd] at h
        exact absurd h (by simp)
      · rw [if_neg hd] at h
        have hb : ¬(c = '[') := by rw [hc]; decide
        have he : ¬(c = ']') := by rw [hc]; decide
        rw [if_neg (fun hh => hd hh.2), if_neg hb, if_neg he, splitTopAux_self s d h]
    · rw [if_neg hc] at h
      rw [if_neg (fun hh => hc hh.1)]
      by_cases hb : c = '['
      · rw [if_pos hb] at h
        rw [if_pos hb, splitTopAux_self s (d + 1) h]
      · rw [if_neg hb] at h
        rw [if_neg hb]
        by_cases he : c = ']'
        · rw [if_pos he] at h
          by_cases hd : d = 0
          · rw [if_pos hd] at h
            exact absurd h (by simp)
          · rw [if_neg hd] at h
            rw [if_pos he, splitTopAux_self s (d - 1) h]
        · rw [if_neg he] at h
          rw [if_neg he, splitTopAux_self s d h]

theorem joinComma_inj : ∀ (L1 L2 : List JStr),
    (∀ s ∈ L1, goodTok s = true) → (∀ s ∈ L2, goodTok s = true) →
    joinComma L1 = joinComma L2 → L1 = L2
  | [], [], _, _, _ => rfl
  | [], t :: L2, _, hg2, h => by
    exfalso
    rw [joinComma] at h
    cases L2 with
    | nil =>
      rw [joinComma] at h
      exact goodTok_ne_nil (hg2 t (List.mem_cons_self _ _)) h.symm
    | cons u L2 =>
      rw [joinComma] at h
      have := congrArg List.length h
      simp only [List.length_nil, List.length_append, List.length_cons] at this
      omega
  | t :: L1, [], hg1, _, h => by
    exfalso
    rw [joinComma] at h
    cases L1 with
    | nil =>
      rw [joinComma] at h
      exact goodTok_ne_nil (hg1 t (List.mem_cons_self _ _)) h
    | cons u L1 =>
      rw [joinComma] at h
      have := congrArg List.length h
      simp only [List.length_nil, List.length_append, List.length_cons] at this
      omega
  | a :: L1, b :: L2, hg1, hg2, h => by
    have hsp := congrArg (splitTopAux 0) h
    have hga := goodTok_scan (hg1 a (List.mem_cons_self _ _))
    have hgb := goodTok_scan (hg2 b (List.mem_cons_self _ _))
    cases L1 with
    | nil =>
      cases L2 with
      | nil =>
        rw [joinComma, joinComma] at h
        rw [h]
      | cons u L2 =>
        rw [joinComma, joinComma, splitTopAux_self a 0 hga,
          splitTopAux_append_comma b 0 (joinComma (u :: L2)) hgb] at hsp
        exact absurd (congrArg Prod.snd hsp) (by simp)
    | cons v L1 =>
      cases L2 with
      | nil =>
        rw [joinComma, joinComma, splitTopAux_self b 0 hgb,
          splitTopAux_append_comma a 0 (joinComma (v :: L1)) hga] at hsp
        exact absurd (congrArg Prod.snd hsp) (by simp)
      | cons u L2 =>
        rw [joinComma, joinComma,
          splitTopAux_append_comma a 0 (joinComma (v :: L1)) hga,
          splitTopAux_append_comma b 0 (joinComma (u :: L2)) hgb] at hsp
        have hab : a = b := congrArg Prod.fst hsp
        have htail : joinComma (v :: L1) = joinComma (u :: L2) :=
          Option.some.inj (congrArg Prod.snd hsp)
        rw [hab, joinComma_inj (v :: L1) (u :: L2)
          (fun s hs => hg1 s (List.mem_cons_of_mem _ hs))
          (fun s hs => hg2 s (List.mem_cons_of_mem _ hs)) htail]

theorem takeWhile_append_colon : ∀ (t : JStr), (∀ c ∈ t, ¬(c = ':')) → ∀ (rest : JStr),
    (t ++ ':' :: rest).takeWhile (fun c => !(c = ':')) = t
  | [], _, rest => by
    rw [List.nil_append, List.takeWhile_cons]
    simp
  | c :: t, h, rest => by
    rw [List.cons_append, List.takeWhile_cons]
    have hc : ¬(c = ':') := h c (List.mem_cons_self c t)
    simp only [hc, decide_False, Bool.not_false, if_true]
    rw [takeWhile_append_colon t (fun x hx => h x (List.mem_cons_of_mem c hx)) rest]

theorem typeOk_no_colon {s : JStr} (h : s.all typeOkChar = true) :
    ∀ c ∈ s, ¬(c = ':') := by
  intro c hc
  have := List.all_eq_true.mp h c hc
  simp only [typeOkChar, Bool.and_eq_true, Bool.not_eq_true', decide_eq_false_iff_not] at this
  exact this.1.1.1

theorem fpBase_type_eq {p1 p2 : PProps} (h1 : p1.type.all typeOkChar = true)
    (h2 : p2.type.all typeOkChar = true) (h : fpBase p1 = fpBase p2) :
    p1.type = p2.type := by
  have e : ∀ (p : PProps), p.type.all typeOkChar = true →
      (fpBase p).takeWhile (fun c => !(c = ':')) = p.type := by
    intro p hp
    unfold fpBase
    rw [List.append_assoc, List.append_assoc, List.append_assoc]
    have : js ":" ++ (intToChars (snap p.width) ++ (js "x" ++ intToChars (snap p.height)))
        = ':' :: (intToChars (snap p.width) ++ (js "x" ++ intToChars (snap p.height))) := rfl
    rw [this, takeWhile_append_colon p.type (typeOk_no_colon hp) _]
  rw [← e p1 h1, ← e p2 h2, h]

theorem typesOkL_append : ∀ (l1 l2 : List PNode),
    typesOkL (l1 ++ l2) = (typesOkL l1 && typesOkL l2)
  | [], l2 => by rw [List.nil_append, typesOkL, Bool.true_and]
  | t :: l1, l2 => by
    rw [List.cons_append, typesOkL, typesOkL, typesOkL_append l1 l2, Bool.and_assoc]

theorem perm_replace_eq {α : Type} [DecidableEq α] {xs ys : List α} {a b : α}
    (h : (xs ++ a :: ys).Perm (xs ++ b :: ys)) : a = b := by
  by_contra hne
  have hcnt := h.count_eq a
  rw [List.count_append, List.count_append, List.count_cons_self,
    List.count_cons_of_ne hne] at hcnt
  omega

theorem typesOkL_mem : ∀ {l : List PNode}, typesOkL l = true → ∀ x ∈ l, typesOkT x = true := by
  intro l
  induction l with
  | nil => intro _ x hx; exact absurd hx (List.not_mem_nil x)
  | cons t rest ih =>
    intro h x hx
    rw [typesOkL, Bool.and_eq_true] at h
    rcases List.mem_cons.mp hx with h1 | h1
    · rw [h1]
      exact h.1
    · exact ih h.2 x h1

theorem jsSortStrings_perm (l : List JStr) : (jsSortStrings l).Perm l := by
  unfold jsSortStrings
  exact List.perm_insertionSort _ l

theorem fp_leaf_changed : ∀ {t1 t2 : PNode} {k : Nat}, LeafTypeChanged t1 t2 k →
    typesOkT t1 = true → typesOkT t2 = true →
    ∀ (r : Nat), k ≤ r → buildFingerprintAux r t1 ≠ buildFingerprintAux r t2 := by
  intro t1 t2 k h
  induction h with
  | @here p1 p2 hne =>
    intro hok1 hok2 r _
    rw [typesOkT, Bool.and_eq_true] at hok1 hok2
    have e : ∀ (p : PProps) (r : Nat),
        buildFingerprintAux r (PNode.node p []) = fpBase p := by
      intro p r
      cases r with
      | zero => rw [buildFingerprintAux]
      | succ r =>
        rw [buildFingerprintAux]
        simp
    rw [e, e]
    intro heq
    exact hne (fpBase_type_eq hok1.1 hok2.1 heq)
  | @deeper p xs ys s1 s2 k hsub ih =>
    intro hok1 hok2 r hk
    cases r with
    | zero => omega
    | succ r =>
      rw [typesOkT, Bool.and_eq_true] at hok1 hok2
      have hl1 := hok1.2
      have hl2 := hok2.2
      rw [typesOkL_append, Bool.and_eq_true, typesOkL, Bool.and_eq_true] at hl1 hl2
      have hne2 : buildFingerprintAux r s1 ≠ buildFingerprintAux r s2 :=
        ih hl1.2.1 hl2.2.1 r (by omega)
      have hemp1 : (xs ++ s1 :: ys).isEmpty = false := by cases xs <;> rfl
      have hemp2 : (xs ++ s2 :: ys).isEmpty = false := by cases xs <;> rfl
      intro heq
      rw [buildFingerprintAux, buildFingerprintAux] at heq
      simp only [hemp1, hemp2, Bool.false_eq_true, if_false] at heq
      have h1 := List.append_cancel_left heq
      have h2 : joinComma (jsSortStrings (fpList r (xs ++ s1 :: ys))) ++ [']'] =
          joinComma (jsSortStrings (fpList r (xs ++ s2 :: ys))) ++ [']'] := by
        injection h1
      have h3 := List.append_cancel_right h2
      have hg1 : ∀ s ∈ jsSortStrings (fpList r (xs ++ s1 :: ys)), goodTok s = true := by
        intro s hs
        have hmem := (jsSortStrings_perm _).mem_iff.mp hs
        rw [fpList_eq_map] at hmem
        obtain ⟨u, hu, hs2⟩ := List.mem_map.mp hmem
        rw [← hs2]
        exact goodTok_fpAux (typesOkL_mem hok1.2 u hu) r
      have hg2 : ∀ s ∈ jsSortStrings (fpList r (xs ++ s2 :: ys)), goodTok s = true := by
        intro s hs
        have hmem := (jsSortStrings_perm _).mem_iff.mp hs
        rw [fpList_eq_map] at hmem
        obtain ⟨u, hu, hs2⟩ := List.mem_map.mp hmem
        rw [← hs2]
        exact goodTok_fpAux (typesOkL_mem hok2.2 u hu) r
      have hS := joinComma_inj _ _ hg1 hg2 h3
      have hperm : (fpList r (xs ++ s1 :: ys)).Perm (fpList r (xs ++ s2 :: ys)) := by
        have hx : (jsSortStrings (fpList r (xs ++ s1 :: ys))).Perm
            (fpList r (xs ++ s2 :: ys)) := by
          rw [hS]
          exact jsSortStrings_perm _
        exact (jsSortStrings_perm _).symm.trans hx
      rw [fpList_eq_map, fpList_eq_map, List.map_append, List.map_append,
        List.map_cons, List.map_cons] at hperm
      exact hne2 (perm_replace_eq hperm)

/-- Claim C4 counterexample: buildFingerprint caps its recursion at depth
4, so changing the type of a leaf at depth 5 (a chain of five nested
frames over a rectangle versus the same chain over an ellipse, all node
types wellformed) leaves the fingerprint unchanged, refuting the claim
that changing any leaf type changes the fingerprint. -/
theorem claim_C4_counterexample :
    LeafTypeChanged deepAC4 deepBC4 5 ∧
    typesOkT deepAC4 = true ∧ typesOkT deepBC4 = true ∧
    buildFingerprint deepAC4 = buildFingerprint deepBC4 := by
  refine ⟨?_, by with_unfolding_all decide, by with_unfolding_all decide,
    by with_unfolding_all decide⟩
  have h0 : LeafTypeChanged (leafC4 "RECTANGLE") (leafC4 "ELLIPSE") 0 :=
    LeafTypeChanged.here (by with_unfolding_all decide)
  have h1 := @LeafTypeChanged.deeper (pPropsC4 "FRAME" 100 100) [] [] _ _ _ h0
  have h2 := @LeafTypeChanged.deeper (pPropsC4 "FRAME" 100 100) [] [] _ _ _ h1
  have h3 := @LeafTypeChanged.deeper (pPropsC4 "FRAME" 100 100) [] [] _ _ _ h2
  have h4 := @LeafTypeChanged.deeper (pPropsC4 "FRAME" 100 100) [] [] _ _ _ h3
  exact @LeafTypeChanged.deeper (pPropsC4 "FRAME" 100 100) [] [] _ _ _ h4

/-- Claim C4 (first part and child-permutation invariance confirmed,
leaf-type part corrected by the depth cap): structurally identical
subtrees (equal types, sizes equal after snapping to the 4-unit grid,
recursively matching child multisets) have equal fingerprints, and in
particular permuting a node children list never changes its fingerprint;
changing the type of one leaf changes the fingerprint provided the leaf
sits within the depth-4 recursion cap and node types avoid the delimiter
characters of the fingerprint grammar. -/
theorem claim_C4_fingerprint :
    (∀ t1 t2 : PNode, StructEq t1 t2 → buildFingerprint t1 = buildFingerprint t2) ∧
    (∀ (p : PProps) (cs cs2 : List PNode), cs.Perm cs2 →
      buildFingerprint (PNode.node p cs) = buildFingerprint (PNode.node p cs2)) ∧
    (∀ (t1 t2 : PNode) (k : Nat), LeafTypeChanged t1 t2 k →
      typesOkT t1 = true → typesOkT t2 = true → k ≤ 4 →
      buildFingerprint t1 ≠ buildFingerprint t2) := by
  refine ⟨?_, ?_, ?_⟩
  · intro t1 t2 h
    exact fpAux_congr t1 t2 h 4
  · intro p cs cs2 h
    exact fpAux_congr _ _ (StructEq.node rfl rfl rfl h.symm (forall₂_structEq_refl cs)) 4
  · intro t1 t2 k h hok1 hok2 hk
    exact fp_leaf_changed h hok1 hok2 4 hk

/-- Witness for claim C4: a frame whose two children are swapped (and
whose height moves within the snap bucket) keeps its fingerprint, and a
depth-1 leaf type change alters it. -/
theorem claim_C4_fingerprint_witness :
    (StructEq permAC4 permBC4 ∧ buildFingerprint permAC4 = buildFingerprint permBC4) ∧
    ([leafC4 "RECTANGLE", leafC4 "TEXT"].Perm [leafC4 "TEXT", leafC4 "RECTANGLE"] ∧
      buildFingerprint (PNode.node (pPropsC4 "FRAME" 100 100)
          [leafC4 "RECTANGLE", leafC4 "TEXT"]) =
        buildFingerprint (PNode.node (pPropsC4 "FRAME" 100 100)
          [leafC4 "TEXT", leafC4 "RECTANGLE"])) ∧
    (LeafTypeChanged oneAC4 oneBC4 1 ∧ typesOkT oneAC4 = true ∧ typesOkT oneBC4 = true ∧
      1 ≤ 4 ∧ buildFingerprint oneAC4 ≠ buildFingerprint oneBC4) := by
  have hse : StructEq permAC4 permBC4 :=
    StructEq.node rfl (by with_unfolding_all decide) (by with_unfolding_all decide)
      (List.Perm.swap (leafC4 "RECTANGLE") (leafC4 "TEXT") [])
      (forall₂_structEq_refl _)
  have hpm : [leafC4 "RECTANGLE", leafC4 "TEXT"].Perm [leafC4 "TEXT", leafC4 "RECTANGLE"] :=
    List.Perm.swap (leafC4 "TEXT") (leafC4 "RECTANGLE") []
  have hlc : LeafTypeChanged oneAC4 oneBC4 1 :=
    @LeafTypeChanged.deeper (pPropsC4 "FRAME" 100 100) [] [] _ _ _
      (LeafTypeChanged.here (by with_unfolding_all decide))
  exact ⟨⟨hse, claim_C4_fingerprint.1 _ _ hse⟩,
    ⟨hpm, claim_C4_fingerprint.2.1 _ _ _ hpm⟩,
    ⟨hlc, by with_unfolding_all decide, by with_unfolding_all decide, by decide,
      claim_C4_fingerprint.2.2 _ _ _ hlc (by with_unfolding_all decide)
        (by with_unfolding_all decide) (by decide)⟩⟩

end Fixma
